import Mathlib

/-!
# Intel 8080 emulator core (cpu.h / cpu.cpp): shallow embedding

The C++ state `CPUState` becomes a structure of naturals and booleans, every
handler of `cpu.cpp` becomes a function from a state to an `Outcome`, and the
opcode map filled by `init_cpu_state` becomes the list of its assignments in
source order.  Machine integers are naturals; every conversion to `uint8_t` or
`uint16_t` that the C++ performs is written out as a reduction modulo `2^8` or
`2^16`.
-/

namespace Emu8080

/-! ## cpu.h: register, register-pair and condition codes -/

/-- Keys of the `registers` map of cpu.h (the seven entries of `register_masks`). -/
inductive Register
  | A | B | C | D | E | H | L
  deriving DecidableEq, Repr

/-- The macros `A_REGISTER` .. `L_REGISTER`. -/
def Register.mask : Register → Nat
  | .A => 0b111
  | .B => 0b000
  | .C => 0b001
  | .D => 0b010
  | .E => 0b011
  | .H => 0b100
  | .L => 0b101

/-- Keys of `register_pair_high` / `register_pair_low` (the entries of `register_pair_masks`). -/
inductive RegisterPair
  | BC | DE | HL | SP
  deriving DecidableEq, Repr

/-- The macros `BC_REGISTER` .. `SP_REGISTER`. -/
def RegisterPair.mask : RegisterPair → Nat
  | .BC => 0b00
  | .DE => 0b01
  | .HL => 0b10
  | .SP => 0b11

def NOT_ZERO_FLAG : Nat := 0b000
def ZERO_FLAG : Nat := 0b001
def NO_CARRY_FLAG : Nat := 0b010
def CARRY_FLAG : Nat := 0b011
def PARITY_ODD_FLAG : Nat := 0b100
def PARITY_EVEN_FLAG : Nat := 0b101
def SIGN_POSITIVE_FLAG : Nat := 0b110
def SIGN_NEGATIVE_FLAG : Nat := 0b111

def register_masks : List Register := [.A, .B, .C, .D, .E, .H, .L]

def register_pair_masks : List RegisterPair := [.BC, .DE, .HL, .SP]

def condition_flags : List Nat :=
  [NOT_ZERO_FLAG, ZERO_FLAG, NO_CARRY_FLAG, CARRY_FLAG,
   PARITY_ODD_FLAG, PARITY_EVEN_FLAG, SIGN_POSITIVE_FLAG, SIGN_NEGATIVE_FLAG]

/-! ## Integer conversions -/

/-- Conversion of a C++ `int` to `uint8_t`. -/
def u8 (x : Int) : Nat := (x % 256).toNat

/-- Conversion of a C++ `int` to `uint16_t`. -/
def u16 (x : Int) : Nat := (x % 65536).toNat

/-- Number of one bits among the low `w` bits of `x`. -/
def popcount : Nat → Nat → Nat
  | 0, _ => 0
  | w + 1, x => x % 2 + popcount w (x / 2)

/-- GCC builtin `__builtin_parity(unsigned int)`: the number of one bits of the
argument modulo 2 (1 for an odd number of one bits). -/
def builtin_parity (x : Nat) : Nat := popcount 32 x % 2

/-! ## cpu.h: CPUState -/

/-- The data members of `struct CPUState`.  `ram` has cells `0 .. 0xFFFF`;
`input_ports` has cells `0 .. 2`. -/
structure CPUState where
  a : Nat
  b : Nat
  c : Nat
  d : Nat
  e : Nat
  h : Nat
  l : Nat
  pc : Nat
  sp : Nat
  shift_register : Nat
  shift_offset : Nat
  zero : Bool
  sign : Bool
  parity : Bool
  carry : Bool
  aux_carry : Bool
  enable_interrupt : Bool
  halt : Bool
  ram : Nat → Nat
  input_ports : Nat → Nat

/-- Every field holds a value of its C++ type. -/
structure CPUState.WF (cpu : CPUState) : Prop where
  a : cpu.a < 256
  b : cpu.b < 256
  c : cpu.c < 256
  d : cpu.d < 256
  e : cpu.e < 256
  h : cpu.h < 256
  l : cpu.l < 256
  pc : cpu.pc < 65536
  sp : cpu.sp < 65536
  shift_register : cpu.shift_register < 65536
  shift_offset : cpu.shift_offset < 256
  ram : ∀ i, cpu.ram i < 256
  input_ports : ∀ i, cpu.input_ports i < 256

/-- What an undefined operation of the C++ was. -/
inductive Undefined
  | out_of_bounds (index : Nat)
  | negative_shift
  deriving DecidableEq, Repr

/-- The `std::runtime_error`s thrown by cpu.cpp. -/
inductive Error
  | unimplemented_opcode (opcode : Nat)
  | cannot_push_sp
  | cannot_pop_sp
  deriving DecidableEq, Repr

/-- Result of running a handler: it returned a cycle count, it threw (the
state is the one at the throw), or it indexed `ram` outside `0 .. 0xFFFF`. -/
inductive Outcome
  | returned (cycles : Nat) (cpu : CPUState)
  | threw (error : Error) (cpu : CPUState)
  | undefined (what : Undefined)

namespace CPUState

/-- Read `*cpu.registers[r]`. -/
def registers (cpu : CPUState) : Register → Nat
  | .A => cpu.a
  | .B => cpu.b
  | .C => cpu.c
  | .D => cpu.d
  | .E => cpu.e
  | .H => cpu.h
  | .L => cpu.l

/-- Write `*cpu.registers[r] = v`. -/
def set_register (cpu : CPUState) (r : Register) (v : Nat) : CPUState :=
  match r with
  | .A => { cpu with a := v }
  | .B => { cpu with b := v }
  | .C => { cpu with c := v }
  | .D => { cpu with d := v }
  | .E => { cpu with e := v }
  | .H => { cpu with h := v }
  | .L => { cpu with l := v }

/-- Read `*cpu.register_pair_high[rp]`; for `SP` the second byte of `sp`. -/
def register_pair_high (cpu : CPUState) : RegisterPair → Nat
  | .BC => cpu.b
  | .DE => cpu.d
  | .HL => cpu.h
  | .SP => cpu.sp / 256

/-- Read `*cpu.register_pair_low[rp]`; for `SP` the first byte of `sp`. -/
def register_pair_low (cpu : CPUState) : RegisterPair → Nat
  | .BC => cpu.c
  | .DE => cpu.e
  | .HL => cpu.l
  | .SP => cpu.sp % 256

/-- Write `*cpu.register_pair_high[rp] = v`. -/
def set_register_pair_high (cpu : CPUState) (rp : RegisterPair) (v : Nat) : CPUState :=
  match rp with
  | .BC => { cpu with b := v }
  | .DE => { cpu with d := v }
  | .HL => { cpu with h := v }
  | .SP => { cpu with sp := v * 256 + cpu.sp % 256 }

/-- Write `*cpu.register_pair_low[rp] = v`. -/
def set_register_pair_low (cpu : CPUState) (rp : RegisterPair) (v : Nat) : CPUState :=
  match rp with
  | .BC => { cpu with c := v }
  | .DE => { cpu with e := v }
  | .HL => { cpu with l := v }
  | .SP => { cpu with sp := cpu.sp / 256 * 256 + v }

/-- Read `cpu.ram[index]` and continue; undefined outside the array. -/
def load (cpu : CPUState) (index : Nat) (k : Nat → Outcome) : Outcome :=
  if index < 0x10000 then k (cpu.ram index) else .undefined (.out_of_bounds index)

/-- Write `cpu.ram[index] = value` and continue; undefined outside the array. -/
def store (cpu : CPUState) (index value : Nat) (k : CPUState → Outcome) : Outcome :=
  if index < 0x10000 then
    k { cpu with ram := fun i => if i = index then value else cpu.ram i }
  else .undefined (.out_of_bounds index)

/-- `(ram[pc + 2] << 8) | ram[pc + 1]`; the indices are `int`s. -/
def get_immediate_value16 (cpu : CPUState) (k : Nat → Outcome) : Outcome :=
  cpu.load (cpu.pc + 2) fun hi =>
  cpu.load (cpu.pc + 1) fun lo =>
  k (((hi <<< 8) ||| lo) % 65536)

/-- `ram[pc + 1]`; the index is an `int`. -/
def get_immediate_value8 (cpu : CPUState) (k : Nat → Outcome) : Outcome :=
  cpu.load (cpu.pc + 1) k

def get_register_pair_value (cpu : CPUState) (reg_pair : RegisterPair) : Nat :=
  (((cpu.register_pair_high reg_pair) <<< 8) ||| cpu.register_pair_low reg_pair) % 65536

def push_stack (cpu : CPUState) (value : Nat) (k : CPUState → Outcome) : Outcome :=
  let cpu := { cpu with sp := u16 ((cpu.sp : Int) - 2) }
  cpu.store cpu.sp (value &&& 0xFF) fun cpu =>
  cpu.store (cpu.sp + 1) (value >>> 8) k

def pop_stack (cpu : CPUState) (k : Nat → CPUState → Outcome) : Outcome :=
  cpu.load cpu.sp fun lo =>
  cpu.load (cpu.sp + 1) fun hi =>
  let value := (lo ||| (hi <<< 8)) % 65536
  k value { cpu with sp := (cpu.sp + 2) % 65536 }

end CPUState

/-! ## Miscellaneous group -/

def nop (cpu : CPUState) : Outcome :=
  .returned 1 { cpu with pc := (cpu.pc + 1) % 65536 }

/-! ## Data transfer group -/

def move_immediate (dst_reg : Register) (cpu : CPUState) : Outcome :=
  cpu.get_immediate_value8 fun v =>
  let cpu := cpu.set_register dst_reg v
  .returned 2 { cpu with pc := (cpu.pc + 2) % 65536 }

def move_register (dst_reg src_reg : Register) (cpu : CPUState) : Outcome :=
  let cpu := cpu.set_register dst_reg (cpu.registers src_reg)
  .returned 1 { cpu with pc := (cpu.pc + 1) % 65536 }

def move_from_hl_indirect (dst_reg : Register) (cpu : CPUState) : Outcome :=
  let addr := cpu.get_register_pair_value .HL
  cpu.load addr fun v =>
  let cpu := cpu.set_register dst_reg v
  .returned 2 { cpu with pc := (cpu.pc + 1) % 65536 }

def move_to_hl_indirect (src_reg : Register) (cpu : CPUState) : Outcome :=
  let addr := cpu.get_register_pair_value .HL
  cpu.store addr (cpu.registers src_reg) fun cpu =>
  .returned 2 { cpu with pc := (cpu.pc + 1) % 65536 }

def move_to_memory_immediate (cpu : CPUState) : Outcome :=
  let addr := cpu.get_register_pair_value .HL
  cpu.get_immediate_value8 fun v =>
  cpu.store addr v fun cpu =>
  .returned 3 { cpu with pc := (cpu.pc + 2) % 65536 }

def load_register_pair_immediate (dst_reg_pair : RegisterPair) (cpu : CPUState) : Outcome :=
  cpu.load (cpu.pc + 1) fun low_byte =>
  cpu.load (cpu.pc + 2) fun high_byte =>
  let cpu := cpu.set_register_pair_low dst_reg_pair low_byte
  let cpu := cpu.set_register_pair_high dst_reg_pair high_byte
  .returned 3 { cpu with pc := (cpu.pc + 3) % 65536 }

def load_accumulator_direct (cpu : CPUState) : Outcome :=
  cpu.get_immediate_value16 fun addr =>
  cpu.load addr fun v =>
  .returned 4 { cpu with a := v, pc := (cpu.pc + 3) % 65536 }

def store_accumulator_direct (cpu : CPUState) : Outcome :=
  cpu.get_immediate_value16 fun addr =>
  cpu.store addr cpu.a fun cpu =>
  .returned 4 { cpu with pc := (cpu.pc + 3) % 65536 }

def load_hl_direct (cpu : CPUState) : Outcome :=
  cpu.get_immediate_value16 fun addr =>
  cpu.load addr fun lo =>
  let cpu := { cpu with l := lo }
  cpu.load (addr + 1) fun hi =>
  let cpu := { cpu with h := hi }
  .returned 5 { cpu with pc := (cpu.pc + 3) % 65536 }

def store_hl_direct (cpu : CPUState) : Outcome :=
  cpu.get_immediate_value16 fun addr =>
  cpu.store addr cpu.l fun cpu =>
  cpu.store (addr + 1) cpu.h fun cpu =>
  .returned 5 { cpu with pc := (cpu.pc + 3) % 65536 }

def load_accumulator_indirect (src_reg_pair : RegisterPair) (cpu : CPUState) : Outcome :=
  let addr := cpu.get_register_pair_value src_reg_pair
  cpu.load addr fun v =>
  .returned 2 { cpu with a := v, pc := (cpu.pc + 1) % 65536 }

def store_accumulator_indirect (dst_reg_pair : RegisterPair) (cpu : CPUState) : Outcome :=
  let addr := cpu.get_register_pair_value dst_reg_pair
  cpu.store addr cpu.a fun cpu =>
  .returned 2 { cpu with pc := (cpu.pc + 1) % 65536 }

def exchange_hl_and_de (cpu : CPUState) : Outcome :=
  let temp := cpu.h
  let cpu := { cpu with h := cpu.d }
  let cpu := { cpu with d := temp }
  let temp := cpu.l
  let cpu := { cpu with l := cpu.e }
  let cpu := { cpu with e := temp }
  .returned 1 { cpu with pc := (cpu.pc + 1) % 65536 }

/-! ## Arithmetic group -/

def resolve_flags_after_add (result : Nat) (cpu : CPUState) : CPUState :=
  let cpu := { cpu with a := result &&& 0xFF }
  let cpu := { cpu with zero := cpu.a == 0 }
  let cpu := { cpu with sign := (cpu.a &&& 0x80) != 0 }
  let cpu := { cpu with parity := builtin_parity cpu.a != 0 }
  let cpu := { cpu with carry := decide (result > 0xFF) }
  { cpu with aux_carry := decide ((result &&& 0b11111) > 0b1111) }

inductive CarryOperation
  | NO_CARRY
  | WITH_CARRY
  | WITH_BORROW
  deriving DecidableEq, Repr

/-- The parameter `value` is a `uint8_t`: callers convert their argument with `u8`.
Calls that leave out `carry_op` in the C++ pass its default `NO_CARRY`. -/
def add_value_to_accum (value : Nat) (cpu : CPUState) (carry_op : CarryOperation) : CPUState :=
  let carry : Nat :=
    match carry_op with
    | .WITH_CARRY => if cpu.carry then 1 else 0
    | .WITH_BORROW => if cpu.carry then u8 (-1) else 0
    | .NO_CARRY => 0
  let result := (cpu.a + value + carry) % 65536
  resolve_flags_after_add result cpu

def add_register (add_reg : Register) (cpu : CPUState) : Outcome :=
  let cpu := add_value_to_accum (cpu.registers add_reg) cpu .NO_CARRY
  .returned 1 { cpu with pc := (cpu.pc + 1) % 65536 }

def add_memory (cpu : CPUState) : Outcome :=
  let addr := cpu.get_register_pair_value .HL
  cpu.load addr fun v =>
  let cpu := add_value_to_accum v cpu .NO_CARRY
  .returned 2 { cpu with pc := (cpu.pc + 1) % 65536 }

def add_immediate (cpu : CPUState) : Outcome :=
  cpu.get_immediate_value8 fun v =>
  let cpu := add_value_to_accum v cpu .NO_CARRY
  .returned 2 { cpu with pc := (cpu.pc + 2) % 65536 }

def add_register_with_carry (add_reg : Register) (cpu : CPUState) : Outcome :=
  let carry : Nat := if cpu.carry then 1 else 0
  let cpu := add_value_to_accum (u8 ((cpu.registers add_reg : Int) + carry)) cpu .NO_CARRY
  .returned 1 { cpu with pc := (cpu.pc + 1) % 65536 }

def add_memory_with_carry (cpu : CPUState) : Outcome :=
  let addr := cpu.get_register_pair_value .HL
  cpu.load addr fun v =>
  let cpu := add_value_to_accum v cpu .WITH_CARRY
  .returned 2 { cpu with pc := (cpu.pc + 1) % 65536 }

def add_immediate_with_carry (cpu : CPUState) : Outcome :=
  cpu.get_immediate_value8 fun v =>
  let cpu := add_value_to_accum v cpu .WITH_CARRY
  .returned 2 { cpu with pc := (cpu.pc + 2) % 65536 }

def subtract_register (sub_reg : Register) (cpu : CPUState) : Outcome :=
  let cpu := add_value_to_accum (u8 (-(cpu.registers sub_reg : Int))) cpu .NO_CARRY
  .returned 1 { cpu with pc := (cpu.pc + 1) % 65536 }

def subtract_memory (cpu : CPUState) : Outcome :=
  let addr := cpu.get_register_pair_value .HL
  cpu.load addr fun v =>
  let cpu := add_value_to_accum (u8 (-(v : Int))) cpu .NO_CARRY
  .returned 2 { cpu with pc := (cpu.pc + 1) % 65536 }

def subtract_immediate (cpu : CPUState) : Outcome :=
  cpu.get_immediate_value8 fun v =>
  let cpu := add_value_to_accum (u8 (-(v : Int))) cpu .NO_CARRY
  .returned 2 { cpu with pc := (cpu.pc + 2) % 65536 }

def subtract_register_with_borrow (sub_reg : Register) (cpu : CPUState) : Outcome :=
  let cpu := add_value_to_accum (u8 (-(cpu.registers sub_reg : Int))) cpu .WITH_BORROW
  .returned 1 { cpu with pc := (cpu.pc + 1) % 65536 }

def subtract_memory_with_borrow (cpu : CPUState) : Outcome :=
  let addr := cpu.get_register_pair_value .HL
  cpu.load addr fun v =>
  let cpu := add_value_to_accum (u8 (-(v : Int))) cpu .WITH_BORROW
  .returned 2 { cpu with pc := (cpu.pc + 1) % 65536 }

def subtract_immediate_with_borrow (cpu : CPUState) : Outcome :=
  cpu.get_immediate_value8 fun v =>
  let cpu := add_value_to_accum (u8 (-(v : Int))) cpu .WITH_BORROW
  .returned 2 { cpu with pc := (cpu.pc + 2) % 65536 }

/-- The parameter `increment` is a `uint8_t` (default 1). -/
def increment_register (reg : Register) (cpu : CPUState) (increment : Nat) : Outcome :=
  let cpu := cpu.set_register reg ((cpu.registers reg + increment) % 256)
  let cpu := { cpu with zero := cpu.registers reg == 0 }
  let cpu := { cpu with sign := (cpu.registers reg &&& 0x80) != 0 }
  let cpu := { cpu with parity := builtin_parity (cpu.registers reg) != 0 }
  let cpu := { cpu with aux_carry := decide ((cpu.registers reg &&& 0b11111) > 0b1111) }
  .returned 1 { cpu with pc := (cpu.pc + 1) % 65536 }

/-- The parameter `increment` is a `uint8_t` (default 1). -/
def increment_memory (cpu : CPUState) (increment : Nat) : Outcome :=
  let addr := cpu.get_register_pair_value .HL
  cpu.load addr fun v =>
  cpu.store addr ((v + increment) % 256) fun cpu =>
  let cpu := { cpu with zero := cpu.ram addr == 0 }
  let cpu := { cpu with sign := (cpu.ram addr &&& 0x80) != 0 }
  let cpu := { cpu with parity := builtin_parity (cpu.ram addr) != 0 }
  let cpu := { cpu with aux_carry := decide ((cpu.ram addr &&& 0b11111) > 0b1111) }
  .returned 3 { cpu with pc := (cpu.pc + 1) % 65536 }

def increment_memory_op (cpu : CPUState) : Outcome :=
  increment_memory cpu 1

/-- The parameter `decrement` is a `uint8_t` (default 1). -/
def decrement_register (reg : Register) (cpu : CPUState) (decrement : Nat) : Outcome :=
  increment_register reg cpu (u8 (-(decrement : Int)))

/-- The parameter `decrement` is a `uint8_t` (default 1). -/
def decrement_memory (cpu : CPUState) (decrement : Nat) : Outcome :=
  increment_memory cpu (u8 (-(decrement : Int)))

def decrement_memory_op (cpu : CPUState) : Outcome :=
  decrement_memory cpu 1

/-- The parameter `increment` is a `uint16_t` (default 1). -/
def increment_register_pair (reg_pair : RegisterPair) (cpu : CPUState) (increment : Nat) : Outcome :=
  let value := cpu.get_register_pair_value reg_pair
  let value := (value + increment) % 65536
  let cpu := cpu.set_register_pair_low reg_pair (value &&& 0xFF)
  let cpu := cpu.set_register_pair_high reg_pair (value >>> 8)
  .returned 1 { cpu with pc := (cpu.pc + 1) % 65536 }

/-- The parameter `decrement` is a `uint16_t` (default 1). -/
def decrement_register_pair (reg_pair : RegisterPair) (cpu : CPUState) (decrement : Nat) : Outcome :=
  increment_register_pair reg_pair cpu (u16 (-(decrement : Int)))

def decimal_adjust_accumulator (cpu : CPUState) : Outcome :=
  let cpu :=
    if (cpu.a &&& 0x0F) > 9 || cpu.aux_carry then
      let result := (cpu.a + 6) % 65536
      resolve_flags_after_add result cpu
    else cpu
  let high_nibble := cpu.a >>> 4
  let cpu :=
    if high_nibble > 9 || cpu.carry then
      let result := (high_nibble + 6) % 65536
      let result := ((result <<< 4) ||| (cpu.a &&& 0x0F)) % 65536
      resolve_flags_after_add result cpu
    else cpu
  .returned 1 { cpu with pc := (cpu.pc + 1) % 65536 }

def add_register_pair_to_hl (reg_pair : RegisterPair) (cpu : CPUState) : Outcome :=
  let hl := cpu.get_register_pair_value .HL
  let reg_pair_value := cpu.get_register_pair_value reg_pair
  let result := hl + reg_pair_value
  let cpu := { cpu with h := (result >>> 8) &&& 0xFF }
  let cpu := { cpu with l := result &&& 0xFF }
  let cpu := { cpu with carry := decide (result > 0xFFFF) }
  .returned 3 { cpu with pc := (cpu.pc + 1) % 65536 }

/-! ## Logical group -/

def and_register (reg : Register) (cpu : CPUState) : Outcome :=
  let cpu := { cpu with a := cpu.a &&& cpu.registers reg }
  let cpu := { cpu with zero := cpu.a == 0 }
  let cpu := { cpu with sign := (cpu.a &&& 0x80) != 0 }
  let cpu := { cpu with parity := builtin_parity cpu.a != 0 }
  let cpu := { cpu with aux_carry := false }
  let cpu := { cpu with carry := false }
  .returned 1 { cpu with pc := (cpu.pc + 1) % 65536 }

def and_memory (cpu : CPUState) : Outcome :=
  let addr := cpu.get_register_pair_value .HL
  cpu.load addr fun v =>
  let cpu := { cpu with a := cpu.a &&& v }
  let cpu := { cpu with zero := cpu.a == 0 }
  let cpu := { cpu with sign := (cpu.a &&& 0x80) != 0 }
  let cpu := { cpu with parity := builtin_parity cpu.a != 0 }
  let cpu := { cpu with aux_carry := false }
  let cpu := { cpu with carry := false }
  .returned 2 { cpu with pc := (cpu.pc + 1) % 65536 }

def and_immediate (cpu : CPUState) : Outcome :=
  cpu.get_immediate_value8 fun v =>
  let cpu := { cpu with a := cpu.a &&& v }
  let cpu := { cpu with zero := cpu.a == 0 }
  let cpu := { cpu with sign := (cpu.a &&& 0x80) != 0 }
  let cpu := { cpu with parity := builtin_parity cpu.a != 0 }
  let cpu := { cpu with aux_carry := false }
  let cpu := { cpu with carry := false }
  .returned 2 { cpu with pc := (cpu.pc + 2) % 65536 }

def xor_register (reg : Register) (cpu : CPUState) : Outcome :=
  let cpu := { cpu with a := cpu.a ^^^ cpu.registers reg }
  let cpu := { cpu with zero := cpu.a == 0 }
  let cpu := { cpu with sign := (cpu.a &&& 0x80) != 0 }
  let cpu := { cpu with parity := builtin_parity cpu.a != 0 }
  let cpu := { cpu with aux_carry := false }
  let cpu := { cpu with carry := false }
  .returned 1 { cpu with pc := (cpu.pc + 1) % 65536 }

def xor_memory (cpu : CPUState) : Outcome :=
  let addr := cpu.get_register_pair_value .HL
  cpu.load addr fun v =>
  let cpu := { cpu with a := cpu.a ^^^ v }
  let cpu := { cpu with zero := cpu.a == 0 }
  let cpu := { cpu with sign := (cpu.a &&& 0x80) != 0 }
  let cpu := { cpu with parity := builtin_parity cpu.a != 0 }
  let cpu := { cpu with aux_carry := false }
  let cpu := { cpu with carry := false }
  .returned 2 { cpu with pc := (cpu.pc + 1) % 65536 }

def xor_immediate (cpu : CPUState) : Outcome :=
  cpu.get_immediate_value8 fun v =>
  let cpu := { cpu with a := cpu.a ^^^ v }
  let cpu := { cpu with zero := cpu.a == 0 }
  let cpu := { cpu with sign := (cpu.a &&& 0x80) != 0 }
  let cpu := { cpu with parity := builtin_parity cpu.a != 0 }
  let cpu := { cpu with aux_carry := false }
  let cpu := { cpu with carry := false }
  .returned 2 { cpu with pc := (cpu.pc + 2) % 65536 }

def or_register (reg : Register) (cpu : CPUState) : Outcome :=
  let cpu := { cpu with a := cpu.a ||| cpu.registers reg }
  let cpu := { cpu with zero := cpu.a == 0 }
  let cpu := { cpu with sign := (cpu.a &&& 0x80) != 0 }
  let cpu := { cpu with parity := builtin_parity cpu.a != 0 }
  let cpu := { cpu with aux_carry := false }
  let cpu := { cpu with carry := false }
  .returned 1 { cpu with pc := (cpu.pc + 1) % 65536 }

def or_memory (cpu : CPUState) : Outcome :=
  let addr := cpu.get_register_pair_value .HL
  cpu.load addr fun v =>
  let cpu := { cpu with a := cpu.a ||| v }
  let cpu := { cpu with zero := cpu.a == 0 }
  let cpu := { cpu with sign := (cpu.a &&& 0x80) != 0 }
  let cpu := { cpu with parity := builtin_parity cpu.a != 0 }
  let cpu := { cpu with aux_carry := false }
  let cpu := { cpu with carry := false }
  .returned 2 { cpu with pc := (cpu.pc + 1) % 65536 }

def or_immediate (cpu : CPUState) : Outcome :=
  cpu.get_immediate_value8 fun v =>
  let cpu := { cpu with a := cpu.a ||| v }
  let cpu := { cpu with zero := cpu.a == 0 }
  let cpu := { cpu with sign := (cpu.a &&& 0x80) != 0 }
  let cpu := { cpu with parity := builtin_parity cpu.a != 0 }
  let cpu := { cpu with aux_carry := false }
  let cpu := { cpu with carry := false }
  .returned 2 { cpu with pc := (cpu.pc + 2) % 65536 }

def compare_register (reg : Register) (cpu : CPUState) : Outcome :=
  let value := cpu.registers reg
  let result := u16 ((cpu.a : Int) - value)
  let cpu := { cpu with zero := result == 0 }
  let cpu := { cpu with sign := (result &&& 0x80) != 0 }
  let cpu := { cpu with parity := builtin_parity result != 0 }
  let cpu := { cpu with carry := decide (cpu.a < value) }
  let cpu := { cpu with aux_carry := decide ((result &&& 0b11111) > 0b1111) }
  .returned 1 { cpu with pc := (cpu.pc + 1) % 65536 }

def compare_memory (cpu : CPUState) : Outcome :=
  let addr := cpu.get_register_pair_value .HL
  cpu.load addr fun value =>
  let result := u16 ((cpu.a : Int) - value)
  let cpu := { cpu with zero := result == 0 }
  let cpu := { cpu with sign := (result &&& 0x80) != 0 }
  let cpu := { cpu with parity := builtin_parity result != 0 }
  let cpu := { cpu with carry := decide (cpu.a < value) }
  let cpu := { cpu with aux_carry := decide ((result &&& 0b11111) > 0b1111) }
  .returned 2 { cpu with pc := (cpu.pc + 1) % 65536 }

def compare_immediate (cpu : CPUState) : Outcome :=
  cpu.get_immediate_value8 fun value =>
  let result := u16 ((cpu.a : Int) - value)
  let cpu := { cpu with zero := result == 0 }
  let cpu := { cpu with sign := (result &&& 0x80) != 0 }
  let cpu := { cpu with parity := builtin_parity result != 0 }
  let cpu := { cpu with carry := decide (cpu.a < value) }
  let cpu := { cpu with aux_carry := decide ((result &&& 0b11111) > 0b1111) }
  .returned 2 { cpu with pc := (cpu.pc + 2) % 65536 }

def rotate_left (cpu : CPUState) : Outcome :=
  let msb := (cpu.a &&& 0x80) >>> 7
  let cpu := { cpu with a := ((cpu.a <<< 1) ||| msb) % 256 }
  let cpu := { cpu with carry := msb == 1 }
  .returned 1 { cpu with pc := (cpu.pc + 1) % 65536 }

def rotate_right (cpu : CPUState) : Outcome :=
  let lsb := cpu.a &&& 0x01
  let cpu := { cpu with a := ((cpu.a >>> 1) ||| (lsb <<< 7)) % 256 }
  let cpu := { cpu with carry := lsb == 1 }
  .returned 1 { cpu with pc := (cpu.pc + 1) % 65536 }

def rotate_left_through_carry (cpu : CPUState) : Outcome :=
  let msb := (cpu.a &&& 0x80) >>> 7
  let cpu := { cpu with a := ((cpu.a <<< 1) ||| (if cpu.carry then 1 else 0)) % 256 }
  let cpu := { cpu with carry := msb == 1 }
  .returned 1 { cpu with pc := (cpu.pc + 1) % 65536 }

def rotate_right_through_carry (cpu : CPUState) : Outcome :=
  let lsb := cpu.a &&& 0x01
  let cpu := { cpu with a := ((cpu.a >>> 1) ||| (if cpu.carry then 1 <<< 7 else 0)) % 256 }
  let cpu := { cpu with carry := lsb == 1 }
  .returned 1 { cpu with pc := (cpu.pc + 1) % 65536 }

def complement_accumulator (cpu : CPUState) : Outcome :=
  let cpu := { cpu with a := u8 (-(cpu.a : Int) - 1) }
  .returned 1 { cpu with pc := (cpu.pc + 1) % 65536 }

def complement_carry_flag (cpu : CPUState) : Outcome :=
  let cpu := { cpu with carry := !cpu.carry }
  .returned 1 { cpu with pc := (cpu.pc + 1) % 65536 }

def set_carry_flag (cpu : CPUState) : Outcome :=
  let cpu := { cpu with carry := true }
  .returned 1 { cpu with pc := (cpu.pc + 1) % 65536 }

/-! ## Branch group -/

def jump (cpu : CPUState) : Outcome :=
  cpu.get_immediate_value16 fun addr =>
  .returned 3 { cpu with pc := addr }

def evaluate_condition (condition_flag : Nat) (cpu : CPUState) : Bool :=
  if condition_flag = NOT_ZERO_FLAG then !cpu.zero
  else if condition_flag = ZERO_FLAG then cpu.zero
  else if condition_flag = NO_CARRY_FLAG then !cpu.carry
  else if condition_flag = CARRY_FLAG then cpu.carry
  else if condition_flag = PARITY_ODD_FLAG then !cpu.parity
  else if condition_flag = PARITY_EVEN_FLAG then cpu.parity
  else if condition_flag = SIGN_POSITIVE_FLAG then !cpu.sign
  else if condition_flag = SIGN_NEGATIVE_FLAG then cpu.sign
  else false

/-- The value returned by `jump` is discarded; the handler returns 3 on both paths. -/
def conditional_jump (condition_flag : Nat) (cpu : CPUState) : Outcome :=
  if evaluate_condition condition_flag cpu then
    match jump cpu with
    | .returned _ cpu => .returned 3 cpu
    | other => other
  else
    .returned 3 { cpu with pc := (cpu.pc + 3) % 65536 }

def call (cpu : CPUState) : Outcome :=
  cpu.get_immediate_value16 fun addr =>
  let next_instruction := (cpu.pc + 3) % 65536
  cpu.push_stack next_instruction fun cpu =>
  .returned 5 { cpu with pc := addr }

def condition_call (condition_flag : Nat) (cpu : CPUState) : Outcome :=
  if evaluate_condition condition_flag cpu then
    call cpu
  else
    .returned 3 { cpu with pc := (cpu.pc + 3) % 65536 }

def return_from_subroutine (cpu : CPUState) : Outcome :=
  cpu.pop_stack fun addr cpu =>
  .returned 3 { cpu with pc := addr }

def conditional_return (condition_flag : Nat) (cpu : CPUState) : Outcome :=
  if evaluate_condition condition_flag cpu then
    return_from_subroutine cpu
  else
    .returned 1 { cpu with pc := (cpu.pc + 1) % 65536 }

def restart (restart_code : Nat) (cpu : CPUState) : Outcome :=
  let next_instruction := (cpu.pc + 1) % 65536
  cpu.push_stack next_instruction fun cpu =>
  .returned 3 { cpu with pc := (restart_code <<< 3) % 65536 }

def jump_to_hl (cpu : CPUState) : Outcome :=
  .returned 1 { cpu with pc := cpu.get_register_pair_value .HL }

/-! ## Stack, I/O and machine control group -/

def push (reg_pair : RegisterPair) (cpu : CPUState) : Outcome :=
  if reg_pair = .SP then
    .threw .cannot_push_sp cpu
  else
    let value := cpu.get_register_pair_value reg_pair
    cpu.push_stack value fun cpu =>
    .returned 3 { cpu with pc := (cpu.pc + 1) % 65536 }

def pop (reg_pair : RegisterPair) (cpu : CPUState) : Outcome :=
  if reg_pair = .SP then
    .threw .cannot_pop_sp cpu
  else
    cpu.pop_stack fun value cpu =>
    let cpu := cpu.set_register_pair_low reg_pair (value &&& 0xFF)
    let cpu := cpu.set_register_pair_high reg_pair (value >>> 8)
    .returned 3 { cpu with pc := (cpu.pc + 1) % 65536 }

def push_processor_state (cpu : CPUState) : Outcome :=
  let low_byte := cpu.a
  let high_byte := 0
  let high_byte := (high_byte ||| (cpu.sign.toNat <<< 7)) % 256
  let high_byte := (high_byte ||| (cpu.zero.toNat <<< 6)) % 256
  let high_byte := (high_byte ||| (cpu.aux_carry.toNat <<< 4)) % 256
  let high_byte := (high_byte ||| (cpu.parity.toNat <<< 2)) % 256
  let high_byte := (high_byte ||| (1 <<< 1)) % 256
  let high_byte := (high_byte ||| cpu.carry.toNat) % 256
  let value := ((high_byte <<< 8) ||| low_byte) % 65536
  cpu.push_stack value fun cpu =>
  .returned 3 { cpu with pc := (cpu.pc + 1) % 65536 }

def pop_processor_state (cpu : CPUState) : Outcome :=
  cpu.pop_stack fun value cpu =>
  let low_byte := value &&& 0xFF
  let high_byte := (value >>> 8) % 256
  let cpu := { cpu with a := low_byte }
  let cpu := { cpu with sign := (high_byte &&& 0x80) != 0 }
  let cpu := { cpu with zero := (high_byte &&& 0x40) != 0 }
  let cpu := { cpu with aux_carry := (high_byte &&& 0x10) != 0 }
  let cpu := { cpu with parity := (high_byte &&& 0x04) != 0 }
  let cpu := { cpu with carry := (high_byte &&& 0x01) != 0 }
  .returned 3 { cpu with pc := (cpu.pc + 1) % 65536 }

def exchange_stack_top_with_hl (cpu : CPUState) : Outcome :=
  cpu.pop_stack fun stack_top cpu =>
  let hl := cpu.get_register_pair_value .HL
  cpu.push_stack hl fun cpu =>
  let cpu := cpu.set_register_pair_low .HL (stack_top &&& 0xFF)
  let cpu := cpu.set_register_pair_high .HL (stack_top >>> 8)
  .returned 5 { cpu with pc := (cpu.pc + 1) % 65536 }

def move_hl_to_stack_pointer (cpu : CPUState) : Outcome :=
  let cpu := { cpu with sp := cpu.get_register_pair_value .HL }
  .returned 1 { cpu with pc := (cpu.pc + 1) % 65536 }

def transfer_to_shift_register (cpu : CPUState) : CPUState :=
  { cpu with shift_register := ((cpu.shift_register >>> 8) ||| (cpu.a <<< 8)) % 65536 }

def transfer_to_shift_offset (cpu : CPUState) : CPUState :=
  { cpu with shift_offset := cpu.a &&& 0x7 }

/-- The shift count `8 - cpu.shift_offset` is an `int`; a negative count is undefined. -/
def transfer_from_shift_register (cpu : CPUState) (k : CPUState → Outcome) : Outcome :=
  if cpu.shift_offset ≤ 8 then
    k { cpu with a := (cpu.shift_register >>> (8 - cpu.shift_offset)) &&& 0xFF }
  else .undefined .negative_shift

def input_from_port (cpu : CPUState) : Outcome :=
  cpu.get_immediate_value8 fun port =>
  let cpu := { cpu with a := if port < 3 then cpu.input_ports port else cpu.a }
  match port with
  | 3 =>
    transfer_from_shift_register cpu fun cpu =>
    .returned 3 { cpu with pc := (cpu.pc + 2) % 65536 }
  | _ =>
    .returned 3 { cpu with pc := (cpu.pc + 2) % 65536 }

def output_to_port (cpu : CPUState) : Outcome :=
  cpu.get_immediate_value8 fun port =>
  let cpu :=
    if port = 2 then transfer_to_shift_offset cpu
    else if port = 4 then transfer_to_shift_register cpu
    else cpu
  .returned 3 { cpu with pc := (cpu.pc + 2) % 65536 }

def enable_interrupts (cpu : CPUState) : Outcome :=
  let cpu := { cpu with enable_interrupt := true }
  .returned 1 { cpu with pc := (cpu.pc + 1) % 65536 }

def disable_interrupts (cpu : CPUState) : Outcome :=
  let cpu := { cpu with enable_interrupt := false }
  .returned 1 { cpu with pc := (cpu.pc + 1) % 65536 }

def halt (cpu : CPUState) : Outcome :=
  let cpu := { cpu with halt := true }
  .returned 1 { cpu with pc := (cpu.pc + 1) % 65536 }

/-! ## The opcode table -/

/-- The callables stored in `cpu.opcodes`: a handler of cpu.cpp together with
the values its lambda captured. -/
inductive Handler
  | nop
  | move_immediate (r1 : Register)
  | move_register (r1 r2 : Register)
  | move_from_hl_indirect (r1 : Register)
  | move_to_hl_indirect (r1 : Register)
  | move_to_memory_immediate
  | load_register_pair_immediate (rp : RegisterPair)
  | load_accumulator_direct
  | store_accumulator_direct
  | load_hl_direct
  | store_hl_direct
  | load_accumulator_indirect (rp : RegisterPair)
  | store_accumulator_indirect (rp : RegisterPair)
  | exchange_hl_and_de
  | add_register (r : Register)
  | add_memory
  | add_immediate
  | add_register_with_carry (r : Register)
  | add_memory_with_carry
  | add_immediate_with_carry
  | subtract_register (r : Register)
  | subtract_memory
  | subtract_immediate
  | subtract_register_with_borrow (r : Register)
  | subtract_memory_with_borrow
  | subtract_immediate_with_borrow
  | increment_register (r : Register)
  | increment_memory_op
  | decrement_register (r : Register)
  | decrement_memory_op
  | increment_register_pair (rp : RegisterPair)
  | decrement_register_pair (rp : RegisterPair)
  | add_register_pair_to_hl (rp : RegisterPair)
  | decimal_adjust_accumulator
  | and_register (r : Register)
  | and_memory
  | and_immediate
  | xor_register (r : Register)
  | xor_memory
  | xor_immediate
  | or_register (r : Register)
  | or_memory
  | or_immediate
  | compare_register (r : Register)
  | compare_memory
  | compare_immediate
  | rotate_left
  | rotate_right
  | rotate_left_through_carry
  | rotate_right_through_carry
  | complement_accumulator
  | complement_carry_flag
  | set_carry_flag
  | jump
  | conditional_jump (condition_flag : Nat)
  | call
  | condition_call (condition_flag : Nat)
  | return_from_subroutine
  | conditional_return (condition_flag : Nat)
  | restart (restart_code : Nat)
  | jump_to_hl
  | push (rp : RegisterPair)
  | pop (rp : RegisterPair)
  | push_processor_state
  | pop_processor_state
  | exchange_stack_top_with_hl
  | move_hl_to_stack_pointer
  | input_from_port
  | output_to_port
  | enable_interrupts
  | disable_interrupts
  | halt

/-- Calling a stored callable on a state. -/
def Handler.run : Handler → CPUState → Outcome
  | .nop => Emu8080.nop
  | .move_immediate r1 => Emu8080.move_immediate r1
  | .move_register r1 r2 => Emu8080.move_register r1 r2
  | .move_from_hl_indirect r1 => Emu8080.move_from_hl_indirect r1
  | .move_to_hl_indirect r1 => Emu8080.move_to_hl_indirect r1
  | .move_to_memory_immediate => Emu8080.move_to_memory_immediate
  | .load_register_pair_immediate rp => Emu8080.load_register_pair_immediate rp
  | .load_accumulator_direct => Emu8080.load_accumulator_direct
  | .store_accumulator_direct => Emu8080.store_accumulator_direct
  | .load_hl_direct => Emu8080.load_hl_direct
  | .store_hl_direct => Emu8080.store_hl_direct
  | .load_accumulator_indirect rp => Emu8080.load_accumulator_indirect rp
  | .store_accumulator_indirect rp => Emu8080.store_accumulator_indirect rp
  | .exchange_hl_and_de => Emu8080.exchange_hl_and_de
  | .add_register r => Emu8080.add_register r
  | .add_memory => Emu8080.add_memory
  | .add_immediate => Emu8080.add_immediate
  | .add_register_with_carry r => Emu8080.add_register_with_carry r
  | .add_memory_with_carry => Emu8080.add_memory_with_carry
  | .add_immediate_with_carry => Emu8080.add_immediate_with_carry
  | .subtract_register r => Emu8080.subtract_register r
  | .subtract_memory => Emu8080.subtract_memory
  | .subtract_immediate => Emu8080.subtract_immediate
  | .subtract_register_with_borrow r => Emu8080.subtract_register_with_borrow r
  | .subtract_memory_with_borrow => Emu8080.subtract_memory_with_borrow
  | .subtract_immediate_with_borrow => Emu8080.subtract_immediate_with_borrow
  | .increment_register r => fun cpu => Emu8080.increment_register r cpu 1
  | .increment_memory_op => Emu8080.increment_memory_op
  | .decrement_register r => fun cpu => Emu8080.decrement_register r cpu 1
  | .decrement_memory_op => Emu8080.decrement_memory_op
  | .increment_register_pair rp => fun cpu => Emu8080.increment_register_pair rp cpu 1
  | .decrement_register_pair rp => fun cpu => Emu8080.decrement_register_pair rp cpu 1
  | .add_register_pair_to_hl rp => Emu8080.add_register_pair_to_hl rp
  | .decimal_adjust_accumulator => Emu8080.decimal_adjust_accumulator
  | .and_register r => Emu8080.and_register r
  | .and_memory => Emu8080.and_memory
  | .and_immediate => Emu8080.and_immediate
  | .xor_register r => Emu8080.xor_register r
  | .xor_memory => Emu8080.xor_memory
  | .xor_immediate => Emu8080.xor_immediate
  | .or_register r => Emu8080.or_register r
  | .or_memory => Emu8080.or_memory
  | .or_immediate => Emu8080.or_immediate
  | .compare_register r => Emu8080.compare_register r
  | .compare_memory => Emu8080.compare_memory
  | .compare_immediate => Emu8080.compare_immediate
  | .rotate_left => Emu8080.rotate_left
  | .rotate_right => Emu8080.rotate_right
  | .rotate_left_through_carry => Emu8080.rotate_left_through_carry
  | .rotate_right_through_carry => Emu8080.rotate_right_through_carry
  | .complement_accumulator => Emu8080.complement_accumulator
  | .complement_carry_flag => Emu8080.complement_carry_flag
  | .set_carry_flag => Emu8080.set_carry_flag
  | .jump => Emu8080.jump
  | .conditional_jump condition_flag => Emu8080.conditional_jump condition_flag
  | .call => Emu8080.call
  | .condition_call condition_flag => Emu8080.condition_call condition_flag
  | .return_from_subroutine => Emu8080.return_from_subroutine
  | .conditional_return condition_flag => Emu8080.conditional_return condition_flag
  | .restart restart_code => Emu8080.restart restart_code
  | .jump_to_hl => Emu8080.jump_to_hl
  | .push rp => Emu8080.push rp
  | .pop rp => Emu8080.pop rp
  | .push_processor_state => Emu8080.push_processor_state
  | .pop_processor_state => Emu8080.pop_processor_state
  | .exchange_stack_top_with_hl => Emu8080.exchange_stack_top_with_hl
  | .move_hl_to_stack_pointer => Emu8080.move_hl_to_stack_pointer
  | .input_from_port => Emu8080.input_from_port
  | .output_to_port => Emu8080.output_to_port
  | .enable_interrupts => Emu8080.enable_interrupts
  | .disable_interrupts => Emu8080.disable_interrupts
  | .halt => Emu8080.halt

/-- The assignments `cpu.opcodes[key] = callable` made by `init_cpu_state`, in
the order in which the C++ executes them.  Keys are converted to `uint8_t`. -/
def init_cpu_state : List (Nat × Handler) :=
  [((0x00 : Nat) % 256, Handler.nop)]
  -- Data Transfer Group
  ++ register_masks.flatMap (fun r1 =>
      [((0x06 ||| (r1.mask <<< 3)) % 256, Handler.move_immediate r1)]
      ++ register_masks.map (fun r2 =>
          ((0x40 ||| (r1.mask <<< 3) ||| r2.mask) % 256, Handler.move_register r1 r2))
      ++ [((0x46 ||| (r1.mask <<< 3)) % 256, Handler.move_from_hl_indirect r1),
          ((0x70 ||| r1.mask) % 256, Handler.move_to_hl_indirect r1)])
  ++ [(0x36, Handler.move_to_memory_immediate)]
  ++ register_pair_masks.map (fun rp =>
      ((0x01 ||| (rp.mask <<< 4)) % 256, Handler.load_register_pair_immediate rp))
  ++ [(0x3A, Handler.load_accumulator_direct),
      (0x32, Handler.store_accumulator_direct),
      (0x2A, Handler.load_hl_direct),
      (0x22, Handler.store_hl_direct),
      ((0x0A ||| (RegisterPair.BC.mask <<< 4)) % 256, Handler.load_accumulator_indirect .BC),
      ((0x0A ||| (RegisterPair.DE.mask <<< 4)) % 256, Handler.load_accumulator_indirect .DE),
      ((0x02 ||| (RegisterPair.BC.mask <<< 4)) % 256, Handler.store_accumulator_indirect .BC),
      ((0x02 ||| (RegisterPair.DE.mask <<< 4)) % 256, Handler.store_accumulator_indirect .DE),
      (0xEB, Handler.exchange_hl_and_de)]
  -- Arithmetic Group
  ++ register_masks.map (fun r => ((0x80 ||| r.mask) % 256, Handler.add_register r))
  ++ [(0x86, Handler.add_memory), (0xC6, Handler.add_immediate)]
  ++ register_masks.map (fun r => ((0x88 ||| r.mask) % 256, Handler.add_register_with_carry r))
  ++ [(0x8E, Handler.add_memory_with_carry), (0xCE, Handler.add_immediate_with_carry)]
  ++ register_masks.map (fun r => ((0x90 ||| r.mask) % 256, Handler.subtract_register r))
  ++ [(0x96, Handler.subtract_memory), (0xD6, Handler.subtract_immediate)]
  ++ register_masks.map (fun r =>
      ((0x98 ||| r.mask) % 256, Handler.subtract_register_with_borrow r))
  ++ [(0x9E, Handler.subtract_memory_with_borrow),
      (0xDE, Handler.subtract_immediate_with_borrow)]
  ++ register_masks.map (fun r => ((0x04 ||| (r.mask <<< 3)) % 256, Handler.increment_register r))
  ++ [(0x34, Handler.increment_memory_op)]
  ++ register_masks.map (fun r => ((0x05 ||| (r.mask <<< 3)) % 256, Handler.decrement_register r))
  ++ [(0x35, Handler.decrement_memory_op)]
  ++ register_pair_masks.map (fun rp =>
      ((0x03 ||| (rp.mask <<< 4)) % 256, Handler.increment_register_pair rp))
  ++ register_pair_masks.map (fun rp =>
      ((0x0B ||| (rp.mask <<< 4)) % 256, Handler.decrement_register_pair rp))
  ++ register_pair_masks.map (fun rp =>
      ((0x09 ||| (rp.mask <<< 4)) % 256, Handler.add_register_pair_to_hl rp))
  ++ [(0x27, Handler.decimal_adjust_accumulator)]
  -- Logical Group
  ++ register_masks.map (fun r => ((0xA0 ||| r.mask) % 256, Handler.and_register r))
  ++ [(0xA6, Handler.and_memory), (0xE6, Handler.and_immediate)]
  ++ register_masks.map (fun r => ((0xA8 ||| r.mask) % 256, Handler.xor_register r))
  ++ [(0xAE, Handler.xor_memory), (0xEE, Handler.xor_immediate)]
  ++ register_masks.map (fun r => ((0xB0 ||| r.mask) % 256, Handler.or_register r))
  ++ [(0xB6, Handler.or_memory), (0xF6, Handler.or_immediate)]
  ++ register_masks.map (fun r => ((0xB8 ||| r.mask) % 256, Handler.compare_register r))
  ++ [(0xBE, Handler.compare_memory), (0xFE, Handler.compare_immediate),
      (0x07, Handler.rotate_left),
      (0x0F, Handler.rotate_right),
      (0x17, Handler.rotate_left_through_carry),
      (0x1F, Handler.rotate_right_through_carry),
      (0x2F, Handler.complement_accumulator),
      (0x3F, Handler.complement_carry_flag),
      (0x37, Handler.set_carry_flag)]
  -- Branch Group
  ++ [(0xC3, Handler.jump)]
  ++ condition_flags.map (fun condition_flag =>
      ((0xC2 ||| (condition_flag <<< 3)) % 256, Handler.conditional_jump condition_flag))
  ++ [(0xCD, Handler.call)]
  ++ condition_flags.map (fun condition_flag =>
      ((0xC4 ||| (condition_flag <<< 3)) % 256, Handler.condition_call condition_flag))
  ++ [(0xC9, Handler.return_from_subroutine)]
  ++ condition_flags.map (fun condition_flag =>
      ((0xC0 ||| (condition_flag <<< 3)) % 256, Handler.conditional_return condition_flag))
  ++ (List.range 8).map (fun restart_code =>
      ((0xC7 ||| (restart_code <<< 3)) % 256, Handler.restart restart_code))
  ++ [(0xE9, Handler.jump_to_hl)]
  -- Stack, I/O, and Machine Control Group
  ++ register_pair_masks.map (fun rp => ((0xC5 ||| (rp.mask <<< 4)) % 256, Handler.push rp))
  ++ register_pair_masks.map (fun rp => ((0xC1 ||| (rp.mask <<< 4)) % 256, Handler.pop rp))
  ++ [(0xF5, Handler.push_processor_state),
      (0xF1, Handler.pop_processor_state),
      (0xE3, Handler.exchange_stack_top_with_hl),
      (0xF9, Handler.move_hl_to_stack_pointer),
      (0xDB, Handler.input_from_port),
      (0xD3, Handler.output_to_port),
      (0xFB, Handler.enable_interrupts),
      (0xF3, Handler.disable_interrupts),
      (0x76, Handler.halt)]

/-- The map `cpu.opcodes` after the listed assignments: `opcodes_after l key` is
the value of the last assignment to `key`, as `std::map::operator[]` leaves it,
and `none` when `key` was never assigned (`find` returns `end()`). -/
def opcodes_after : List (Nat × Handler) → Nat → Option Handler
  | [], _ => none
  | (key, callable) :: rest, opcode =>
    match opcodes_after rest opcode with
    | some later => some later
    | none => if key = opcode then some callable else none

/-- The map `cpu.opcodes` of a state on which `init_cpu_state` has run. -/
def opcodes (opcode : Nat) : Option Handler :=
  opcodes_after init_cpu_state opcode

/-- One dispatcher step on a state whose opcode map was filled by `init_cpu_state`. -/
def cycle_cpu (cpu : CPUState) : Outcome :=
  cpu.load cpu.pc fun opcode =>
  match opcodes opcode with
  | none => .threw (.unimplemented_opcode opcode) cpu
  | some instruction => instruction.run cpu

/-- The function returns `void`: the outcome carries cycle count 0. -/
def interrupt_cpu (cpu : CPUState) (interrupt_num : Nat) : Outcome :=
  if cpu.enable_interrupt then
    cpu.push_stack cpu.pc fun cpu =>
    let cpu := { cpu with pc := (8 * interrupt_num) % 65536 }
    .returned 0 { cpu with enable_interrupt := false }
  else
    .returned 0 cpu

/-! ## Initial state and ROM image -/

/-- The default member initialisers of `struct CPUState`; the freshly allocated
`ram` is whatever `ram` is passed. -/
def CPUState.default (ram : Nat → Nat) : CPUState :=
  { a := 0, b := 0, c := 0, d := 0, e := 0, h := 0, l := 0,
    pc := 0, sp := 0xf000, shift_register := 0, shift_offset := 0,
    zero := false, sign := false, parity := false, carry := false, aux_carry := false,
    enable_interrupt := false, halt := false,
    ram := ram, input_ports := fun _ => 0 }

/-- The memory effect of `load_rom` (main.cpp): `memset(cpu.ram, 0, 0xFFFF)`
followed by `memcpy(cpu.ram, bin_data, bin_size)`. -/
def load_rom (cpu : CPUState) (bin_data : List Nat) : CPUState :=
  { cpu with ram := fun i =>
      if i < bin_data.length then bin_data.getD i 0
      else if i < 0xFFFF then 0
      else cpu.ram i }

/-! ## Observations on outcomes and step sequences -/

/-- The state a call returned with, if it returned. -/
def Outcome.state : Outcome → Option CPUState
  | .returned _ cpu => some cpu
  | _ => none

/-- The cycle count a call returned, if it returned. -/
def Outcome.cycles : Outcome → Option Nat
  | .returned cycles _ => some cycles
  | _ => none

/-- The error a call threw, if it threw. -/
def Outcome.thrown : Outcome → Option Error
  | .threw error _ => some error
  | _ => none

/-- The callables that reach a `throw` statement: `push` and `pop` on the `SP` slot. -/
def Handler.throws : Handler → Bool
  | .push .SP => true
  | .pop .SP => true
  | _ => false

/-- A number of consecutive calls of `cycle_cpu`, adding up the returned cycle
counts; stops at the first call that does not return. -/
def run_steps : Nat → CPUState → Outcome
  | 0, cpu => .returned 0 cpu
  | n + 1, cpu =>
    match cycle_cpu cpu with
    | .returned cycles cpu =>
      match run_steps n cpu with
      | .returned more cpu => .returned (cycles + more) cpu
      | other => other
    | other => other

/-- The twelve opcode bytes to which `init_cpu_state` assigns no callable. -/
def unassigned_opcodes : List Nat :=
  [0x08, 0x10, 0x18, 0x20, 0x28, 0x30, 0x38, 0xCB, 0xD9, 0xDD, 0xED, 0xFD]

/-- A state as `main` sets it up before the CPU loop starts: default members,
zero-filled memory, `bin_data` copied to address 0. -/
def boot (bin_data : List Nat) : CPUState :=
  load_rom (CPUState.default fun _ => 0) bin_data

/-- The state `boot bin_data` with the accumulator, register `B`, the carry
flag and `pc` replaced. -/
def boot_with (bin_data : List Nat) (a b : Nat) (carry : Bool) (pc : Nat) : CPUState :=
  { boot bin_data with a := a, b := b, carry := carry, pc := pc }

/-- The callables of ADD, ADC, SUB, SBB, ANA, XRA and ORA in register, memory
and immediate form. -/
def Handler.is_accumulator_alu : Handler → Bool
  | .add_register _ | .add_memory | .add_immediate => true
  | .add_register_with_carry _ | .add_memory_with_carry | .add_immediate_with_carry => true
  | .subtract_register _ | .subtract_memory | .subtract_immediate => true
  | .subtract_register_with_borrow _ | .subtract_memory_with_borrow
  | .subtract_immediate_with_borrow => true
  | .and_register _ | .and_memory | .and_immediate => true
  | .xor_register _ | .xor_memory | .xor_immediate => true
  | .or_register _ | .or_memory | .or_immediate => true
  | _ => false

/-- The ALU callables that read their operand with `get_immediate_value8`. -/
def Handler.is_immediate_alu : Handler → Bool
  | .add_immediate | .add_immediate_with_carry => true
  | .subtract_immediate | .subtract_immediate_with_borrow => true
  | .and_immediate | .xor_immediate | .or_immediate | .compare_immediate => true
  | _ => false

/-- The undefined operation a call ran into, if it did. -/
def Outcome.fault : Outcome → Option Undefined
  | .undefined what => some what
  | _ => none

/-- The state `cpu` with its seven boolean members replaced. -/
def CPUState.with_flags (cpu : CPUState)
    (zero sign parity carry aux_carry enable_interrupt halt : Bool) : CPUState :=
  { cpu with zero := zero, sign := sign, parity := parity, carry := carry,
             aux_carry := aux_carry, enable_interrupt := enable_interrupt, halt := halt }

/-- The outcome `o` with the member `halt` of its state replaced. -/
def Outcome.with_halt (o : Outcome) (halt : Bool) : Outcome :=
  match o with
  | .returned cycles cpu => .returned cycles { cpu with halt := halt }
  | .threw error cpu => .threw error { cpu with halt := halt }
  | .undefined what => .undefined what

/-- When a callable assigns `pc` a target address instead of advancing it:
`none` never, `some none` always, `some (some c)` when `evaluate_condition c`
holds (the branch group of cpu.cpp). -/
def Handler.transfer : Handler → Option (Option Nat)
  | .jump | .call | .return_from_subroutine | .restart _ | .jump_to_hl => some none
  | .conditional_jump c | .condition_call c | .conditional_return c => some (some c)
  | _ => none

/-- Whether the callable assigns `pc` a target address in state `cpu`. -/
def Handler.taken (handler : Handler) (cpu : CPUState) : Bool :=
  match handler.transfer with
  | none => false
  | some none => true
  | some (some c) => evaluate_condition c cpu

/-- The operand of the statement `cpu.pc += n` (or `cpu.pc++`) on the path of a
callable that does not assign `pc` a target address. -/
def Handler.length : Handler → Nat
  | .move_immediate _ | .move_to_memory_immediate => 2
  | .add_immediate | .add_immediate_with_carry | .subtract_immediate
  | .subtract_immediate_with_borrow | .and_immediate | .xor_immediate | .or_immediate
  | .compare_immediate => 2
  | .input_from_port | .output_to_port => 2
  | .load_register_pair_immediate _ | .load_accumulator_direct | .store_accumulator_direct
  | .load_hl_direct | .store_hl_direct => 3
  | .conditional_jump _ | .condition_call _ => 3
  | _ => 1

/-- The value of the `return` statement a callable reaches; `taken` tells
which path of a conditional call or return. -/
def Handler.cycles (handler : Handler) (taken : Bool) : Nat :=
  match handler with
  | .nop | .move_register _ _ | .exchange_hl_and_de => 1
  | .move_immediate _ | .move_from_hl_indirect _ | .move_to_hl_indirect _ => 2
  | .move_to_memory_immediate | .load_register_pair_immediate _ => 3
  | .load_accumulator_direct | .store_accumulator_direct => 4
  | .load_hl_direct | .store_hl_direct => 5
  | .load_accumulator_indirect _ | .store_accumulator_indirect _ => 2
  | .add_register _ | .add_register_with_carry _ | .subtract_register _
  | .subtract_register_with_borrow _ | .and_register _ | .xor_register _ | .or_register _
  | .compare_register _ => 1
  | .add_memory | .add_memory_with_carry | .subtract_memory | .subtract_memory_with_borrow
  | .and_memory | .xor_memory | .or_memory | .compare_memory => 2
  | .add_immediate | .add_immediate_with_carry | .subtract_immediate
  | .subtract_immediate_with_borrow | .and_immediate | .xor_immediate | .or_immediate
  | .compare_immediate => 2
  | .increment_register _ | .decrement_register _ => 1
  | .increment_memory_op | .decrement_memory_op => 3
  | .increment_register_pair _ | .decrement_register_pair _ => 1
  | .add_register_pair_to_hl _ => 3
  | .decimal_adjust_accumulator => 1
  | .rotate_left | .rotate_right | .rotate_left_through_carry | .rotate_right_through_carry => 1
  | .complement_accumulator | .complement_carry_flag | .set_carry_flag => 1
  | .jump | .conditional_jump _ => 3
  | .call => 5
  | .condition_call _ => if taken then 5 else 3
  | .return_from_subroutine => 3
  | .conditional_return _ => if taken then 3 else 1
  | .restart _ => 3
  | .jump_to_hl => 1
  | .push _ | .pop _ | .push_processor_state | .pop_processor_state => 3
  | .exchange_stack_top_with_hl => 5
  | .move_hl_to_stack_pointer => 1
  | .input_from_port | .output_to_port => 3
  | .enable_interrupts | .disable_interrupts | .halt => 1

/-- What one call of a callable leaves behind besides its own effect: the
returned count, the advanced `pc`, and the members no callable resets. -/
structure StepFacts (handler : Handler) (cpu : CPUState) (cycles : Nat) (cpu' : CPUState) :
    Prop where
  cycles : cycles = handler.cycles (handler.taken cpu)
  pc : handler.taken cpu = false → cpu'.pc = (cpu.pc + handler.length) % 65536
  halt : cpu.halt = true → cpu'.halt = true
  shift_offset : cpu'.shift_offset = cpu.shift_offset ∨ cpu'.shift_offset = cpu.a &&& 0x7
  input_ports : cpu'.input_ports = cpu.input_ports


/-- The states in which no callable indexes `ram` outside `0 .. 0xFFFF` or
shifts by a negative count: both operand bytes, both stack cells and the cell
after the direct address lie inside the array. -/
structure CPUState.InRange (cpu : CPUState) : Prop where
  operands : cpu.pc + 2 < 65536
  push : cpu.sp ≠ 1
  pop : cpu.sp + 1 < 65536
  shift : cpu.shift_offset ≤ 8
  direct : ((cpu.ram (cpu.pc + 2) <<< 8) ||| cpu.ram (cpu.pc + 1)) % 65536 + 1 < 65536

/-- The states the program of main.cpp can be in between two calls on the
CPU: the state `main` sets up, and from a reachable state the one after a
returning `cycle_cpu` or `interrupt_cpu` (both called by `cpu_loop`), after
the event loop of `main` has written `input_ports[1]`, and after `main` has
set `halt`. -/
inductive Reachable : CPUState → Prop
  | boot (bin_data : List Nat) : (∀ x ∈ bin_data, x < 256) → Reachable (boot bin_data)
  | cycle {cpu cpu' : CPUState} {cycles : Nat} :
      Reachable cpu → cycle_cpu cpu = .returned cycles cpu' → Reachable cpu'
  | interrupt {cpu cpu' : CPUState} {interrupt_num cycles : Nat} :
      Reachable cpu → interrupt_cpu cpu interrupt_num = .returned cycles cpu' → Reachable cpu'
  | input {cpu : CPUState} (value : Nat) :
      Reachable cpu → value < 256 →
      Reachable { cpu with input_ports := fun i => if i = 1 then value else cpu.input_ports i }
  | stop {cpu : CPUState} : Reachable cpu → Reachable { cpu with halt := true }

/-- The callables of the data transfer group of cpu.cpp. -/
def Handler.is_data_transfer : Handler → Bool
  | .move_immediate _ | .move_register _ _ | .move_from_hl_indirect _ | .move_to_hl_indirect _
  | .move_to_memory_immediate | .load_register_pair_immediate _ | .load_accumulator_direct
  | .store_accumulator_direct | .load_hl_direct | .store_hl_direct
  | .load_accumulator_indirect _ | .store_accumulator_indirect _ | .exchange_hl_and_de => true
  | _ => false

/-! ## The specification's tables

The following definitions are written from the words of the specification,
to be compared with the opcode table and the handlers of cpu.cpp. -/

/-- Specification, transfers of control: JMP, CALL, RET, PCHL and RST n always
(`some none`); Jcond, Ccond and Rcond under the condition code in bits 3..5 of
the opcode (`some (some c)`); every other opcode never (`none`). -/
def spec_transfer (opcode : Nat) : Option (Option Nat) :=
  if opcode = 0xC3 ∨ opcode = 0xCD ∨ opcode = 0xC9 ∨ opcode = 0xE9 ∨ opcode &&& 0xC7 = 0xC7 then
    some none
  else if opcode &&& 0xC7 = 0xC2 ∨ opcode &&& 0xC7 = 0xC4 ∨ opcode &&& 0xC7 = 0xC0 then
    some (some ((opcode >>> 3) &&& 0x7))
  else none

/-- Specification: whether the instruction with this opcode is a taken
transfer of control in state `cpu`. -/
def spec_taken (opcode : Nat) (cpu : CPUState) : Bool :=
  match spec_transfer opcode with
  | none => false
  | some none => true
  | some (some c) => evaluate_condition c cpu

/-- Specification, encoded instruction length: 3 for LXI, LDA, STA, LHLD, SHLD,
Jcond and Ccond; 2 for MVI r, MVI M, the immediate ALU operations, IN and OUT;
1 for every other opcode. -/
def spec_instruction_length (opcode : Nat) : Nat :=
  if opcode &&& 0xCF = 0x01 ∨ opcode = 0x3A ∨ opcode = 0x32 ∨ opcode = 0x2A ∨ opcode = 0x22
      ∨ opcode &&& 0xC7 = 0xC2 ∨ opcode &&& 0xC7 = 0xC4 then 3
  else if opcode &&& 0xC7 = 0x06 ∨ opcode &&& 0xC7 = 0xC6 ∨ opcode = 0xDB ∨ opcode = 0xD3 then 2
  else 1

/-- Specification, machine-cycle count of the instruction with this opcode;
`taken` tells whether a conditional call or return is taken.  Opcodes the
specification does not list get 0. -/
def spec_cycle_count (opcode : Nat) (taken : Bool) : Nat :=
  -- LDA, STA
  if opcode = 0x3A ∨ opcode = 0x32 then 4
  -- LHLD, SHLD, CALL, XTHL
  else if opcode = 0x2A ∨ opcode = 0x22 ∨ opcode = 0xCD ∨ opcode = 0xE3 then 5
  -- Ccond
  else if opcode &&& 0xC7 = 0xC4 then (if taken then 5 else 3)
  -- Rcond
  else if opcode &&& 0xC7 = 0xC0 then (if taken then 3 else 1)
  -- MVI M, LXI, INR M, DCR M, DAD, JMP, Jcond, RET, RST, PUSH, POP, IN, OUT
  else if opcode = 0x36 ∨ opcode &&& 0xCF = 0x01 ∨ opcode = 0x34 ∨ opcode = 0x35
      ∨ opcode &&& 0xCF = 0x09 ∨ opcode = 0xC3 ∨ opcode &&& 0xC7 = 0xC2 ∨ opcode = 0xC9
      ∨ opcode &&& 0xC7 = 0xC7 ∨ opcode &&& 0xCF = 0xC5 ∨ opcode &&& 0xCF = 0xC1
      ∨ opcode = 0xDB ∨ opcode = 0xD3 then 3
  -- HLT
  else if opcode = 0x76 then 1
  -- MVI r, MOV r,M, MOV M,r, LDAX, STAX, memory and immediate ALU operations
  else if opcode &&& 0xC7 = 0x06 ∨ opcode &&& 0xC7 = 0x46 ∨ opcode &&& 0xF8 = 0x70
      ∨ opcode = 0x0A ∨ opcode = 0x1A ∨ opcode = 0x02 ∨ opcode = 0x12
      ∨ opcode &&& 0xC7 = 0x86 ∨ opcode &&& 0xC7 = 0xC6 then 2
  -- NOP, MOV r,r', XCHG, register ALU operations, INR r, DCR r, INX, DCX, DAA, RLC, RRC,
  -- RAL, RAR, CMA, CMC, STC, PCHL, SPHL, EI, DI
  else if opcode = 0x00 ∨ opcode &&& 0xC0 = 0x40 ∨ opcode = 0xEB ∨ opcode &&& 0xC0 = 0x80
      ∨ opcode &&& 0xC7 = 0x04 ∨ opcode &&& 0xC7 = 0x05 ∨ opcode &&& 0xCF = 0x03
      ∨ opcode &&& 0xCF = 0x0B ∨ opcode = 0x27 ∨ opcode = 0x07 ∨ opcode = 0x0F ∨ opcode = 0x17
      ∨ opcode = 0x1F ∨ opcode = 0x2F ∨ opcode = 0x3F ∨ opcode = 0x37 ∨ opcode = 0xE9
      ∨ opcode = 0xF9 ∨ opcode = 0xFB ∨ opcode = 0xF3 then 1
  else 0

/-- Specification, the data-transfer instructions: MOV (every opcode
`0x40 .. 0x7F` but HLT), MVI r and MVI M, LXI, LDA, STA, LHLD, SHLD, LDAX and
STAX on BC and DE, XCHG. -/
def spec_data_transfer (opcode : Nat) : Bool :=
  (opcode &&& 0xC0 = 0x40 ∧ opcode ≠ 0x76) ∨ opcode &&& 0xC7 = 0x06 ∨ opcode &&& 0xCF = 0x01
    ∨ opcode = 0x3A ∨ opcode = 0x32 ∨ opcode = 0x2A ∨ opcode = 0x22
    ∨ opcode = 0x0A ∨ opcode = 0x1A ∨ opcode = 0x02 ∨ opcode = 0x12 ∨ opcode = 0xEB

/-- Specification, the sum of the recommended subtraction model,
`A + (~B) + (1 - borrow_in)`, with `~B` the complement of the byte `B`. -/
def spec_sub_sum (a b borrow_in : Nat) : Nat :=
  a + u8 (-(b : Int) - 1) + (1 - borrow_in)

/-- Specification, DAA as two conditional additions in sequence, each
resolved like ADI (`add_value_to_accum` without carry): add `0x06` if the low
nibble exceeds 9 or `AC` is set; then, on the state after that step, add
`0x60` if the high nibble exceeds 9 or `CY` is set; `pc` advances by 1. -/
def spec_decimal_adjust (cpu : CPUState) : CPUState :=
  let cpu :=
    if (cpu.a &&& 0x0F) > 9 ∨ cpu.aux_carry = true then add_value_to_accum 0x06 cpu .NO_CARRY
    else cpu
  let cpu :=
    if (cpu.a >>> 4) > 9 ∨ cpu.carry = true then add_value_to_accum 0x60 cpu .NO_CARRY
    else cpu
  { cpu with pc := (cpu.pc + 1) % 65536 }

/-! ## Basic facts -/

section Basics

theorem load_of_lt {cpu : CPUState} {i : Nat} {k : Nat → Outcome} (h : i < 65536) :
    cpu.load i k = k (cpu.ram i) := by
  simp [CPUState.load, h]

theorem store_of_lt {cpu : CPUState} {i v : Nat} {k : CPUState → Outcome} (h : i < 65536) :
    cpu.store i v k = k { cpu with ram := fun j => if j = i then v else cpu.ram j } := by
  simp [CPUState.store, h]

theorem get_register_pair_value_lt (cpu : CPUState) (rp : RegisterPair) :
    cpu.get_register_pair_value rp < 65536 := by
  unfold CPUState.get_register_pair_value
  omega

theorem WF.registers_lt {cpu : CPUState} (hwf : cpu.WF) (r : Register) :
    cpu.registers r < 256 := by
  cases r <;> simp only [CPUState.registers]
  · exact hwf.a
  · exact hwf.b
  · exact hwf.c
  · exact hwf.d
  · exact hwf.e
  · exact hwf.h
  · exact hwf.l

theorem cycle_cpu_of_opcode {cpu : CPUState} {handler : Handler} (hpc : cpu.pc < 65536)
    (hop : opcodes (cpu.ram cpu.pc) = some handler) : cycle_cpu cpu = handler.run cpu := by
  simp [cycle_cpu, load_of_lt hpc, hop]

theorem cycle_cpu_eq_run {cpu : CPUState} {opcode : Nat} (handler : Handler)
    (hpc : cpu.pc < 65536) (hop : cpu.ram cpu.pc = opcode)
    (htable : opcodes opcode = some handler) : cycle_cpu cpu = handler.run cpu :=
  cycle_cpu_of_opcode hpc (hop ▸ htable)

theorem cycle_cpu_of_unassigned {cpu : CPUState} (hpc : cpu.pc < 65536)
    (hop : opcodes (cpu.ram cpu.pc) = none) :
    cycle_cpu cpu = .threw (.unimplemented_opcode (cpu.ram cpu.pc)) cpu := by
  simp [cycle_cpu, load_of_lt hpc, hop]

theorem thrown_load {cpu : CPUState} {i : Nat} {k : Nat → Outcome}
    (h : ∀ v, (k v).thrown = none) : (cpu.load i k).thrown = none := by
  unfold CPUState.load
  split
  · exact h _
  · rfl

theorem thrown_store {cpu : CPUState} {i v : Nat} {k : CPUState → Outcome}
    (h : ∀ s, (k s).thrown = none) : (cpu.store i v k).thrown = none := by
  unfold CPUState.store
  split
  · exact h _
  · rfl

theorem thrown_push_stack {cpu : CPUState} {value : Nat} {k : CPUState → Outcome}
    (h : ∀ s, (k s).thrown = none) : (cpu.push_stack value k).thrown = none := by
  unfold CPUState.push_stack
  apply thrown_store
  intro s
  apply thrown_store
  exact h

theorem thrown_transfer_from_shift_register {cpu : CPUState} {k : CPUState → Outcome}
    (h : ∀ s, (k s).thrown = none) : (transfer_from_shift_register cpu k).thrown = none := by
  unfold transfer_from_shift_register
  split
  · exact h _
  · rfl

theorem boot_ram_lt (bin_data : List Nat) (h : ∀ x ∈ bin_data, x < 256) (i : Nat) :
    (boot bin_data).ram i < 256 := by
  simp only [boot, load_rom, CPUState.default]
  split
  · rename_i hi
    rw [List.getD_eq_getElem _ _ hi]
    exact h _ (List.getElem_mem _)
  · split <;> decide

theorem boot_with_wf (bin_data : List Nat) (a b : Nat) (carry : Bool) (pc : Nat)
    (h : ∀ x ∈ bin_data, x < 256) (ha : a < 256) (hb : b < 256) (hpc : pc < 65536) :
    (boot_with bin_data a b carry pc).WF where
  a := ha
  b := hb
  c := Nat.zero_lt_succ 255
  d := Nat.zero_lt_succ 255
  e := Nat.zero_lt_succ 255
  h := Nat.zero_lt_succ 255
  l := Nat.zero_lt_succ 255
  pc := hpc
  sp := show (0xf000 : Nat) < 65536 by decide
  shift_register := Nat.zero_lt_succ 65535
  shift_offset := Nat.zero_lt_succ 255
  ram := boot_ram_lt bin_data h
  input_ports := fun _ => Nat.zero_lt_succ 255

theorem boot_wf (bin_data : List Nat) (h : ∀ x ∈ bin_data, x < 256) : (boot bin_data).WF :=
  boot_with_wf bin_data 0 0 false 0 h (by decide) (by decide) (by decide)

end Basics

/-! ## The dispatcher and the opcode table -/

theorem thrown_run (handler : Handler) (cpu : CPUState) (h : handler.throws = false) :
    (handler.run cpu).thrown = none := by
  cases handler <;>
    first
    | rfl
    | (simp only [Handler.run, move_immediate, move_from_hl_indirect, move_to_hl_indirect,
        move_to_memory_immediate, load_register_pair_immediate, load_accumulator_direct,
        store_accumulator_direct, load_hl_direct, store_hl_direct, load_accumulator_indirect,
        store_accumulator_indirect, add_memory, add_immediate, add_memory_with_carry,
        add_immediate_with_carry, subtract_memory, subtract_immediate,
        subtract_memory_with_borrow, subtract_immediate_with_borrow, increment_memory_op,
        decrement_memory_op, increment_memory, decrement_memory, and_memory, and_immediate,
        xor_memory, xor_immediate, or_memory, or_immediate, compare_memory, compare_immediate,
        jump, conditional_jump, call, condition_call, return_from_subroutine, conditional_return,
        restart, push, pop, push_processor_state, pop_processor_state,
        exchange_stack_top_with_hl, input_from_port, output_to_port]
       repeat' first
         | rfl
         | (apply thrown_load; intro _)
         | (apply thrown_store; intro _)
         | (apply thrown_push_stack; intro _)
         | (apply thrown_transfer_from_shift_register; intro _)
         | split)
  all_goals
    subst_vars
    simp [Handler.throws] at h

set_option maxRecDepth 100000 in
theorem opcodes_table_check :
    ∀ op, op < 256 →
      (match opcodes op with
        | some handler => !handler.throws && !decide (op ∈ unassigned_opcodes)
        | none => decide (op ∈ unassigned_opcodes)) = true := by
  decide

theorem opcodes_unassigned_iff (op : Nat) (hop : op < 256) :
    opcodes op = none ↔ op ∈ unassigned_opcodes := by
  have h := opcodes_table_check op hop
  cases hopc : opcodes op with
  | none =>
    rw [hopc] at h
    exact ⟨fun _ => of_decide_eq_true h, fun _ => rfl⟩
  | some handler =>
    rw [hopc] at h
    simp only [Bool.and_eq_true, Bool.not_eq_true', decide_eq_false_iff_not] at h
    exact ⟨fun hc => Option.noConfusion hc, fun hmem => absurd hmem h.2⟩

theorem opcodes_never_throws (op : Nat) (hop : op < 256) (handler : Handler)
    (hopc : opcodes op = some handler) : handler.throws = false := by
  have h := opcodes_table_check op hop
  rw [hopc] at h
  simp only [Bool.and_eq_true, Bool.not_eq_true'] at h
  exact h.1

set_option maxRecDepth 100000 in
theorem opcodes_assigned_count :
    ((List.range 256).filter fun op => (opcodes op).isSome).length = 244 := by
  decide

/-- C1: a dispatcher step throws "Unimplemented opcode" exactly when the byte at
`pc` is one of the twelve unassigned bytes, every other byte has a callable
assigned (244 of them), and a step that throws leaves the state as it was. -/
theorem cycle_cpu_unimplemented_iff (cpu : CPUState) (hwf : cpu.WF) :
    ((∃ opcode cpu', cycle_cpu cpu = .threw (.unimplemented_opcode opcode) cpu')
        ↔ cpu.ram cpu.pc ∈ [0x08, 0x10, 0x18, 0x20, 0x28, 0x30, 0x38, 0xCB, 0xD9, 0xDD, 0xED, 0xFD])
    ∧ (∀ error cpu', cycle_cpu cpu = .threw error cpu' →
        error = .unimplemented_opcode (cpu.ram cpu.pc) ∧ cpu' = cpu)
    ∧ (∀ op, op < 256 →
        op ∉ [0x08, 0x10, 0x18, 0x20, 0x28, 0x30, 0x38, 0xCB, 0xD9, 0xDD, 0xED, 0xFD] →
        (opcodes op).isSome = true)
    ∧ ((List.range 256).filter fun op => (opcodes op).isSome).length = 244 := by
  have hlt := hwf.ram cpu.pc
  have hiff := opcodes_unassigned_iff _ hlt
  have key : ∀ error cpu', cycle_cpu cpu = .threw error cpu' →
      opcodes (cpu.ram cpu.pc) = none ∧
        error = .unimplemented_opcode (cpu.ram cpu.pc) ∧ cpu' = cpu := by
    intro error cpu' hstep
    cases hop : opcodes (cpu.ram cpu.pc) with
    | none =>
      rw [cycle_cpu_of_unassigned hwf.pc hop] at hstep
      injection hstep with h1 h2
      exact ⟨rfl, h1.symm, h2.symm⟩
    | some handler =>
      have hnone := thrown_run handler cpu (opcodes_never_throws _ hlt handler hop)
      rw [← cycle_cpu_of_opcode hwf.pc hop, hstep] at hnone
      simp [Outcome.thrown] at hnone
  refine ⟨⟨?_, ?_⟩, ?_, ?_, opcodes_assigned_count⟩
  · rintro ⟨opcode, cpu', hstep⟩
    exact hiff.1 (key _ _ hstep).1
  · intro hmem
    exact ⟨_, _, cycle_cpu_of_unassigned hwf.pc (hiff.2 hmem)⟩
  · intro error cpu' hstep
    exact (key _ _ hstep).2
  · intro op hop hmem
    cases hopc : opcodes op with
    | none => exact absurd ((opcodes_unassigned_iff op hop).1 hopc) hmem
    | some handler => rfl

/-- C1 at a concrete state: the byte `0x08` at `pc = 0` makes the step throw. -/
theorem cycle_cpu_unimplemented_iff_witness :
    ∃ opcode cpu', cycle_cpu (boot [0x08]) = .threw (.unimplemented_opcode opcode) cpu' :=
  (cycle_cpu_unimplemented_iff (boot [0x08]) (boot_wf _ (by decide))).1.2 (by decide)

section Arithmetic

theorem and_255 (x : Nat) : x &&& 0xFF = x % 256 := Nat.and_pow_two_sub_one_eq_mod x 8

theorem and_15 (x : Nat) : x &&& 0x0F = x % 16 := Nat.and_pow_two_sub_one_eq_mod x 4

theorem and_31 (x : Nat) : x &&& 0b11111 = x % 32 := Nat.and_pow_two_sub_one_eq_mod x 5

theorem and_128_ne_zero (x : Nat) : ((x &&& 0x80) != 0) = x.testBit 7 := by
  have h := Nat.and_two_pow x 7
  norm_num at h
  rw [h]
  cases x.testBit 7 <;> simp

theorem testBit_7 (x : Nat) : x.testBit 7 = decide (x / 128 % 2 = 1) := by
  rw [Nat.testBit_to_div_mod]

theorem shl8_or (hi lo : Nat) (h : lo < 256) : (hi <<< 8) ||| lo = hi * 256 + lo := by
  rw [Nat.shiftLeft_eq, Nat.mul_comm]
  exact (Nat.mul_add_lt_is_or (i := 8) h hi).symm

theorem get_register_pair_value_HL {cpu : CPUState} (hwf : cpu.WF) :
    cpu.get_register_pair_value .HL = cpu.h * 256 + cpu.l := by
  have hh := hwf.h
  have hl := hwf.l
  simp only [CPUState.get_register_pair_value, CPUState.register_pair_high,
    CPUState.register_pair_low, shl8_or _ _ hl]
  omega

theorem load_HL {cpu : CPUState} (hwf : cpu.WF) (k : Nat → Outcome) :
    cpu.load (cpu.get_register_pair_value .HL) k = k (cpu.ram (cpu.h * 256 + cpu.l)) := by
  rw [load_of_lt (get_register_pair_value_lt cpu .HL), get_register_pair_value_HL hwf]

theorem get_immediate_value8_of_lt {cpu : CPUState} (h : cpu.pc + 1 < 65536)
    (k : Nat → Outcome) : cpu.get_immediate_value8 k = k (cpu.ram (cpu.pc + 1)) :=
  load_of_lt h

theorem add_value_to_accum_no_carry (v : Nat) (cpu : CPUState) (ha : cpu.a < 256)
    (hv : v < 256) :
    (add_value_to_accum v cpu .NO_CARRY).a = (cpu.a + v) % 256 ∧
    ((add_value_to_accum v cpu .NO_CARRY).carry = true ↔ cpu.a + v > 255) := by
  constructor
  · simp only [add_value_to_accum, resolve_flags_after_add, and_255]
    omega
  · simp only [add_value_to_accum, resolve_flags_after_add, decide_eq_true_eq]
    omega

end Arithmetic

section Table

set_option maxRecDepth 100000

theorem opcodes_add_register (r : Register) :
    opcodes (0x80 ||| r.mask) = some (.add_register r) := by
  cases r <;> exact rfl

theorem opcodes_and_register (r : Register) :
    opcodes (0xA0 ||| r.mask) = some (.and_register r) := by
  cases r <;> exact rfl

theorem opcodes_xor_register (r : Register) :
    opcodes (0xA8 ||| r.mask) = some (.xor_register r) := by
  cases r <;> exact rfl

theorem opcodes_or_register (r : Register) :
    opcodes (0xB0 ||| r.mask) = some (.or_register r) := by
  cases r <;> exact rfl

theorem opcodes_compare_register (r : Register) :
    opcodes (0xB8 ||| r.mask) = some (.compare_register r) := by
  cases r <;> exact rfl

theorem opcodes_add_memory : opcodes 0x86 = some .add_memory := rfl

theorem opcodes_add_immediate : opcodes 0xC6 = some .add_immediate := rfl

theorem opcodes_and_memory : opcodes 0xA6 = some .and_memory := rfl

theorem opcodes_and_immediate : opcodes 0xE6 = some .and_immediate := rfl

theorem opcodes_xor_memory : opcodes 0xAE = some .xor_memory := rfl

theorem opcodes_xor_immediate : opcodes 0xEE = some .xor_immediate := rfl

theorem opcodes_or_memory : opcodes 0xB6 = some .or_memory := rfl

theorem opcodes_or_immediate : opcodes 0xF6 = some .or_immediate := rfl

theorem opcodes_compare_memory : opcodes 0xBE = some .compare_memory := rfl

theorem opcodes_compare_immediate : opcodes 0xFE = some .compare_immediate := rfl

end Table

/-- C2: ADD r, ADD M and ADI with operand byte `v` (the register, the byte at
`HL`, or the byte after the opcode) leave `(A + v) mod 256` in the accumulator
and set the carry flag exactly when `A + v > 255`. -/
theorem add_sum_and_carry (cpu : CPUState) (hwf : cpu.WF) (v : Nat)
    (hform : (∃ r : Register, cpu.ram cpu.pc = 0x80 ||| r.mask ∧ cpu.registers r = v)
      ∨ (cpu.ram cpu.pc = 0x86 ∧ cpu.ram (cpu.h * 256 + cpu.l) = v)
      ∨ (cpu.ram cpu.pc = 0xC6 ∧ cpu.pc + 1 < 65536 ∧ cpu.ram (cpu.pc + 1) = v)) :
    ∃ cycles cpu', cycle_cpu cpu = .returned cycles cpu' ∧
      cpu'.a = (cpu.a + v) % 256 ∧ (cpu'.carry = true ↔ cpu.a + v > 255) := by
  rcases hform with ⟨r, hop, hv⟩ | ⟨hop, hv⟩ | ⟨hop, hpc, hv⟩
  · subst hv
    rewrite [cycle_cpu_eq_run _ hwf.pc hop (opcodes_add_register r)]
    refine ⟨_, _, rfl, ?_⟩
    dsimp only
    exact add_value_to_accum_no_carry _ cpu hwf.a (WF.registers_lt hwf r)
  · subst hv
    rewrite [cycle_cpu_eq_run _ hwf.pc hop opcodes_add_memory]
    simp only [Handler.run, add_memory, load_HL hwf]
    refine ⟨_, _, rfl, ?_⟩
    dsimp only
    exact add_value_to_accum_no_carry _ cpu hwf.a (hwf.ram _)
  · subst hv
    rewrite [cycle_cpu_eq_run _ hwf.pc hop opcodes_add_immediate]
    simp only [Handler.run, add_immediate, get_immediate_value8_of_lt hpc]
    refine ⟨_, _, rfl, ?_⟩
    dsimp only
    exact add_value_to_accum_no_carry _ cpu hwf.a (hwf.ram _)

/-- C2 at the spec's input: with `A = 0xFF` and `B = 0x01`, ADD B (opcode `0x80`)
leaves `A = 0x00` and sets the carry flag. -/
theorem add_sum_and_carry_witness :
    ∃ cycles cpu', cycle_cpu (boot_with [0x3E, 0xFF, 0x06, 0x01, 0x80] 0xFF 0x01 false 4)
        = .returned cycles cpu' ∧ cpu'.a = 0x00 ∧ cpu'.carry = true := by
  obtain ⟨cycles, cpu', hstep, ha, hcarry⟩ :=
    add_sum_and_carry (boot_with [0x3E, 0xFF, 0x06, 0x01, 0x80] 0xFF 0x01 false 4)
      (boot_with_wf _ _ _ _ _ (by decide) (by decide) (by decide) (by decide)) 0x01
      (Or.inl ⟨.B, by decide, by decide⟩)
  exact ⟨cycles, cpu', hstep, ha, hcarry.2 (by decide)⟩

set_option maxRecDepth 100000 in
/-- C3 at a failing input: after `STC; MVI A,00; MVI B,FF`, ADC B (opcode `0x88`)
ends with `A = 0x00` and the carry flag clear although `0x00 + 0xFF + 1 > 255`,
while ACI 0xFF (opcode `0xCE`) from the same `A` and carry ends with the carry
flag set. -/
theorem adc_register_drops_carry :
    ((run_steps 4 (boot [0x37, 0x3E, 0x00, 0x06, 0xFF, 0x88])).state.map
        fun cpu => (cpu.a, cpu.carry)) = some (0x00, false)
    ∧ ((run_steps 3 (boot [0x37, 0x3E, 0x00, 0xCE, 0xFF])).state.map
        fun cpu => (cpu.a, cpu.carry)) = some (0x00, true) := by
  decide

set_option maxRecDepth 100000 in
/-- C4 at the spec's input: after `MVI A,00; MVI B,01`, SUB B (opcode `0x90`)
ends with `A = 0xFF`, `Z = 0`, `S = 1` and the carry flag clear although
`A < B`. -/
theorem sub_underflow_clears_carry :
    ((run_steps 3 (boot [0x3E, 0x00, 0x06, 0x01, 0x90])).state.map
        fun cpu => (cpu.a, cpu.zero, cpu.sign, cpu.carry)) = some (0xFF, false, true, false) := by
  decide

theorem compare_flags (a v : Nat) (ha : a < 256) (hv : v < 256) :
    ((u16 ((a : Int) - v) == 0) = true ↔ a = v)
    ∧ (((u16 ((a : Int) - v) &&& 0x80) != 0) = true ↔ (u8 ((a : Int) - v)).testBit 7 = true) := by
  constructor
  · simp only [u16, beq_iff_eq]
    omega
  · simp only [and_128_ne_zero, testBit_7, u16, u8, decide_eq_true_eq]
    omega

/-- C5: CMP r, CMP M and CPI with operand byte `v` leave the accumulator, the
other registers, `sp` and memory unchanged, set `Z` exactly when `A = v`, set
`S` to bit 7 of `(A - v) mod 256` and set `CY` exactly when `A < v`. -/
theorem compare_flags_and_frame (cpu : CPUState) (hwf : cpu.WF) (v : Nat)
    (hform : (∃ r : Register, cpu.ram cpu.pc = 0xB8 ||| r.mask ∧ cpu.registers r = v)
      ∨ (cpu.ram cpu.pc = 0xBE ∧ cpu.ram (cpu.h * 256 + cpu.l) = v)
      ∨ (cpu.ram cpu.pc = 0xFE ∧ cpu.pc + 1 < 65536 ∧ cpu.ram (cpu.pc + 1) = v)) :
    ∃ cycles cpu', cycle_cpu cpu = .returned cycles cpu' ∧
      cpu'.a = cpu.a ∧ cpu'.b = cpu.b ∧ cpu'.c = cpu.c ∧ cpu'.d = cpu.d ∧ cpu'.e = cpu.e ∧
      cpu'.h = cpu.h ∧ cpu'.l = cpu.l ∧ cpu'.sp = cpu.sp ∧ cpu'.ram = cpu.ram ∧
      (cpu'.zero = true ↔ cpu.a = v) ∧
      (cpu'.sign = true ↔ (u8 ((cpu.a : Int) - v)).testBit 7 = true) ∧
      (cpu'.carry = true ↔ cpu.a < v) := by
  rcases hform with ⟨r, hop, hv⟩ | ⟨hop, hv⟩ | ⟨hop, hpc, hv⟩
  · subst hv
    have hf := compare_flags cpu.a _ hwf.a (WF.registers_lt hwf r)
    rewrite [cycle_cpu_eq_run _ hwf.pc hop (opcodes_compare_register r)]
    refine ⟨_, _, rfl, rfl, rfl, rfl, rfl, rfl, rfl, rfl, rfl, rfl, ?_, ?_, ?_⟩
    · exact hf.1
    · exact hf.2
    · dsimp only
      exact decide_eq_true_iff
  · subst hv
    have hf := compare_flags cpu.a _ hwf.a (hwf.ram (cpu.h * 256 + cpu.l))
    rewrite [cycle_cpu_eq_run _ hwf.pc hop opcodes_compare_memory]
    simp only [Handler.run, compare_memory, load_HL hwf]
    refine ⟨_, _, rfl, rfl, rfl, rfl, rfl, rfl, rfl, rfl, rfl, rfl, ?_, ?_, ?_⟩
    · exact hf.1
    · exact hf.2
    · dsimp only
      exact decide_eq_true_iff
  · subst hv
    have hf := compare_flags cpu.a _ hwf.a (hwf.ram (cpu.pc + 1))
    rewrite [cycle_cpu_eq_run _ hwf.pc hop opcodes_compare_immediate]
    simp only [Handler.run, compare_immediate, get_immediate_value8_of_lt hpc]
    refine ⟨_, _, rfl, rfl, rfl, rfl, rfl, rfl, rfl, rfl, rfl, rfl, ?_, ?_, ?_⟩
    · exact hf.1
    · exact hf.2
    · dsimp only
      exact decide_eq_true_iff

/-- C5 at a concrete state: CMP B (opcode `0xB8`) with `A = 0x05`, `B = 0x07`
keeps `A`, clears `Z`, sets `S` and sets the carry flag. -/
theorem compare_flags_and_frame_witness :
    ∃ cycles cpu', cycle_cpu (boot_with [0xB8] 0x05 0x07 false 0) = .returned cycles cpu' ∧
      cpu'.a = 0x05 ∧ cpu'.zero = false ∧ cpu'.sign = true ∧ cpu'.carry = true := by
  obtain ⟨cycles, cpu', hstep, ha, _, _, _, _, _, _, _, _, hz, hs, hc⟩ :=
    compare_flags_and_frame (boot_with [0xB8] 0x05 0x07 false 0)
      (boot_with_wf _ _ _ _ _ (by decide) (by decide) (by decide) (by decide)) 0x07
      (Or.inl ⟨.B, by decide, by decide⟩)
  refine ⟨cycles, cpu', hstep, ha, ?_, hs.2 (by decide), hc.2 (by decide)⟩
  cases hzero : cpu'.zero
  · rfl
  · exact absurd (hz.1 hzero) (by decide)

set_option maxRecDepth 100000 in
/-- C6 at the spec's inputs: `MVI A,FF; MVI B,01; ADD B` ends with `A = 0x00` and
`MVI A,00; MVI B,01; SUB B` ends with `A = 0xFF`; both accumulators have an even
number of one bits and both steps leave the parity flag clear. -/
theorem alu_parity_flag_is_odd_parity :
    ((run_steps 3 (boot [0x3E, 0xFF, 0x06, 0x01, 0x80])).state.map
        fun cpu => (cpu.a, popcount 8 cpu.a % 2, cpu.parity)) = some (0x00, 0, false)
    ∧ ((run_steps 3 (boot [0x3E, 0x00, 0x06, 0x01, 0x90])).state.map
        fun cpu => (cpu.a, popcount 8 cpu.a % 2, cpu.parity)) = some (0xFF, 0, false) := by
  decide

section AluFlags

set_option maxRecDepth 100000

theorem opcodes_accumulator_alu :
    ∀ op, op < 0xB8 → 0x80 ≤ op →
      (match opcodes op with
        | some handler => handler.is_accumulator_alu && !handler.is_immediate_alu
        | none => false) = true := by
  decide

theorem opcodes_immediate_alu :
    ∀ op ∈ [0xC6, 0xCE, 0xD6, 0xDE, 0xE6, 0xEE, 0xF6],
      (match opcodes op with
        | some handler => handler.is_accumulator_alu
        | none => false) = true := by
  decide

end AluFlags

theorem accumulator_alu_zero_sign (handler : Handler) (cpu : CPUState) (hwf : cpu.WF)
    (halu : handler.is_accumulator_alu = true)
    (himm : handler.is_immediate_alu = true → cpu.pc + 1 < 65536) :
    ∃ cycles cpu', handler.run cpu = .returned cycles cpu' ∧
      (cpu'.zero = true ↔ cpu'.a = 0) ∧ (cpu'.sign = true ↔ cpu'.a.testBit 7 = true) := by
  cases handler <;>
    first
    | exact absurd halu Bool.false_ne_true
    | skip
  all_goals
    first
    | (have hpc := himm rfl
       simp only [Handler.run, add_immediate, add_immediate_with_carry, subtract_immediate,
         subtract_immediate_with_borrow, and_immediate, xor_immediate, or_immediate,
         add_value_to_accum, resolve_flags_after_add, get_immediate_value8_of_lt hpc])
    | simp only [Handler.run, add_register, add_memory, add_register_with_carry,
        add_memory_with_carry, subtract_register, subtract_memory,
        subtract_register_with_borrow, subtract_memory_with_borrow, and_register, and_memory,
        xor_register, xor_memory, or_register, or_memory,
        add_value_to_accum, resolve_flags_after_add, load_HL hwf]
  all_goals
    refine ⟨_, _, rfl, ?_, ?_⟩
    · exact beq_iff_eq
    · dsimp only
      rw [and_128_ne_zero]

/-- C7: after ADD, ADC, SUB, SBB, ANA, XRA or ORA in register or memory form
(opcodes `0x80 .. 0xB7`) or in immediate form, the zero flag holds exactly when
the new accumulator is 0 and the sign flag exactly when its bit 7 is 1. -/
theorem alu_zero_and_sign (cpu : CPUState) (hwf : cpu.WF)
    (hform : (0x80 ≤ cpu.ram cpu.pc ∧ cpu.ram cpu.pc ≤ 0xB7)
      ∨ (cpu.ram cpu.pc ∈ [0xC6, 0xCE, 0xD6, 0xDE, 0xE6, 0xEE, 0xF6] ∧ cpu.pc + 1 < 65536)) :
    ∃ cycles cpu', cycle_cpu cpu = .returned cycles cpu' ∧
      (cpu'.zero = true ↔ cpu'.a = 0) ∧ (cpu'.sign = true ↔ cpu'.a.testBit 7 = true) := by
  rcases hform with ⟨hlo, hhi⟩ | ⟨hmem, hpc⟩
  · have htable := opcodes_accumulator_alu _ (Nat.lt_succ_of_le hhi) hlo
    cases hop : opcodes (cpu.ram cpu.pc) with
    | none => rw [hop] at htable; exact absurd htable Bool.false_ne_true
    | some handler =>
      rw [hop] at htable
      simp only [Bool.and_eq_true, Bool.not_eq_true'] at htable
      rewrite [cycle_cpu_of_opcode hwf.pc hop]
      refine accumulator_alu_zero_sign handler cpu hwf htable.1 ?_
      intro himm
      rw [htable.2] at himm
      exact absurd himm Bool.false_ne_true
  · have htable := opcodes_immediate_alu _ hmem
    cases hop : opcodes (cpu.ram cpu.pc) with
    | none => rw [hop] at htable; exact absurd htable Bool.false_ne_true
    | some handler =>
      rw [hop] at htable
      rewrite [cycle_cpu_of_opcode hwf.pc hop]
      exact accumulator_alu_zero_sign handler cpu hwf htable fun _ => hpc

/-- C7 at a concrete state: after ADI 0x01 (opcode `0xC6`) with `A = 0xFF` the
zero flag agrees with `A = 0` and the sign flag with bit 7 of `A`. -/
theorem alu_zero_and_sign_witness :
    ∃ cycles cpu', cycle_cpu (boot_with [0xC6, 0x01] 0xFF 0x00 false 0) = .returned cycles cpu' ∧
      (cpu'.zero = true ↔ cpu'.a = 0) ∧ (cpu'.sign = true ↔ cpu'.a.testBit 7 = true) :=
  alu_zero_and_sign (boot_with [0xC6, 0x01] 0xFF 0x00 false 0)
    (boot_with_wf _ _ _ _ _ (by decide) (by decide) (by decide) (by decide))
    (Or.inr ⟨by decide, by decide⟩)

set_option maxRecDepth 100000 in
/-- C8 at the spec's input: `MVI A,FF; MVI B,01; ADD B` has a carry out of bit 3
(`0xF + 0x1 > 0xF`) and ends with the auxiliary-carry flag clear; ADD B with
`A = 0x10`, `B = 0x00` has none and ends with it set. -/
theorem add_aux_carry_is_bit_4_of_sum :
    ((run_steps 3 (boot [0x3E, 0xFF, 0x06, 0x01, 0x80])).state.map
        fun cpu => (cpu.a, cpu.aux_carry)) = some (0x00, false)
    ∧ ((run_steps 3 (boot [0x3E, 0x10, 0x06, 0x00, 0x80])).state.map
        fun cpu => (cpu.a, cpu.aux_carry)) = some (0x10, true) := by
  decide

set_option maxRecDepth 100000 in
/-- C9 at failing inputs: `MVI A,10; MVI B,00; ADD B; DAA` ends with `A = 0x16`
and the carry flag clear (decimal 16, not 10 + 0), and
`MVI A,99; MVI B,99; ADD B; DAA` ends with `A = 0x38` and the carry flag clear
(decimal 38, not 99 + 99 = 198). -/
theorem daa_after_add_not_decimal_sum :
    ((run_steps 4 (boot [0x3E, 0x10, 0x06, 0x00, 0x80, 0x27])).state.map
        fun cpu => (cpu.a, cpu.carry)) = some (0x16, false)
    ∧ ((run_steps 4 (boot [0x3E, 0x99, 0x06, 0x99, 0x80, 0x27])).state.map
        fun cpu => (cpu.a, cpu.carry)) = some (0x38, false) := by
  decide

/-- C10: ANA/ANI, XRA/XRI and ORA/ORI with operand byte `v` (the register, the
byte at `HL`, or the byte after the opcode) leave `A AND v`, `A XOR v`,
`A OR v` in the accumulator and clear the carry and auxiliary-carry flags. -/
theorem logic_result_and_cleared_carries (cpu : CPUState) (hwf : cpu.WF) (v : Nat) :
    ((∃ r : Register, cpu.ram cpu.pc = 0xA0 ||| r.mask ∧ cpu.registers r = v)
        ∨ (cpu.ram cpu.pc = 0xA6 ∧ cpu.ram (cpu.h * 256 + cpu.l) = v)
        ∨ (cpu.ram cpu.pc = 0xE6 ∧ cpu.pc + 1 < 65536 ∧ cpu.ram (cpu.pc + 1) = v) →
      ∃ cycles cpu', cycle_cpu cpu = .returned cycles cpu' ∧
        cpu'.a = cpu.a &&& v ∧ cpu'.carry = false ∧ cpu'.aux_carry = false)
    ∧ ((∃ r : Register, cpu.ram cpu.pc = 0xA8 ||| r.mask ∧ cpu.registers r = v)
        ∨ (cpu.ram cpu.pc = 0xAE ∧ cpu.ram (cpu.h * 256 + cpu.l) = v)
        ∨ (cpu.ram cpu.pc = 0xEE ∧ cpu.pc + 1 < 65536 ∧ cpu.ram (cpu.pc + 1) = v) →
      ∃ cycles cpu', cycle_cpu cpu = .returned cycles cpu' ∧
        cpu'.a = cpu.a ^^^ v ∧ cpu'.carry = false ∧ cpu'.aux_carry = false)
    ∧ ((∃ r : Register, cpu.ram cpu.pc = 0xB0 ||| r.mask ∧ cpu.registers r = v)
        ∨ (cpu.ram cpu.pc = 0xB6 ∧ cpu.ram (cpu.h * 256 + cpu.l) = v)
        ∨ (cpu.ram cpu.pc = 0xF6 ∧ cpu.pc + 1 < 65536 ∧ cpu.ram (cpu.pc + 1) = v) →
      ∃ cycles cpu', cycle_cpu cpu = .returned cycles cpu' ∧
        cpu'.a = cpu.a ||| v ∧ cpu'.carry = false ∧ cpu'.aux_carry = false) := by
  refine ⟨?_, ?_, ?_⟩
  · rintro (⟨r, hop, hv⟩ | ⟨hop, hv⟩ | ⟨hop, hpc, hv⟩)
    · subst hv
      rewrite [cycle_cpu_eq_run _ hwf.pc hop (opcodes_and_register r)]
      exact ⟨_, _, rfl, rfl, rfl, rfl⟩
    · subst hv
      rewrite [cycle_cpu_eq_run _ hwf.pc hop opcodes_and_memory]
      simp only [Handler.run, and_memory, load_HL hwf]
      exact ⟨_, _, rfl, rfl, rfl, rfl⟩
    · subst hv
      rewrite [cycle_cpu_eq_run _ hwf.pc hop opcodes_and_immediate]
      simp only [Handler.run, and_immediate, get_immediate_value8_of_lt hpc]
      exact ⟨_, _, rfl, rfl, rfl, rfl⟩
  · rintro (⟨r, hop, hv⟩ | ⟨hop, hv⟩ | ⟨hop, hpc, hv⟩)
    · subst hv
      rewrite [cycle_cpu_eq_run _ hwf.pc hop (opcodes_xor_register r)]
      exact ⟨_, _, rfl, rfl, rfl, rfl⟩
    · subst hv
      rewrite [cycle_cpu_eq_run _ hwf.pc hop opcodes_xor_memory]
      simp only [Handler.run, xor_memory, load_HL hwf]
      exact ⟨_, _, rfl, rfl, rfl, rfl⟩
    · subst hv
      rewrite [cycle_cpu_eq_run _ hwf.pc hop opcodes_xor_immediate]
      simp only [Handler.run, xor_immediate, get_immediate_value8_of_lt hpc]
      exact ⟨_, _, rfl, rfl, rfl, rfl⟩
  · rintro (⟨r, hop, hv⟩ | ⟨hop, hv⟩ | ⟨hop, hpc, hv⟩)
    · subst hv
      rewrite [cycle_cpu_eq_run _ hwf.pc hop (opcodes_or_register r)]
      exact ⟨_, _, rfl, rfl, rfl, rfl⟩
    · subst hv
      rewrite [cycle_cpu_eq_run _ hwf.pc hop opcodes_or_memory]
      simp only [Handler.run, or_memory, load_HL hwf]
      exact ⟨_, _, rfl, rfl, rfl, rfl⟩
    · subst hv
      rewrite [cycle_cpu_eq_run _ hwf.pc hop opcodes_or_immediate]
      simp only [Handler.run, or_immediate, get_immediate_value8_of_lt hpc]
      exact ⟨_, _, rfl, rfl, rfl, rfl⟩

/-- C10 at concrete states with `A = 0x0F`, `B = 0x3C` and the carry flag set
beforehand: ANA B gives `0x0C`, XRA B gives `0x33`, ORA B gives `0x3F`, each
with the carry and auxiliary-carry flags clear. -/
theorem logic_result_and_cleared_carries_witness :
    (∃ cycles cpu', cycle_cpu (boot_with [0xA0] 0x0F 0x3C true 0) = .returned cycles cpu' ∧
      cpu'.a = 0x0C ∧ cpu'.carry = false ∧ cpu'.aux_carry = false)
    ∧ (∃ cycles cpu', cycle_cpu (boot_with [0xA8] 0x0F 0x3C true 0) = .returned cycles cpu' ∧
      cpu'.a = 0x33 ∧ cpu'.carry = false ∧ cpu'.aux_carry = false)
    ∧ (∃ cycles cpu', cycle_cpu (boot_with [0xB0] 0x0F 0x3C true 0) = .returned cycles cpu' ∧
      cpu'.a = 0x3F ∧ cpu'.carry = false ∧ cpu'.aux_carry = false) :=
  ⟨(logic_result_and_cleared_carries (boot_with [0xA0] 0x0F 0x3C true 0)
      (boot_with_wf _ _ _ _ _ (by decide) (by decide) (by decide) (by decide)) 0x3C).1
      (Or.inl ⟨.B, by decide, by decide⟩),
   (logic_result_and_cleared_carries (boot_with [0xA8] 0x0F 0x3C true 0)
      (boot_with_wf _ _ _ _ _ (by decide) (by decide) (by decide) (by decide)) 0x3C).2.1
      (Or.inl ⟨.B, by decide, by decide⟩),
   (logic_result_and_cleared_carries (boot_with [0xB0] 0x0F 0x3C true 0)
      (boot_with_wf _ _ _ _ _ (by decide) (by decide) (by decide) (by decide)) 0x3C).2.2
      (Or.inl ⟨.B, by decide, by decide⟩)⟩

section StepLemmas

theorem WF.with_flags {cpu : CPUState} (hwf : cpu.WF)
    (zero sign parity carry aux_carry enable_interrupt halt : Bool) :
    (cpu.with_flags zero sign parity carry aux_carry enable_interrupt halt).WF :=
  ⟨hwf.a, hwf.b, hwf.c, hwf.d, hwf.e, hwf.h, hwf.l, hwf.pc, hwf.sp, hwf.shift_register,
    hwf.shift_offset, hwf.ram, hwf.input_ports⟩

theorem run_steps_two {cpu cpu1 cpu2 : CPUState} {c1 c2 : Nat}
    (h1 : cycle_cpu cpu = .returned c1 cpu1) (h2 : cycle_cpu cpu1 = .returned c2 cpu2) :
    run_steps 2 cpu = .returned (c1 + (c2 + 0)) cpu2 := by
  simp only [run_steps, h1, h2]

end StepLemmas

section Table

set_option maxRecDepth 100000

theorem opcodes_increment_register (r : Register) :
    opcodes (0x04 ||| (r.mask <<< 3)) = some (.increment_register r) := by
  cases r <;> exact rfl

theorem opcodes_decrement_register (r : Register) :
    opcodes (0x05 ||| (r.mask <<< 3)) = some (.decrement_register r) := by
  cases r <;> exact rfl

theorem opcodes_increment_memory_op : opcodes 0x34 = some .increment_memory_op := rfl

theorem opcodes_decrement_memory_op : opcodes 0x35 = some .decrement_memory_op := rfl

end Table

theorem increment_register_spec (r : Register) (cpu : CPUState) (increment : Nat) :
    ∃ cpu', increment_register r cpu increment = .returned 1 cpu' ∧
      cpu'.registers r = (cpu.registers r + increment) % 256 ∧
      (cpu'.zero = true ↔ cpu'.registers r = 0) ∧
      cpu'.sign = (cpu'.registers r).testBit 7 ∧
      cpu'.carry = cpu.carry := by
  refine ⟨_, rfl, ?_, ?_, ?_, ?_⟩
  · cases r <;> rfl
  · cases r <;> exact beq_iff_eq
  · cases r <;> exact and_128_ne_zero _
  · cases r <;> rfl

theorem increment_memory_spec (cpu : CPUState) (hwf : cpu.WF) (increment : Nat) :
    ∃ cpu', increment_memory cpu increment = .returned 3 cpu' ∧
      cpu'.ram (cpu.h * 256 + cpu.l) = (cpu.ram (cpu.h * 256 + cpu.l) + increment) % 256 ∧
      (cpu'.zero = true ↔ cpu'.ram (cpu.h * 256 + cpu.l) = 0) ∧
      cpu'.sign = (cpu'.ram (cpu.h * 256 + cpu.l)).testBit 7 ∧
      cpu'.carry = cpu.carry := by
  have hlt : cpu.h * 256 + cpu.l < 65536 := by
    have hh := hwf.h
    have hl := hwf.l
    omega
  simp only [increment_memory, get_register_pair_value_HL hwf, load_of_lt hlt, store_of_lt hlt]
  refine ⟨_, rfl, ?_, ?_, ?_, rfl⟩
  · simp only [if_true]
  · simp only [if_true]
    exact beq_iff_eq
  · simp only [if_true]
    exact and_128_ne_zero _

/-- C11: INR r and INR M replace the target by `(old + 1) mod 256`, DCR r and
DCR M by `(old - 1) mod 256`; the zero flag holds exactly when the new value is
0, the sign flag is bit 7 of the new value, and the carry flag is unchanged. -/
theorem inr_dcr_target_flags_carry (cpu : CPUState) (hwf : cpu.WF) :
    (∀ r : Register, cpu.ram cpu.pc = 0x04 ||| (r.mask <<< 3) →
      ∃ cycles cpu', cycle_cpu cpu = .returned cycles cpu' ∧
        cpu'.registers r = (cpu.registers r + 1) % 256 ∧
        (cpu'.zero = true ↔ cpu'.registers r = 0) ∧
        cpu'.sign = (cpu'.registers r).testBit 7 ∧
        cpu'.carry = cpu.carry)
    ∧ (∀ r : Register, cpu.ram cpu.pc = 0x05 ||| (r.mask <<< 3) →
      ∃ cycles cpu', cycle_cpu cpu = .returned cycles cpu' ∧
        cpu'.registers r = u8 ((cpu.registers r : Int) - 1) ∧
        (cpu'.zero = true ↔ cpu'.registers r = 0) ∧
        cpu'.sign = (cpu'.registers r).testBit 7 ∧
        cpu'.carry = cpu.carry)
    ∧ (cpu.ram cpu.pc = 0x34 →
      ∃ cycles cpu', cycle_cpu cpu = .returned cycles cpu' ∧
        cpu'.ram (cpu.h * 256 + cpu.l) = (cpu.ram (cpu.h * 256 + cpu.l) + 1) % 256 ∧
        (cpu'.zero = true ↔ cpu'.ram (cpu.h * 256 + cpu.l) = 0) ∧
        cpu'.sign = (cpu'.ram (cpu.h * 256 + cpu.l)).testBit 7 ∧
        cpu'.carry = cpu.carry)
    ∧ (cpu.ram cpu.pc = 0x35 →
      ∃ cycles cpu', cycle_cpu cpu = .returned cycles cpu' ∧
        cpu'.ram (cpu.h * 256 + cpu.l) = u8 ((cpu.ram (cpu.h * 256 + cpu.l) : Int) - 1) ∧
        (cpu'.zero = true ↔ cpu'.ram (cpu.h * 256 + cpu.l) = 0) ∧
        cpu'.sign = (cpu'.ram (cpu.h * 256 + cpu.l)).testBit 7 ∧
        cpu'.carry = cpu.carry) := by
  refine ⟨?_, ?_, ?_, ?_⟩
  · intro r hop
    rewrite [cycle_cpu_eq_run _ hwf.pc hop (opcodes_increment_register r)]
    exact ⟨1, increment_register_spec r cpu 1⟩
  · intro r hop
    rewrite [cycle_cpu_eq_run _ hwf.pc hop (opcodes_decrement_register r)]
    obtain ⟨cpu', hrun, hval, hrest⟩ := increment_register_spec r cpu (u8 (-((1 : Nat) : Int)))
    refine ⟨1, cpu', hrun, ?_, hrest⟩
    rw [hval]
    have hr := WF.registers_lt hwf r
    simp only [u8]
    omega
  · intro hop
    rewrite [cycle_cpu_eq_run _ hwf.pc hop opcodes_increment_memory_op]
    exact ⟨3, increment_memory_spec cpu hwf 1⟩
  · intro hop
    rewrite [cycle_cpu_eq_run _ hwf.pc hop opcodes_decrement_memory_op]
    obtain ⟨cpu', hrun, hval, hrest⟩ := increment_memory_spec cpu hwf (u8 (-((1 : Nat) : Int)))
    refine ⟨3, cpu', hrun, ?_, hrest⟩
    rw [hval]
    have hr := hwf.ram (cpu.h * 256 + cpu.l)
    simp only [u8]
    omega

/-- C11 at concrete states: with `B = 0xFF` and the carry flag set, INR B
(opcode `0x04`) gives `B = 0x00` and DCR B (opcode `0x05`) gives `B = 0xFE`,
both with the carry flag still set. -/
theorem inr_dcr_target_flags_carry_witness :
    (∃ cycles cpu', cycle_cpu (boot_with [0x04] 0x00 0xFF true 0) = .returned cycles cpu' ∧
      cpu'.b = 0x00 ∧ cpu'.carry = true)
    ∧ (∃ cycles cpu', cycle_cpu (boot_with [0x05] 0x00 0xFF true 0) = .returned cycles cpu' ∧
      cpu'.b = 0xFE ∧ cpu'.carry = true) := by
  obtain ⟨c1, s1, h1, hb1, _, _, hc1⟩ :=
    (inr_dcr_target_flags_carry (boot_with [0x04] 0x00 0xFF true 0)
      (boot_with_wf _ _ _ _ _ (by decide) (by decide) (by decide) (by decide))).1 .B (by decide)
  obtain ⟨c2, s2, h2, hb2, _, _, hc2⟩ :=
    (inr_dcr_target_flags_carry (boot_with [0x05] 0x00 0xFF true 0)
      (boot_with_wf _ _ _ _ _ (by decide) (by decide) (by decide) (by decide))).2.1 .B (by decide)
  exact ⟨⟨c1, s1, h1, hb1, hc1⟩, ⟨c2, s2, h2, hb2, hc2⟩⟩

section Table

set_option maxRecDepth 100000

theorem opcodes_add_register_pair_to_hl (rp : RegisterPair) :
    opcodes (0x09 ||| (rp.mask <<< 4)) = some (.add_register_pair_to_hl rp) := by
  cases rp <;> exact rfl

end Table

theorem shr8_and_255 (x : Nat) : (x >>> 8) &&& 0xFF = x / 256 % 256 := by
  rw [and_255, Nat.shiftRight_eq_div_pow]

theorem get_register_pair_value_eq {cpu : CPUState} (hwf : cpu.WF) (rp : RegisterPair) :
    cpu.get_register_pair_value rp
      = cpu.register_pair_high rp * 256 + cpu.register_pair_low rp := by
  have hlow : cpu.register_pair_low rp < 256 := by
    cases rp <;> simp only [CPUState.register_pair_low]
    · exact hwf.c
    · exact hwf.e
    · exact hwf.l
    · omega
  have hhigh : cpu.register_pair_high rp < 256 := by
    cases rp <;> simp only [CPUState.register_pair_high]
    · exact hwf.b
    · exact hwf.d
    · exact hwf.h
    · have := hwf.sp
      omega
  simp only [CPUState.get_register_pair_value, shl8_or _ _ hlow]
  omega

/-- C12: DAD rp leaves `(HL + rp) mod 65536` in `H`, `L`, sets the carry flag
exactly when `HL + rp > 0xFFFF`, and leaves `Z`, `S`, `P`, `AC`, `A`, `B`, `C`,
`D`, `E` and `sp` unchanged; `rp` is read before `H` and `L` are written. -/
theorem dad_sum_carry_and_frame (cpu : CPUState) (hwf : cpu.WF) (rp : RegisterPair)
    (hop : cpu.ram cpu.pc = 0x09 ||| (rp.mask <<< 4)) :
    ∃ cycles cpu', cycle_cpu cpu = .returned cycles cpu' ∧
      cpu'.h * 256 + cpu'.l
        = (cpu.h * 256 + cpu.l
            + (cpu.register_pair_high rp * 256 + cpu.register_pair_low rp)) % 65536 ∧
      cpu'.h < 256 ∧ cpu'.l < 256 ∧
      (cpu'.carry = true ↔
        cpu.h * 256 + cpu.l
          + (cpu.register_pair_high rp * 256 + cpu.register_pair_low rp) > 0xFFFF) ∧
      cpu'.zero = cpu.zero ∧ cpu'.sign = cpu.sign ∧ cpu'.parity = cpu.parity ∧
      cpu'.aux_carry = cpu.aux_carry ∧ cpu'.a = cpu.a ∧
      cpu'.b = cpu.b ∧ cpu'.c = cpu.c ∧ cpu'.d = cpu.d ∧ cpu'.e = cpu.e ∧ cpu'.sp = cpu.sp := by
  rewrite [cycle_cpu_eq_run _ hwf.pc hop (opcodes_add_register_pair_to_hl rp)]
  simp only [Handler.run, add_register_pair_to_hl, get_register_pair_value_eq hwf,
    shr8_and_255, and_255, CPUState.register_pair_high, CPUState.register_pair_low]
  refine ⟨_, _, rfl, ?_, ?_, ?_, ?_, rfl, rfl, rfl, rfl, rfl, rfl, rfl, rfl, rfl, rfl⟩
  · dsimp only
    omega
  · dsimp only
    omega
  · dsimp only
    omega
  · dsimp only
    exact decide_eq_true_iff

/-- C12 at concrete states: DAD B (opcode `0x09`) with `HL = 0x0000`,
`BC = 0x1200` gives `HL = 0x1200` with the carry flag clear; DAD SP (opcode
`0x39`) with `sp = 0xF000` gives `HL = 0xF000`. -/
theorem dad_sum_carry_and_frame_witness :
    (∃ cycles cpu', cycle_cpu (boot_with [0x09] 0x00 0x12 true 0) = .returned cycles cpu' ∧
      cpu'.h * 256 + cpu'.l = 0x1200 ∧ cpu'.carry = false ∧ cpu'.b = 0x12)
    ∧ (∃ cycles cpu', cycle_cpu (boot_with [0x39] 0x00 0x00 false 0) = .returned cycles cpu' ∧
      cpu'.h * 256 + cpu'.l = 0xF000 ∧ cpu'.sp = 0xF000) := by
  obtain ⟨c1, s1, h1, hhl1, _, _, hcy1, _, _, _, _, _, hb1, _⟩ :=
    dad_sum_carry_and_frame (boot_with [0x09] 0x00 0x12 true 0)
      (boot_with_wf _ _ _ _ _ (by decide) (by decide) (by decide) (by decide)) .BC (by decide)
  obtain ⟨c2, s2, h2, hhl2, _, _, _, _, _, _, _, _, _, _, _, _, hsp2⟩ :=
    dad_sum_carry_and_frame (boot_with [0x39] 0x00 0x00 false 0)
      (boot_with_wf _ _ _ _ _ (by decide) (by decide) (by decide) (by decide)) .SP (by decide)
  refine ⟨⟨c1, s1, h1, hhl1, ?_, hb1⟩, ⟨c2, s2, h2, hhl2, hsp2⟩⟩
  cases hc : s1.carry
  · rfl
  · exact absurd (hcy1.1 hc) (by decide)

section Table

set_option maxRecDepth 100000

theorem opcodes_rotate_left : opcodes 0x07 = some .rotate_left := rfl

theorem opcodes_rotate_right : opcodes 0x0F = some .rotate_right := rfl

theorem opcodes_rotate_left_through_carry :
    opcodes 0x17 = some .rotate_left_through_carry := rfl

theorem opcodes_rotate_right_through_carry :
    opcodes 0x1F = some .rotate_right_through_carry := rfl

end Table

section Rotate

set_option maxRecDepth 100000

theorem rotate_byte_facts :
    ∀ a, a < 256 →
      ((a <<< 1) ||| ((a &&& 0x80) >>> 7)) % 256 = ((a <<< 1) ||| (a >>> 7)) % 256
      ∧ (((a &&& 0x80) >>> 7) == 1) = a.testBit 7
      ∧ ((a >>> 1) ||| ((a &&& 0x01) <<< 7)) % 256 = (a >>> 1) ||| ((a &&& 1) <<< 7)
      ∧ ((a &&& 0x01) == 1) = a.testBit 0
      ∧ ((a >>> 1) ||| (1 <<< 7)) % 256 = (a >>> 1) ||| (1 <<< 7)
      ∧ ((a >>> 1) ||| 0) % 256 = (a >>> 1) ||| (0 <<< 7) := by
  decide

theorem rotate_round_trip :
    ∀ a, a < 256 →
      ((((a <<< 1) ||| (a >>> 7)) % 256) >>> 1)
          ||| (((((a <<< 1) ||| (a >>> 7)) % 256) &&& 1) <<< 7) = a
      ∧ ((((a <<< 1) ||| 1) % 256) >>> 1) ||| ((a.testBit 7).toNat <<< 7) = a
      ∧ (((a <<< 1) ||| 1) % 256).testBit 0 = true
      ∧ ((((a <<< 1) ||| 0) % 256) >>> 1) ||| ((a.testBit 7).toNat <<< 7) = a
      ∧ (((a <<< 1) ||| 0) % 256).testBit 0 = false := by
  decide

end Rotate

theorem ite_toNat (c : Bool) : (if c = true then 1 else 0 : Nat) = c.toNat := by
  cases c <;> rfl

theorem rotate_left_eq (cpu : CPUState) (ha : cpu.a < 256) :
    rotate_left cpu = .returned 1
      { cpu with a := ((cpu.a <<< 1) ||| (cpu.a >>> 7)) % 256,
                 carry := cpu.a.testBit 7,
                 pc := (cpu.pc + 1) % 65536 } := by
  obtain ⟨h1, h2, -⟩ := rotate_byte_facts cpu.a ha
  simp only [rotate_left, h1, h2]

theorem rotate_right_eq (cpu : CPUState) (ha : cpu.a < 256) :
    rotate_right cpu = .returned 1
      { cpu with a := (cpu.a >>> 1) ||| ((cpu.a &&& 1) <<< 7),
                 carry := cpu.a.testBit 0,
                 pc := (cpu.pc + 1) % 65536 } := by
  obtain ⟨-, -, h3, h4, -⟩ := rotate_byte_facts cpu.a ha
  simp only [rotate_right, h3, h4]

theorem rotate_left_through_carry_eq (cpu : CPUState) (ha : cpu.a < 256) :
    rotate_left_through_carry cpu = .returned 1
      { cpu with a := ((cpu.a <<< 1) ||| cpu.carry.toNat) % 256,
                 carry := cpu.a.testBit 7,
                 pc := (cpu.pc + 1) % 65536 } := by
  obtain ⟨-, h2, -⟩ := rotate_byte_facts cpu.a ha
  simp only [rotate_left_through_carry, h2, ite_toNat]

theorem rotate_right_through_carry_eq (cpu : CPUState) (ha : cpu.a < 256) :
    rotate_right_through_carry cpu = .returned 1
      { cpu with a := (cpu.a >>> 1) ||| (cpu.carry.toNat <<< 7),
                 carry := cpu.a.testBit 0,
                 pc := (cpu.pc + 1) % 65536 } := by
  obtain ⟨-, -, -, h4, h5, h6⟩ := rotate_byte_facts cpu.a ha
  have hbyte : ((cpu.a >>> 1) ||| (if cpu.carry = true then 1 <<< 7 else 0)) % 256
      = (cpu.a >>> 1) ||| (cpu.carry.toNat <<< 7) := by
    cases cpu.carry
    · exact h6
    · exact h5
  simp only [rotate_right_through_carry, h4, hbyte]

/-- C13: RLC, RRC, RAL and RAR produce the rotated accumulator and carry flag
of the 8080 and leave `Z`, `S`, `P`, `AC` unchanged; RAL followed by RAR
restores the accumulator and the carry flag, RLC followed by RRC restores the
accumulator. -/
theorem rotate_results_and_round_trips (cpu : CPUState) (hwf : cpu.WF) :
    (cpu.ram cpu.pc = 0x07 →
      ∃ cycles cpu', cycle_cpu cpu = .returned cycles cpu' ∧
        cpu'.a = ((cpu.a <<< 1) ||| (cpu.a >>> 7)) % 256 ∧ cpu'.carry = cpu.a.testBit 7 ∧
        cpu'.zero = cpu.zero ∧ cpu'.sign = cpu.sign ∧ cpu'.parity = cpu.parity ∧
        cpu'.aux_carry = cpu.aux_carry)
    ∧ (cpu.ram cpu.pc = 0x0F →
      ∃ cycles cpu', cycle_cpu cpu = .returned cycles cpu' ∧
        cpu'.a = (cpu.a >>> 1) ||| ((cpu.a &&& 1) <<< 7) ∧ cpu'.carry = cpu.a.testBit 0 ∧
        cpu'.zero = cpu.zero ∧ cpu'.sign = cpu.sign ∧ cpu'.parity = cpu.parity ∧
        cpu'.aux_carry = cpu.aux_carry)
    ∧ (cpu.ram cpu.pc = 0x17 →
      ∃ cycles cpu', cycle_cpu cpu = .returned cycles cpu' ∧
        cpu'.a = ((cpu.a <<< 1) ||| cpu.carry.toNat) % 256 ∧ cpu'.carry = cpu.a.testBit 7 ∧
        cpu'.zero = cpu.zero ∧ cpu'.sign = cpu.sign ∧ cpu'.parity = cpu.parity ∧
        cpu'.aux_carry = cpu.aux_carry)
    ∧ (cpu.ram cpu.pc = 0x1F →
      ∃ cycles cpu', cycle_cpu cpu = .returned cycles cpu' ∧
        cpu'.a = (cpu.a >>> 1) ||| (cpu.carry.toNat <<< 7) ∧ cpu'.carry = cpu.a.testBit 0 ∧
        cpu'.zero = cpu.zero ∧ cpu'.sign = cpu.sign ∧ cpu'.parity = cpu.parity ∧
        cpu'.aux_carry = cpu.aux_carry)
    ∧ (cpu.ram cpu.pc = 0x17 → cpu.ram ((cpu.pc + 1) % 65536) = 0x1F →
      ∃ cycles cpu'', run_steps 2 cpu = .returned cycles cpu'' ∧
        cpu''.a = cpu.a ∧ cpu''.carry = cpu.carry)
    ∧ (cpu.ram cpu.pc = 0x07 → cpu.ram ((cpu.pc + 1) % 65536) = 0x0F →
      ∃ cycles cpu'', run_steps 2 cpu = .returned cycles cpu'' ∧ cpu''.a = cpu.a) := by
  have hmod : ∀ n : Nat, n % 65536 < 65536 := fun n => Nat.mod_lt _ (by decide)
  have hbyte : ∀ n : Nat, n % 256 < 256 := fun n => Nat.mod_lt _ (by decide)
  refine ⟨?_, ?_, ?_, ?_, ?_, ?_⟩
  · intro hop
    rewrite [cycle_cpu_eq_run _ hwf.pc hop opcodes_rotate_left]
    exact ⟨_, _, rotate_left_eq cpu hwf.a, rfl, rfl, rfl, rfl, rfl, rfl⟩
  · intro hop
    rewrite [cycle_cpu_eq_run _ hwf.pc hop opcodes_rotate_right]
    exact ⟨_, _, rotate_right_eq cpu hwf.a, rfl, rfl, rfl, rfl, rfl, rfl⟩
  · intro hop
    rewrite [cycle_cpu_eq_run _ hwf.pc hop opcodes_rotate_left_through_carry]
    exact ⟨_, _, rotate_left_through_carry_eq cpu hwf.a, rfl, rfl, rfl, rfl, rfl, rfl⟩
  · intro hop
    rewrite [cycle_cpu_eq_run _ hwf.pc hop opcodes_rotate_right_through_carry]
    exact ⟨_, _, rotate_right_through_carry_eq cpu hwf.a, rfl, rfl, rfl, rfl, rfl, rfl⟩
  · intro hop hnext
    have h1 := (cycle_cpu_eq_run _ hwf.pc hop opcodes_rotate_left_through_carry).trans
      (rotate_left_through_carry_eq cpu hwf.a)
    obtain ⟨s1, h1, ha1, hc1, hpc1, hram1⟩ : ∃ s1, cycle_cpu cpu = .returned 1 s1 ∧
        s1.a = ((cpu.a <<< 1) ||| cpu.carry.toNat) % 256 ∧ s1.carry = cpu.a.testBit 7 ∧
        s1.pc = (cpu.pc + 1) % 65536 ∧ s1.ram = cpu.ram := ⟨_, h1, rfl, rfl, rfl, rfl⟩
    have h2 := (@cycle_cpu_eq_run s1 _ _ (by rw [hpc1]; exact hmod _)
      (by rw [hram1, hpc1]; exact hnext) opcodes_rotate_right_through_carry).trans
      (rotate_right_through_carry_eq s1 (by rw [ha1]; exact hbyte _))
    refine ⟨_, _, run_steps_two h1 h2, ?_, ?_⟩
    · dsimp only
      rw [ha1, hc1]
      obtain ⟨-, h1, -, h0, -⟩ := rotate_round_trip cpu.a hwf.a
      cases cpu.carry
      · exact h0
      · exact h1
    · dsimp only
      rw [ha1]
      obtain ⟨-, -, h1, -, h0⟩ := rotate_round_trip cpu.a hwf.a
      cases cpu.carry
      · exact h0
      · exact h1
  · intro hop hnext
    have h1 := (cycle_cpu_eq_run _ hwf.pc hop opcodes_rotate_left).trans
      (rotate_left_eq cpu hwf.a)
    obtain ⟨s1, h1, ha1, hpc1, hram1⟩ : ∃ s1, cycle_cpu cpu = .returned 1 s1 ∧
        s1.a = ((cpu.a <<< 1) ||| (cpu.a >>> 7)) % 256 ∧
        s1.pc = (cpu.pc + 1) % 65536 ∧ s1.ram = cpu.ram := ⟨_, h1, rfl, rfl, rfl⟩
    have h2 := (@cycle_cpu_eq_run s1 _ _ (by rw [hpc1]; exact hmod _)
      (by rw [hram1, hpc1]; exact hnext) opcodes_rotate_right).trans
      (rotate_right_eq s1 (by rw [ha1]; exact hbyte _))
    refine ⟨_, _, run_steps_two h1 h2, ?_⟩
    dsimp only
    rw [ha1]
    exact (rotate_round_trip cpu.a hwf.a).1

/-- C13 at a concrete state: with `A = 0x81` and the carry flag clear, RAL
(opcode `0x17`) gives `A = 0x02` with the carry flag set, and RAL followed by
RAR (opcode `0x1F`) gives back `A = 0x81` with the carry flag clear. -/
theorem rotate_results_and_round_trips_witness :
    (∃ cycles cpu', cycle_cpu (boot_with [0x17, 0x1F] 0x81 0x00 false 0) = .returned cycles cpu' ∧
      cpu'.a = 0x02 ∧ cpu'.carry = true)
    ∧ (∃ cycles cpu'', run_steps 2 (boot_with [0x17, 0x1F] 0x81 0x00 false 0)
        = .returned cycles cpu'' ∧ cpu''.a = 0x81 ∧ cpu''.carry = false) := by
  have h := rotate_results_and_round_trips (boot_with [0x17, 0x1F] 0x81 0x00 false 0)
    (boot_with_wf _ _ _ _ _ (by decide) (by decide) (by decide) (by decide))
  obtain ⟨c1, s1, h1, ha1, hc1, _⟩ := h.2.2.1 (by decide)
  obtain ⟨c2, s2, h2, ha2, hc2⟩ := h.2.2.2.2.1 (by decide) (by decide)
  exact ⟨⟨c1, s1, h1, ha1, hc1⟩, ⟨c2, s2, h2, ha2, hc2⟩⟩

section Table

set_option maxRecDepth 100000

theorem opcodes_conditional_jump (c : Nat) (hc : c < 8) :
    opcodes (0xC2 ||| (c <<< 3)) = some (.conditional_jump c) := by
  interval_cases c <;> exact rfl

theorem opcodes_condition_call (c : Nat) (hc : c < 8) :
    opcodes (0xC4 ||| (c <<< 3)) = some (.condition_call c) := by
  interval_cases c <;> exact rfl

theorem opcodes_conditional_return (c : Nat) (hc : c < 8) :
    opcodes (0xC0 ||| (c <<< 3)) = some (.conditional_return c) := by
  interval_cases c <;> exact rfl

theorem opcodes_jump : opcodes 0xC3 = some .jump := rfl

theorem opcodes_call : opcodes 0xCD = some .call := rfl

theorem opcodes_return_from_subroutine : opcodes 0xC9 = some .return_from_subroutine := rfl

end Table

section Stack

theorem u16_sub_two_lt (sp : Nat) : u16 ((sp : Int) - 2) < 65536 := by
  unfold u16
  omega

theorem u16_sub_two_succ_lt {sp : Nat} (hsp : sp < 65536) (h1 : sp ≠ 1) :
    u16 ((sp : Int) - 2) + 1 < 65536 := by
  unfold u16
  omega

theorem push_stack_eq {cpu : CPUState} (hsp : cpu.sp < 65536) (h1 : cpu.sp ≠ 1) (value : Nat)
    (k : CPUState → Outcome) :
    cpu.push_stack value k =
      k { cpu with
          sp := u16 ((cpu.sp : Int) - 2),
          ram := fun i =>
            if i = u16 ((cpu.sp : Int) - 2) + 1 then value >>> 8
            else if i = u16 ((cpu.sp : Int) - 2) then value &&& 0xFF
            else cpu.ram i } := by
  simp only [CPUState.push_stack, store_of_lt (u16_sub_two_lt cpu.sp),
    store_of_lt (u16_sub_two_succ_lt hsp h1)]

theorem pop_stack_eq {cpu : CPUState} (hsp : cpu.sp + 1 < 65536)
    (k : Nat → CPUState → Outcome) :
    cpu.pop_stack k =
      k ((cpu.ram cpu.sp ||| (cpu.ram (cpu.sp + 1) <<< 8)) % 65536)
        { cpu with sp := (cpu.sp + 2) % 65536 } := by
  have hlt : cpu.sp < 65536 := by omega
  simp only [CPUState.pop_stack, load_of_lt hlt, load_of_lt hsp]

theorem get_immediate_value16_eq {cpu : CPUState} (hpc : cpu.pc + 2 < 65536)
    (k : Nat → Outcome) :
    cpu.get_immediate_value16 k
      = k (((cpu.ram (cpu.pc + 2) <<< 8) ||| cpu.ram (cpu.pc + 1)) % 65536) := by
  have hlt : cpu.pc + 1 < 65536 := by omega
  simp only [CPUState.get_immediate_value16, load_of_lt hpc, load_of_lt hlt]

end Stack

theorem conditional_jump_taken {c : Nat} {cpu : CPUState}
    (h : evaluate_condition c cpu = true) : conditional_jump c cpu = jump cpu := by
  simp only [conditional_jump, h, if_true, jump, CPUState.get_immediate_value16,
    CPUState.load]
  by_cases h2 : cpu.pc + 2 < 65536
  · by_cases h1 : cpu.pc + 1 < 65536
    · simp only [h2, h1, if_true]
    · simp only [h2, h1, if_true, if_false]
  · simp only [h2, if_false]

/-- C14: `evaluate_condition` is the flag test of each of the eight condition
codes; a conditional jump, call or return whose condition holds does exactly
what `jump`, `call`, `return_from_subroutine` (the callables of JMP `0xC3`,
CALL `0xCD`, RET `0xC9`) do on the same state, and one whose condition fails
only advances `pc` by 3, 3 and 1. -/
theorem conditional_branch_taken_or_skipped (cpu : CPUState) (hwf : cpu.WF) :
    (evaluate_condition 0 cpu = !cpu.zero ∧ evaluate_condition 1 cpu = cpu.zero
      ∧ evaluate_condition 2 cpu = !cpu.carry ∧ evaluate_condition 3 cpu = cpu.carry
      ∧ evaluate_condition 4 cpu = !cpu.parity ∧ evaluate_condition 5 cpu = cpu.parity
      ∧ evaluate_condition 6 cpu = !cpu.sign ∧ evaluate_condition 7 cpu = cpu.sign)
    ∧ (∀ c, c < 8 →
        (cpu.ram cpu.pc = 0xC2 ||| (c <<< 3) →
          (evaluate_condition c cpu = true → cycle_cpu cpu = jump cpu)
          ∧ (evaluate_condition c cpu = false →
              cycle_cpu cpu = .returned 3 { cpu with pc := (cpu.pc + 3) % 65536 }))
        ∧ (cpu.ram cpu.pc = 0xC4 ||| (c <<< 3) →
          (evaluate_condition c cpu = true → cycle_cpu cpu = call cpu)
          ∧ (evaluate_condition c cpu = false →
              cycle_cpu cpu = .returned 3 { cpu with pc := (cpu.pc + 3) % 65536 }))
        ∧ (cpu.ram cpu.pc = 0xC0 ||| (c <<< 3) →
          (evaluate_condition c cpu = true → cycle_cpu cpu = return_from_subroutine cpu)
          ∧ (evaluate_condition c cpu = false →
              cycle_cpu cpu = .returned 1 { cpu with pc := (cpu.pc + 1) % 65536 })))
    ∧ (opcodes 0xC3 = some Handler.jump ∧ opcodes 0xCD = some Handler.call
      ∧ opcodes 0xC9 = some Handler.return_from_subroutine)
    ∧ (cpu.pc + 2 < 65536 → ∃ cpu', jump cpu = .returned 3 cpu')
    ∧ (cpu.pc + 2 < 65536 → cpu.sp ≠ 1 → ∃ cpu', call cpu = .returned 5 cpu')
    ∧ (cpu.sp ≠ 65535 → ∃ cpu', return_from_subroutine cpu = .returned 3 cpu') := by
  refine ⟨⟨rfl, rfl, rfl, rfl, rfl, rfl, rfl, rfl⟩, ?_,
    ⟨opcodes_jump, opcodes_call, opcodes_return_from_subroutine⟩, ?_, ?_, ?_⟩
  · intro c hc
    refine ⟨?_, ?_, ?_⟩
    · intro hop
      rewrite [cycle_cpu_eq_run _ hwf.pc hop (opcodes_conditional_jump c hc)]
      refine ⟨fun h => conditional_jump_taken h, fun h => ?_⟩
      simp only [Handler.run, conditional_jump, h, Bool.false_eq_true, if_false]
    · intro hop
      rewrite [cycle_cpu_eq_run _ hwf.pc hop (opcodes_condition_call c hc)]
      refine ⟨fun h => ?_, fun h => ?_⟩
      · simp only [Handler.run, condition_call, h, if_true]
      · simp only [Handler.run, condition_call, h, Bool.false_eq_true, if_false]
    · intro hop
      rewrite [cycle_cpu_eq_run _ hwf.pc hop (opcodes_conditional_return c hc)]
      refine ⟨fun h => ?_, fun h => ?_⟩
      · simp only [Handler.run, conditional_return, h, if_true]
      · simp only [Handler.run, conditional_return, h, Bool.false_eq_true, if_false]
  · intro hpc
    simp only [jump, get_immediate_value16_eq hpc]
    exact ⟨_, rfl⟩
  · intro hpc hsp
    simp only [call, get_immediate_value16_eq hpc, push_stack_eq hwf.sp hsp]
    exact ⟨_, rfl⟩
  · intro hsp
    have hlt : cpu.sp + 1 < 65536 := by
      have := hwf.sp
      omega
    simp only [return_from_subroutine, pop_stack_eq hlt]
    exact ⟨_, rfl⟩

/-- C14 at concrete states: JC 0x1234 (opcode `0xDA`) with the carry flag set
jumps to `0x1234`; in the spec's scenario (`XRA A` executed, `Z = 1`) JNZ
0x1000 (opcode `0xC2`) at `pc = 1` only moves `pc` to 4. -/
theorem conditional_branch_taken_or_skipped_witness :
    (∃ cpu', cycle_cpu (boot_with [0xDA, 0x34, 0x12] 0x00 0x00 true 0) = .returned 3 cpu' ∧
      cpu'.pc = 0x1234)
    ∧ (∃ cpu', cycle_cpu ((boot_with [0xAF, 0xC2, 0x00, 0x10] 0x00 0x00 false 1).with_flags
          true false false false false false false) = .returned 3 cpu' ∧
        cpu'.pc = 4 ∧ cpu'.a = 0 ∧ cpu'.zero = true) := by
  have h1 := ((conditional_branch_taken_or_skipped
      (boot_with [0xDA, 0x34, 0x12] 0x00 0x00 true 0)
      (boot_with_wf _ _ _ _ _ (by decide) (by decide) (by decide) (by decide))).2.1 3
      (by decide)).1 (by decide)
  have h2 := ((conditional_branch_taken_or_skipped
      ((boot_with [0xAF, 0xC2, 0x00, 0x10] 0x00 0x00 false 1).with_flags
        true false false false false false false)
      (WF.with_flags (boot_with_wf _ _ _ _ _ (by decide) (by decide) (by decide) (by decide))
        _ _ _ _ _ _ _)).2.1 0 (by decide)).1 (by decide)
  exact ⟨⟨_, (h1.1 (by decide)).trans rfl, rfl⟩, ⟨_, h2.2 (by decide), rfl, rfl, rfl⟩⟩

section Stack

theorem lor_shl8 (lo hi : Nat) (h : lo < 256) : lo ||| (hi <<< 8) = hi * 256 + lo := by
  rw [Nat.lor_comm]
  exact shl8_or hi lo h

theorem word_of_bytes (v : Nat) (hv : v < 65536) :
    ((v &&& 0xFF) ||| ((v >>> 8) <<< 8)) % 65536 = v := by
  rw [and_255, Nat.shiftRight_eq_div_pow, lor_shl8 _ _ (Nat.mod_lt _ (by decide))]
  omega

theorem ram_after_push (ram : Nat → Nat) (sp value : Nat) :
    (fun i => if i = sp + 1 then value >>> 8 else if i = sp then value &&& 0xFF else ram i) sp
        = value &&& 0xFF
    ∧ (fun i => if i = sp + 1 then value >>> 8 else if i = sp then value &&& 0xFF else ram i)
        (sp + 1) = value >>> 8
    ∧ ∀ j, j ≠ sp → j ≠ sp + 1 →
        (fun i => if i = sp + 1 then value >>> 8 else if i = sp then value &&& 0xFF else ram i) j
          = ram j := by
  refine ⟨?_, ?_, ?_⟩
  · simp
  · simp
  · intro j h1 h2
    simp [h1, h2]

theorem call_eq {cpu : CPUState} (hwf : cpu.WF) (hpc : cpu.pc + 2 < 65536) (hsp : cpu.sp ≠ 1) :
    call cpu = .returned 5
      { cpu with
        sp := u16 ((cpu.sp : Int) - 2),
        ram := fun i =>
          if i = u16 ((cpu.sp : Int) - 2) + 1 then ((cpu.pc + 3) % 65536) >>> 8
          else if i = u16 ((cpu.sp : Int) - 2) then ((cpu.pc + 3) % 65536) &&& 0xFF
          else cpu.ram i,
        pc := cpu.ram (cpu.pc + 2) * 256 + cpu.ram (cpu.pc + 1) } := by
  have hlo := hwf.ram (cpu.pc + 1)
  have hhi := hwf.ram (cpu.pc + 2)
  have haddr : ((cpu.ram (cpu.pc + 2) <<< 8) ||| cpu.ram (cpu.pc + 1)) % 65536
      = cpu.ram (cpu.pc + 2) * 256 + cpu.ram (cpu.pc + 1) := by
    rw [shl8_or _ _ hlo]
    omega
  simp only [call, get_immediate_value16_eq hpc, push_stack_eq hwf.sp hsp, haddr]

theorem return_from_subroutine_eq {cpu : CPUState} (hsp : cpu.sp + 1 < 65536) :
    return_from_subroutine cpu = .returned 3
      { cpu with
        sp := (cpu.sp + 2) % 65536,
        pc := (cpu.ram cpu.sp ||| (cpu.ram (cpu.sp + 1) <<< 8)) % 65536 } := by
  simp only [return_from_subroutine, pop_stack_eq hsp]

end Stack

set_option maxRecDepth 100000 in
/-- C15: CALL to an address holding RET, with the two stack bytes away from
that address, writes the return address `pc + 3` below `sp` (low byte first),
sets `sp` to `sp - 2` and `pc` to the target; the following RET sets `pc` to
`pc + 3` and `sp` back.  In the spec's scenario three steps end halted at
`pc = 0x0004` with `sp = 0xF000`. -/
theorem call_then_return (cpu : CPUState) (hwf : cpu.WF) (a : Nat)
    (hop : cpu.ram cpu.pc = 0xCD) (hpc : cpu.pc + 2 < 65536)
    (ha : a = cpu.ram (cpu.pc + 2) * 256 + cpu.ram (cpu.pc + 1))
    (hret : cpu.ram a = 0xC9) (hsp : cpu.sp ≠ 1)
    (hapart : a ≠ u16 ((cpu.sp : Int) - 2) ∧ a ≠ u16 ((cpu.sp : Int) - 2) + 1) :
    (∃ cpu1, cycle_cpu cpu = .returned 5 cpu1 ∧
      cpu1.ram (u16 ((cpu.sp : Int) - 2)) = (cpu.pc + 3) % 65536 % 256 ∧
      cpu1.ram (u16 ((cpu.sp : Int) - 2) + 1) = (cpu.pc + 3) % 65536 / 256 ∧
      cpu1.sp = u16 ((cpu.sp : Int) - 2) ∧ cpu1.pc = a ∧
      ∃ cpu2, cycle_cpu cpu1 = .returned 3 cpu2 ∧
        cpu2.pc = (cpu.pc + 3) % 65536 ∧ cpu2.sp = cpu.sp)
    ∧ ((run_steps 3 (boot [0xCD, 0x06, 0x00, 0x76, 0x00, 0x00, 0xC9])).state.map
        fun cpu => (cpu.halt, cpu.pc, cpu.sp)) = some (true, 0x0004, 0xF000) := by
  refine ⟨?_, by decide⟩
  have h1 := (cycle_cpu_eq_run _ hwf.pc hop opcodes_call).trans (call_eq hwf hpc hsp)
  have hspl := u16_sub_two_succ_lt hwf.sp hsp
  obtain ⟨hr0, hr1, hrest⟩ := ram_after_push cpu.ram (u16 ((cpu.sp : Int) - 2))
    ((cpu.pc + 3) % 65536)
  obtain ⟨cpu1, h1, hsp1, hpc1, hram0, hram1, hrama⟩ : ∃ cpu1, cycle_cpu cpu = .returned 5 cpu1 ∧
      cpu1.sp = u16 ((cpu.sp : Int) - 2) ∧ cpu1.pc = a ∧
      cpu1.ram (u16 ((cpu.sp : Int) - 2)) = ((cpu.pc + 3) % 65536) &&& 0xFF ∧
      cpu1.ram (u16 ((cpu.sp : Int) - 2) + 1) = ((cpu.pc + 3) % 65536) >>> 8 ∧
      cpu1.ram a = 0xC9 :=
    ⟨_, h1, rfl, ha.symm, hr0, hr1, (hrest a hapart.1 hapart.2).trans hret⟩
  have ha_lt : a < 65536 := by
    have hlo := hwf.ram (cpu.pc + 1)
    have hhi := hwf.ram (cpu.pc + 2)
    omega
  have h2 := (@cycle_cpu_eq_run cpu1 _ _ (by rw [hpc1]; exact ha_lt)
    (by rw [hpc1]; exact hrama) opcodes_return_from_subroutine).trans
    (return_from_subroutine_eq (by rw [hsp1]; exact hspl))
  refine ⟨cpu1, h1, ?_, ?_, hsp1, hpc1, _, h2, ?_, ?_⟩
  · rw [hram0, and_255]
  · rw [hram1, Nat.shiftRight_eq_div_pow]
  · dsimp only
    rw [hsp1, hram0, hram1]
    exact word_of_bytes _ (Nat.mod_lt _ (by decide))
  · dsimp only
    rw [hsp1]
    have := hwf.sp
    unfold u16
    omega

/-- C15 at the spec's state: from reset with ROM `CD 06 00 76 00 00 C9`, CALL
0x0006 stores `0x03`, `0x00` at `0xEFFE`, `0xEFFF`, and the RET at `0x0006`
comes back to `pc = 3` with `sp = 0xF000`. -/
theorem call_then_return_witness :
    ∃ cpu1, cycle_cpu (boot [0xCD, 0x06, 0x00, 0x76, 0x00, 0x00, 0xC9]) = .returned 5 cpu1 ∧
      cpu1.ram 0xEFFE = 0x03 ∧ cpu1.ram 0xEFFF = 0x00 ∧ cpu1.sp = 0xEFFE ∧ cpu1.pc = 0x0006 ∧
      ∃ cpu2, cycle_cpu cpu1 = .returned 3 cpu2 ∧ cpu2.pc = 0x0003 ∧ cpu2.sp = 0xF000 :=
  (call_then_return (boot [0xCD, 0x06, 0x00, 0x76, 0x00, 0x00, 0xC9])
    (boot_wf _ (by decide)) 0x0006 (by decide) (by decide) (by decide) (by decide) (by decide)
    (by decide)).1

set_option maxRecDepth 100000 in
/-- C16 at failing inputs: with `sp = 0x0001`, `push_stack` decrements `sp` to
`0xFFFF` and then indexes `ram[0x10000]`, outside the 64 KiB array, and with
`sp = 0xFFFF`, `pop_stack` indexes `ram[0x10000]`; the same happens through the
dispatcher after `LXI SP,0001; PUSH B` and `LXI SP,FFFF; POP B`. -/
theorem stack_wraparound_leaves_ram :
    (CPUState.push_stack { boot [] with sp := 0x0001 } 0x1234 fun cpu =>
        .returned 0 cpu).fault = some (.out_of_bounds 0x10000)
    ∧ (CPUState.pop_stack { boot [] with sp := 0xFFFF } fun _ cpu =>
        .returned 0 cpu).fault = some (.out_of_bounds 0x10000)
    ∧ (run_steps 2 (boot [0x31, 0x01, 0x00, 0xC5])).fault = some (.out_of_bounds 0x10000)
    ∧ (run_steps 2 (boot [0x31, 0xFF, 0xFF, 0xC1])).fault = some (.out_of_bounds 0x10000) := by
  decide

section Table

set_option maxRecDepth 100000

theorem opcodes_push (rp : RegisterPair) (h : rp ≠ .SP) :
    opcodes (0xC5 ||| (rp.mask <<< 4)) = some (.push rp) := by
  cases rp
  · exact rfl
  · exact rfl
  · exact rfl
  · exact absurd rfl h

theorem opcodes_pop (rp : RegisterPair) (h : rp ≠ .SP) :
    opcodes (0xC1 ||| (rp.mask <<< 4)) = some (.pop rp) := by
  cases rp
  · exact rfl
  · exact rfl
  · exact rfl
  · exact absurd rfl h

theorem opcodes_push_processor_state : opcodes 0xF5 = some .push_processor_state := rfl

theorem opcodes_pop_processor_state : opcodes 0xF1 = some .pop_processor_state := rfl

end Table

section Stack

theorem push_eq {cpu : CPUState} (hwf : cpu.WF) (hsp : cpu.sp ≠ 1) (rp : RegisterPair)
    (hrp : rp ≠ .SP) :
    push rp cpu = .returned 3
      { cpu with
        sp := u16 ((cpu.sp : Int) - 2),
        ram := fun i =>
          if i = u16 ((cpu.sp : Int) - 2) + 1 then
            (cpu.register_pair_high rp * 256 + cpu.register_pair_low rp) >>> 8
          else if i = u16 ((cpu.sp : Int) - 2) then
            (cpu.register_pair_high rp * 256 + cpu.register_pair_low rp) &&& 0xFF
          else cpu.ram i,
        pc := (cpu.pc + 1) % 65536 } := by
  simp only [push, if_neg hrp, push_stack_eq hwf.sp hsp, get_register_pair_value_eq hwf]

theorem pop_eq {cpu : CPUState} (hsp : cpu.sp + 1 < 65536) (rp : RegisterPair)
    (hrp : rp ≠ .SP) :
    pop rp cpu = .returned 3
      { (({ cpu with sp := (cpu.sp + 2) % 65536 }).set_register_pair_low rp
            (((cpu.ram cpu.sp ||| (cpu.ram (cpu.sp + 1) <<< 8)) % 65536) &&& 0xFF)
          ).set_register_pair_high rp
            (((cpu.ram cpu.sp ||| (cpu.ram (cpu.sp + 1) <<< 8)) % 65536) >>> 8) with
        pc := (cpu.pc + 1) % 65536 } := by
  simp only [pop, if_neg hrp, pop_stack_eq hsp]
  cases rp
  · rfl
  · rfl
  · rfl
  · exact absurd rfl hrp

theorem bytes_of_pair (hi lo : Nat) (hhi : hi < 256) (hlo : lo < 256) :
    ((((hi * 256 + lo) &&& 0xFF) ||| (((hi * 256 + lo) >>> 8) <<< 8)) % 65536) &&& 0xFF = lo
    ∧ ((((hi * 256 + lo) &&& 0xFF) ||| (((hi * 256 + lo) >>> 8) <<< 8)) % 65536) >>> 8 = hi := by
  rw [word_of_bytes _ (by omega), and_255, Nat.shiftRight_eq_div_pow]
  constructor <;> omega

end Stack

section ProcessorStatus

theorem and_bit_ne_zero (x : Nat) :
    ((x &&& 0x40) != 0) = x.testBit 6 ∧ ((x &&& 0x10) != 0) = x.testBit 4
    ∧ ((x &&& 0x04) != 0) = x.testBit 2 ∧ ((x &&& 0x01) != 0) = x.testBit 0 := by
  have h6 := Nat.and_two_pow x 6
  have h4 := Nat.and_two_pow x 4
  have h2 := Nat.and_two_pow x 2
  norm_num at h6 h4 h2
  rw [h6, h4, h2]
  refine ⟨?_, ?_, ?_, ?_⟩
  · cases x.testBit 6 <;> simp
  · cases x.testBit 4 <;> simp
  · cases x.testBit 2 <;> simp
  · rw [Nat.and_one_is_mod, Nat.testBit_zero]
    rcases Nat.mod_two_eq_zero_or_one x with h | h <;> simp [h]

theorem flag_byte_eq (s z ac p cy : Bool) :
    ((((((0 ||| (s.toNat <<< 7)) % 256 ||| (z.toNat <<< 6)) % 256 ||| (ac.toNat <<< 4)) % 256
        ||| (p.toNat <<< 2)) % 256 ||| (1 <<< 1)) % 256 ||| cy.toNat) % 256
      = s.toNat * 128 + z.toNat * 64 + ac.toNat * 16 + p.toNat * 4 + 2 + cy.toNat := by
  cases s <;> cases z <;> cases ac <;> cases p <;> cases cy <;> rfl

theorem flag_byte_bits (s z ac p cy : Bool) :
    s.toNat * 128 + z.toNat * 64 + ac.toNat * 16 + p.toNat * 4 + 2 + cy.toNat < 256
    ∧ (s.toNat * 128 + z.toNat * 64 + ac.toNat * 16 + p.toNat * 4 + 2 + cy.toNat).testBit 7 = s
    ∧ (s.toNat * 128 + z.toNat * 64 + ac.toNat * 16 + p.toNat * 4 + 2 + cy.toNat).testBit 6 = z
    ∧ (s.toNat * 128 + z.toNat * 64 + ac.toNat * 16 + p.toNat * 4 + 2 + cy.toNat).testBit 5
        = false
    ∧ (s.toNat * 128 + z.toNat * 64 + ac.toNat * 16 + p.toNat * 4 + 2 + cy.toNat).testBit 4 = ac
    ∧ (s.toNat * 128 + z.toNat * 64 + ac.toNat * 16 + p.toNat * 4 + 2 + cy.toNat).testBit 3
        = false
    ∧ (s.toNat * 128 + z.toNat * 64 + ac.toNat * 16 + p.toNat * 4 + 2 + cy.toNat).testBit 2 = p
    ∧ (s.toNat * 128 + z.toNat * 64 + ac.toNat * 16 + p.toNat * 4 + 2 + cy.toNat).testBit 1
        = true
    ∧ (s.toNat * 128 + z.toNat * 64 + ac.toNat * 16 + p.toNat * 4 + 2 + cy.toNat).testBit 0
        = cy := by
  cases s <;> cases z <;> cases ac <;> cases p <;> cases cy <;> decide

theorem push_processor_state_eq {cpu : CPUState} (hwf : cpu.WF) (hsp : cpu.sp ≠ 1) :
    push_processor_state cpu = .returned 3
      { cpu with
        sp := u16 ((cpu.sp : Int) - 2),
        ram := fun i =>
          if i = u16 ((cpu.sp : Int) - 2) + 1 then
            ((cpu.sign.toNat * 128 + cpu.zero.toNat * 64 + cpu.aux_carry.toNat * 16
              + cpu.parity.toNat * 4 + 2 + cpu.carry.toNat) * 256 + cpu.a) >>> 8
          else if i = u16 ((cpu.sp : Int) - 2) then
            ((cpu.sign.toNat * 128 + cpu.zero.toNat * 64 + cpu.aux_carry.toNat * 16
              + cpu.parity.toNat * 4 + 2 + cpu.carry.toNat) * 256 + cpu.a) &&& 0xFF
          else cpu.ram i,
        pc := (cpu.pc + 1) % 65536 } := by
  have hlt := (flag_byte_bits cpu.sign cpu.zero cpu.aux_carry cpu.parity cpu.carry).1
  have ha := hwf.a
  have hword : (((cpu.sign.toNat * 128 + cpu.zero.toNat * 64 + cpu.aux_carry.toNat * 16
      + cpu.parity.toNat * 4 + 2 + cpu.carry.toNat) <<< 8) ||| cpu.a) % 65536
      = (cpu.sign.toNat * 128 + cpu.zero.toNat * 64 + cpu.aux_carry.toNat * 16
      + cpu.parity.toNat * 4 + 2 + cpu.carry.toNat) * 256 + cpu.a := by
    rw [shl8_or _ _ ha]
    omega
  simp only [push_processor_state, flag_byte_eq, hword, push_stack_eq hwf.sp hsp]

theorem bytes_of_word (hi lo : Nat) (hlo : lo < 256) :
    (hi * 256 + lo) &&& 0xFF = lo ∧ (hi * 256 + lo) >>> 8 = hi := by
  rw [and_255, Nat.shiftRight_eq_div_pow]
  constructor <;> omega

theorem pop_processor_state_eq {cpu : CPUState} (hsp : cpu.sp + 1 < 65536)
    (hlo : cpu.ram cpu.sp < 256) (hhi : cpu.ram (cpu.sp + 1) < 256) :
    pop_processor_state cpu = .returned 3
      { cpu with
        sp := (cpu.sp + 2) % 65536,
        a := cpu.ram cpu.sp,
        sign := (cpu.ram (cpu.sp + 1)).testBit 7,
        zero := (cpu.ram (cpu.sp + 1)).testBit 6,
        aux_carry := (cpu.ram (cpu.sp + 1)).testBit 4,
        parity := (cpu.ram (cpu.sp + 1)).testBit 2,
        carry := (cpu.ram (cpu.sp + 1)).testBit 0,
        pc := (cpu.pc + 1) % 65536 } := by
  have hword : (cpu.ram cpu.sp ||| (cpu.ram (cpu.sp + 1) <<< 8)) % 65536
      = cpu.ram (cpu.sp + 1) * 256 + cpu.ram cpu.sp := by
    rw [lor_shl8 _ _ hlo]
    omega
  obtain ⟨hlow, hshift⟩ := bytes_of_word (cpu.ram (cpu.sp + 1)) (cpu.ram cpu.sp) hlo
  have hhigh : cpu.ram (cpu.sp + 1) % 256 = cpu.ram (cpu.sp + 1) := Nat.mod_eq_of_lt hhi
  obtain ⟨h6, h4, h2, h0⟩ := and_bit_ne_zero (cpu.ram (cpu.sp + 1))
  simp only [pop_processor_state, pop_stack_eq hsp, hword, hlow, hshift, hhigh,
    and_128_ne_zero, h6, h4, h2, h0]

end ProcessorStatus

/-- C17: PUSH rp immediately followed by the matching POP rp (rp one of BC, DE,
HL, or PSW), with the two stack bytes away from the POP opcode, leaves every
register, the five flags and `sp` as they were and advances `pc` by 2. -/
theorem push_pop_round_trip (cpu : CPUState) (hwf : cpu.WF) (hsp : cpu.sp ≠ 1)
    (hapart : (cpu.pc + 1) % 65536 ≠ u16 ((cpu.sp : Int) - 2)
      ∧ (cpu.pc + 1) % 65536 ≠ u16 ((cpu.sp : Int) - 2) + 1)
    (hops : (∃ rp : RegisterPair, rp ≠ .SP ∧ cpu.ram cpu.pc = 0xC5 ||| (rp.mask <<< 4)
        ∧ cpu.ram ((cpu.pc + 1) % 65536) = 0xC1 ||| (rp.mask <<< 4))
      ∨ (cpu.ram cpu.pc = 0xF5 ∧ cpu.ram ((cpu.pc + 1) % 65536) = 0xF1)) :
    ∃ cycles cpu2, run_steps 2 cpu = .returned cycles cpu2 ∧
      cpu2.a = cpu.a ∧ cpu2.b = cpu.b ∧ cpu2.c = cpu.c ∧ cpu2.d = cpu.d ∧ cpu2.e = cpu.e ∧
      cpu2.h = cpu.h ∧ cpu2.l = cpu.l ∧ cpu2.sp = cpu.sp ∧
      cpu2.zero = cpu.zero ∧ cpu2.sign = cpu.sign ∧ cpu2.parity = cpu.parity ∧
      cpu2.carry = cpu.carry ∧ cpu2.aux_carry = cpu.aux_carry ∧
      cpu2.pc = (cpu.pc + 2) % 65536 := by
  have hspl := u16_sub_two_succ_lt hwf.sp hsp
  have hsp16 : (u16 ((cpu.sp : Int) - 2) + 2) % 65536 = cpu.sp := by
    have := hwf.sp
    unfold u16
    omega
  have hpc2 : ((cpu.pc + 1) % 65536 + 1) % 65536 = (cpu.pc + 2) % 65536 := by omega
  rcases hops with ⟨rp, hrp, hop1, hop2⟩ | ⟨hop1, hop2⟩
  · have h1 := (cycle_cpu_eq_run _ hwf.pc hop1 (opcodes_push rp hrp)).trans
      (push_eq hwf hsp rp hrp)
    obtain ⟨hr0, hr1, hrest⟩ := ram_after_push cpu.ram (u16 ((cpu.sp : Int) - 2))
      (cpu.register_pair_high rp * 256 + cpu.register_pair_low rp)
    refine ⟨_, _, run_steps_two h1 ((cycle_cpu_eq_run (.pop rp) (Nat.mod_lt _ (by decide))
      ((hrest _ hapart.1 hapart.2).trans hop2) (opcodes_pop rp hrp)).trans
      (pop_eq hspl rp hrp)), ?_⟩
    cases rp
    · obtain ⟨hlo, hhi⟩ := bytes_of_pair cpu.b cpu.c hwf.b hwf.c
      dsimp only [CPUState.set_register_pair_low, CPUState.set_register_pair_high,
        CPUState.register_pair_low, CPUState.register_pair_high] at hr0 hr1 ⊢
      rw [hr0, hr1]
      exact ⟨rfl, hhi, hlo, rfl, rfl, rfl, rfl, hsp16, rfl, rfl, rfl, rfl, rfl, hpc2⟩
    · obtain ⟨hlo, hhi⟩ := bytes_of_pair cpu.d cpu.e hwf.d hwf.e
      dsimp only [CPUState.set_register_pair_low, CPUState.set_register_pair_high,
        CPUState.register_pair_low, CPUState.register_pair_high] at hr0 hr1 ⊢
      rw [hr0, hr1]
      exact ⟨rfl, rfl, rfl, hhi, hlo, rfl, rfl, hsp16, rfl, rfl, rfl, rfl, rfl, hpc2⟩
    · obtain ⟨hlo, hhi⟩ := bytes_of_pair cpu.h cpu.l hwf.h hwf.l
      dsimp only [CPUState.set_register_pair_low, CPUState.set_register_pair_high,
        CPUState.register_pair_low, CPUState.register_pair_high] at hr0 hr1 ⊢
      rw [hr0, hr1]
      exact ⟨rfl, rfl, rfl, rfl, rfl, hhi, hlo, hsp16, rfl, rfl, rfl, rfl, rfl, hpc2⟩
    · exact absurd rfl hrp
  · have h1 := (cycle_cpu_eq_run _ hwf.pc hop1 opcodes_push_processor_state).trans
      (push_processor_state_eq hwf hsp)
    obtain ⟨hr0, hr1, hrest⟩ := ram_after_push cpu.ram (u16 ((cpu.sp : Int) - 2))
      ((cpu.sign.toNat * 128 + cpu.zero.toNat * 64 + cpu.aux_carry.toNat * 16
        + cpu.parity.toNat * 4 + 2 + cpu.carry.toNat) * 256 + cpu.a)
    obtain ⟨hlow, hhigh⟩ := bytes_of_word
      (cpu.sign.toNat * 128 + cpu.zero.toNat * 64 + cpu.aux_carry.toNat * 16
        + cpu.parity.toNat * 4 + 2 + cpu.carry.toNat) cpu.a hwf.a
    obtain ⟨hlt, b7, b6, -, b4, -, b2, -, b0⟩ :=
      flag_byte_bits cpu.sign cpu.zero cpu.aux_carry cpu.parity cpu.carry
    have hs0 := hr0.trans hlow
    have hs1 := hr1.trans hhigh
    refine ⟨_, _, run_steps_two h1 ((cycle_cpu_eq_run .pop_processor_state
      (Nat.mod_lt _ (by decide)) ((hrest _ hapart.1 hapart.2).trans hop2)
      opcodes_pop_processor_state).trans
      (pop_processor_state_eq hspl (hs0.trans_lt hwf.a) (hs1.trans_lt hlt))), ?_⟩
    dsimp only at hs0 hs1 ⊢
    rw [hs0, hs1]
    exact ⟨rfl, rfl, rfl, rfl, rfl, rfl, rfl, hsp16, b6, b7, b2, b0, b4, hpc2⟩

/-- C17 at concrete states: from `sp = 0xF000`, PUSH B; POP B with `B = 0x22`
and PUSH PSW; POP PSW with `A = 0x11` and the carry flag set both end with the
same values, `sp = 0xF000` and `pc = 2`. -/
theorem push_pop_round_trip_witness :
    (∃ cycles cpu2, run_steps 2 (boot_with [0xC5, 0xC1] 0x11 0x22 true 0) = .returned cycles cpu2 ∧
      cpu2.b = 0x22 ∧ cpu2.c = 0x00 ∧ cpu2.sp = 0xF000 ∧ cpu2.pc = 2)
    ∧ (∃ cycles cpu2, run_steps 2 (boot_with [0xF5, 0xF1] 0x11 0x22 true 0)
        = .returned cycles cpu2 ∧
      cpu2.a = 0x11 ∧ cpu2.carry = true ∧ cpu2.zero = false ∧ cpu2.sp = 0xF000 ∧ cpu2.pc = 2) := by
  obtain ⟨n1, s1, h1, _, hb, hc, _, _, _, _, hsp, _, _, _, _, _, hpc⟩ :=
    push_pop_round_trip (boot_with [0xC5, 0xC1] 0x11 0x22 true 0)
      (boot_with_wf _ _ _ _ _ (by decide) (by decide) (by decide) (by decide))
      (by decide) (by decide) (Or.inl ⟨.BC, by decide, by decide, by decide⟩)
  obtain ⟨n2, s2, h2, ha, _, _, _, _, _, _, hsp2, hz, _, _, hcy, _, hpc2⟩ :=
    push_pop_round_trip (boot_with [0xF5, 0xF1] 0x11 0x22 true 0)
      (boot_with_wf _ _ _ _ _ (by decide) (by decide) (by decide) (by decide))
      (by decide) (by decide) (Or.inr ⟨by decide, by decide⟩)
  exact ⟨⟨n1, s1, h1, hb, hc, hsp, hpc⟩, ⟨n2, s2, h2, ha, hcy, hz, hsp2, hpc2⟩⟩

theorem testBit_of_and_0xD5 {x y : Nat} (h : x &&& 0xD5 = y &&& 0xD5) :
    x.testBit 7 = y.testBit 7 ∧ x.testBit 6 = y.testBit 6 ∧ x.testBit 4 = y.testBit 4
    ∧ x.testBit 2 = y.testBit 2 ∧ x.testBit 0 = y.testBit 0 := by
  have key : ∀ i, (0xD5 : Nat).testBit i = true → x.testBit i = y.testBit i := by
    intro i hi
    have hx := Nat.testBit_and x 0xD5 i
    have hy := Nat.testBit_and y 0xD5 i
    rw [hi, Bool.and_true] at hx hy
    rw [← hx, ← hy, h]
  exact ⟨key 7 (by decide), key 6 (by decide), key 4 (by decide), key 2 (by decide),
    key 0 (by decide)⟩

/-- C18: PUSH PSW stores `A` at `sp - 2` and the flag byte at `sp - 1`, with
`S`, `Z`, `AC`, `P`, `CY` in bits 7, 6, 4, 2, 0, bits 5 and 3 clear and bit 1
set; POP PSW loads `A` from the byte at `sp` and the five flags from bits 7, 6,
4, 2, 0 of the byte at `sp + 1`, so a flag byte that differs only in bits 5, 3
or 1 gives the same resulting state (that memory byte apart). -/
theorem psw_push_layout_and_pop (cpu : CPUState) (hwf : cpu.WF) :
    (cpu.ram cpu.pc = 0xF5 → cpu.sp ≠ 1 →
      ∃ cpu', cycle_cpu cpu = .returned 3 cpu' ∧
        cpu'.sp = u16 ((cpu.sp : Int) - 2) ∧
        cpu'.ram cpu'.sp = cpu.a ∧
        cpu'.ram (cpu'.sp + 1)
          = cpu.sign.toNat * 128 + cpu.zero.toNat * 64 + cpu.aux_carry.toNat * 16
            + cpu.parity.toNat * 4 + 2 + cpu.carry.toNat ∧
        (cpu'.ram (cpu'.sp + 1)).testBit 7 = cpu.sign ∧
        (cpu'.ram (cpu'.sp + 1)).testBit 6 = cpu.zero ∧
        (cpu'.ram (cpu'.sp + 1)).testBit 5 = false ∧
        (cpu'.ram (cpu'.sp + 1)).testBit 4 = cpu.aux_carry ∧
        (cpu'.ram (cpu'.sp + 1)).testBit 3 = false ∧
        (cpu'.ram (cpu'.sp + 1)).testBit 2 = cpu.parity ∧
        (cpu'.ram (cpu'.sp + 1)).testBit 1 = true ∧
        (cpu'.ram (cpu'.sp + 1)).testBit 0 = cpu.carry)
    ∧ (cpu.ram cpu.pc = 0xF1 → cpu.sp ≠ 65535 →
      ∃ cpu', cycle_cpu cpu = .returned 3 cpu' ∧
        cpu'.a = cpu.ram cpu.sp ∧
        cpu'.sign = (cpu.ram (cpu.sp + 1)).testBit 7 ∧
        cpu'.zero = (cpu.ram (cpu.sp + 1)).testBit 6 ∧
        cpu'.aux_carry = (cpu.ram (cpu.sp + 1)).testBit 4 ∧
        cpu'.parity = (cpu.ram (cpu.sp + 1)).testBit 2 ∧
        cpu'.carry = (cpu.ram (cpu.sp + 1)).testBit 0)
    ∧ (cpu.ram cpu.pc = 0xF1 → cpu.sp ≠ 65535 → cpu.pc ≠ cpu.sp + 1 →
      ∀ high, high < 256 → high &&& 0xD5 = cpu.ram (cpu.sp + 1) &&& 0xD5 →
        ∃ cpu' other', cycle_cpu cpu = .returned 3 cpu' ∧
          cycle_cpu { cpu with ram := fun i => if i = cpu.sp + 1 then high else cpu.ram i }
            = .returned 3 other' ∧
          other' = { cpu' with
            ram := fun i => if i = cpu.sp + 1 then high else cpu.ram i }) := by
  have hsplt : cpu.sp ≠ 65535 → cpu.sp + 1 < 65536 := by
    intro h
    have := hwf.sp
    omega
  refine ⟨?_, ?_, ?_⟩
  · intro hop hsp
    have h1 := (cycle_cpu_eq_run _ hwf.pc hop opcodes_push_processor_state).trans
      (push_processor_state_eq hwf hsp)
    obtain ⟨hr0, hr1, -⟩ := ram_after_push cpu.ram (u16 ((cpu.sp : Int) - 2))
      ((cpu.sign.toNat * 128 + cpu.zero.toNat * 64 + cpu.aux_carry.toNat * 16
        + cpu.parity.toNat * 4 + 2 + cpu.carry.toNat) * 256 + cpu.a)
    obtain ⟨hlow, hhigh⟩ := bytes_of_word
      (cpu.sign.toNat * 128 + cpu.zero.toNat * 64 + cpu.aux_carry.toNat * 16
        + cpu.parity.toNat * 4 + 2 + cpu.carry.toNat) cpu.a hwf.a
    obtain ⟨-, b7, b6, b5, b4, b3, b2, b1, b0⟩ :=
      flag_byte_bits cpu.sign cpu.zero cpu.aux_carry cpu.parity cpu.carry
    have hs0 := hr0.trans hlow
    have hs1 := hr1.trans hhigh
    refine ⟨_, h1, rfl, ?_⟩
    dsimp only at hs0 hs1 ⊢
    rw [hs0, hs1]
    exact ⟨rfl, rfl, b7, b6, b5, b4, b3, b2, b1, b0⟩
  · intro hop hsp
    have h1 := (cycle_cpu_eq_run _ hwf.pc hop opcodes_pop_processor_state).trans
      (pop_processor_state_eq (hsplt hsp) (hwf.ram _) (hwf.ram _))
    exact ⟨_, h1, rfl, rfl, rfl, rfl, rfl, rfl⟩
  · intro hop hsp hpc high hhigh hbits
    have h1 := (cycle_cpu_eq_run _ hwf.pc hop opcodes_pop_processor_state).trans
      (pop_processor_state_eq (hsplt hsp) (hwf.ram _) (hwf.ram _))
    have hram_pc : (fun i => if i = cpu.sp + 1 then high else cpu.ram i) cpu.pc = 0xF1 := by
      simp only [if_neg hpc]
      exact hop
    have hram_sp : (fun i => if i = cpu.sp + 1 then high else cpu.ram i) cpu.sp
        = cpu.ram cpu.sp := by
      simp
    have hram_sp1 : (fun i => if i = cpu.sp + 1 then high else cpu.ram i) (cpu.sp + 1)
        = high := by
      simp
    have h2 := (@cycle_cpu_eq_run
      { cpu with ram := fun i => if i = cpu.sp + 1 then high else cpu.ram i } _
      .pop_processor_state hwf.pc hram_pc opcodes_pop_processor_state).trans
      (pop_processor_state_eq (hsplt hsp) (hram_sp.trans_lt (hwf.ram _))
        (hram_sp1.trans_lt hhigh))
    obtain ⟨t7, t6, t4, t2, t0⟩ := testBit_of_and_0xD5 hbits
    refine ⟨_, _, h1, h2, ?_⟩
    dsimp only at hram_sp hram_sp1 ⊢
    rw [hram_sp, hram_sp1, t7, t6, t4, t2, t0]

/-- C18 at concrete states: PUSH PSW with `A = 0x11` and only the carry flag set
stores `0x11` at `0xEFFE` and the flag byte `0x03` at `0xEFFF`; POP PSW with
`sp = 0xF000` over zeroed memory clears `A` and the carry flag. -/
theorem psw_push_layout_and_pop_witness :
    (∃ cpu', cycle_cpu (boot_with [0xF5] 0x11 0x00 true 0) = .returned 3 cpu' ∧
      cpu'.sp = 0xEFFE ∧ cpu'.ram cpu'.sp = 0x11 ∧ cpu'.ram (cpu'.sp + 1) = 0x03)
    ∧ (∃ cpu', cycle_cpu (boot_with [0xF1] 0x11 0x00 true 0) = .returned 3 cpu' ∧
      cpu'.a = 0x00 ∧ cpu'.carry = false) := by
  have h := psw_push_layout_and_pop (boot_with [0xF5] 0x11 0x00 true 0)
    (boot_with_wf _ _ _ _ _ (by decide) (by decide) (by decide) (by decide))
  have h' := psw_push_layout_and_pop (boot_with [0xF1] 0x11 0x00 true 0)
    (boot_with_wf _ _ _ _ _ (by decide) (by decide) (by decide) (by decide))
  obtain ⟨s1, h1, hsp, hlo, hhi, _⟩ := h.1 (by decide) (by decide)
  obtain ⟨s2, h2, ha, _, _, _, _, hcy⟩ := h'.2.1 (by decide) (by decide)
  exact ⟨⟨s1, h1, hsp, hlo, hhi⟩, ⟨s2, h2, ha, hcy⟩⟩

section Table

set_option maxRecDepth 100000

theorem opcodes_exchange_stack_top_with_hl :
    opcodes 0xE3 = some .exchange_stack_top_with_hl := rfl

end Table

theorem exchange_stack_top_with_hl_eq {cpu : CPUState} (hsp : cpu.sp + 1 < 65536)
    (hh : cpu.h < 256) (hl : cpu.l < 256)
    (hlo : cpu.ram cpu.sp < 256) (hhi : cpu.ram (cpu.sp + 1) < 256) :
    exchange_stack_top_with_hl cpu = .returned 5
      { cpu with
        l := cpu.ram cpu.sp,
        h := cpu.ram (cpu.sp + 1),
        ram := fun i => if i = cpu.sp + 1 then cpu.h else if i = cpu.sp then cpu.l else cpu.ram i,
        pc := (cpu.pc + 1) % 65536 } := by
  have hback : u16 ((((cpu.sp + 2) % 65536 : Nat) : Int) - 2) = cpu.sp := by
    unfold u16
    omega
  have hne : (cpu.sp + 2) % 65536 ≠ 1 := by omega
  have hword : (cpu.ram cpu.sp ||| (cpu.ram (cpu.sp + 1) <<< 8)) % 65536
      = cpu.ram (cpu.sp + 1) * 256 + cpu.ram cpu.sp := by
    rw [lor_shl8 _ _ hlo]
    omega
  have hhl : ((cpu.h <<< 8) ||| cpu.l) % 65536 = cpu.h * 256 + cpu.l := by
    rw [shl8_or _ _ hl]
    omega
  obtain ⟨hv0, hv1⟩ := bytes_of_word (cpu.ram (cpu.sp + 1)) (cpu.ram cpu.sp) hlo
  obtain ⟨hp0, hp1⟩ := bytes_of_word cpu.h cpu.l hl
  simp only [exchange_stack_top_with_hl, pop_stack_eq hsp,
    @push_stack_eq { cpu with sp := (cpu.sp + 2) % 65536 } (Nat.mod_lt _ (by decide)) hne,
    CPUState.get_register_pair_value, CPUState.register_pair_high, CPUState.register_pair_low,
    CPUState.set_register_pair_low, CPUState.set_register_pair_high,
    hback, hword, hhl, hv0, hv1, hp0, hp1]

theorem ram_after_two_stores (ram : Nat → Nat) (sp hi lo : Nat) :
    (fun i => if i = sp + 1 then hi else if i = sp then lo else ram i) sp = lo
    ∧ (fun i => if i = sp + 1 then hi else if i = sp then lo else ram i) (sp + 1) = hi
    ∧ ∀ j, j ≠ sp → j ≠ sp + 1 →
        (fun i => if i = sp + 1 then hi else if i = sp then lo else ram i) j = ram j := by
  refine ⟨?_, ?_, ?_⟩
  · simp
  · simp
  · intro j h1 h2
    simp [h1, h2]

/-- C19: XTHL loads `L` from the byte at `sp` and `H` from the byte at `sp + 1`,
stores the old `L` and `H` there and keeps `sp`; a second XTHL right after it
(its opcode away from the two stack bytes) restores `H`, `L`, the whole memory
and `sp`. -/
theorem xthl_swap_and_involution (cpu : CPUState) (hwf : cpu.WF)
    (hop : cpu.ram cpu.pc = 0xE3) (hsp : cpu.sp ≠ 65535) :
    (∃ cpu', cycle_cpu cpu = .returned 5 cpu' ∧
      cpu'.l = cpu.ram cpu.sp ∧ cpu'.h = cpu.ram (cpu.sp + 1) ∧
      cpu'.ram cpu.sp = cpu.l ∧ cpu'.ram (cpu.sp + 1) = cpu.h ∧ cpu'.sp = cpu.sp)
    ∧ (cpu.ram ((cpu.pc + 1) % 65536) = 0xE3 →
        (cpu.pc + 1) % 65536 ≠ cpu.sp → (cpu.pc + 1) % 65536 ≠ cpu.sp + 1 →
        ∃ cycles cpu2, run_steps 2 cpu = .returned cycles cpu2 ∧
          cpu2.h = cpu.h ∧ cpu2.l = cpu.l ∧ (∀ i, cpu2.ram i = cpu.ram i) ∧
          cpu2.sp = cpu.sp) := by
  have hlt : cpu.sp + 1 < 65536 := by
    have := hwf.sp
    omega
  have h1 := (cycle_cpu_eq_run _ hwf.pc hop opcodes_exchange_stack_top_with_hl).trans
    (exchange_stack_top_with_hl_eq hlt hwf.h hwf.l (hwf.ram _) (hwf.ram _))
  obtain ⟨hr0, hr1, hrest⟩ := ram_after_two_stores cpu.ram cpu.sp cpu.h cpu.l
  refine ⟨⟨_, h1, rfl, rfl, hr0, hr1, rfl⟩, ?_⟩
  intro hnext hne0 hne1
  refine ⟨_, _, run_steps_two h1 ((cycle_cpu_eq_run .exchange_stack_top_with_hl
    (Nat.mod_lt _ (by decide)) ((hrest _ hne0 hne1).trans hnext)
    opcodes_exchange_stack_top_with_hl).trans
    (exchange_stack_top_with_hl_eq hlt (hwf.ram _) (hwf.ram _)
      (hr0.trans_lt hwf.l) (hr1.trans_lt hwf.h))), ?_⟩
  dsimp only at hr0 hr1 ⊢
  rw [hr0, hr1]
  refine ⟨rfl, rfl, ?_, rfl⟩
  intro i
  by_cases hi1 : i = cpu.sp + 1
  · simp only [hi1, if_true]
  · by_cases hi0 : i = cpu.sp
    · simp only [hi0, if_true]
      simp
    · simp only [hi1, hi0, if_false]

/-- C19 at a concrete state: from reset with ROM `E3 E3` (`sp = 0xF000`,
`HL = 0`), two XTHL steps end with `H = L = 0`, `sp = 0xF000` and the ROM bytes
unchanged. -/
theorem xthl_swap_and_involution_witness :
    ∃ cycles cpu2, run_steps 2 (boot [0xE3, 0xE3]) = .returned cycles cpu2 ∧
      cpu2.h = 0 ∧ cpu2.l = 0 ∧ cpu2.ram 0 = 0xE3 ∧ cpu2.sp = 0xF000 := by
  obtain ⟨cycles, cpu2, hrun, hh, hl, hram, hsp⟩ :=
    (xthl_swap_and_involution (boot [0xE3, 0xE3]) (boot_wf _ (by decide)) (by decide)
      (by decide)).2 (by decide) (by decide) (by decide)
  exact ⟨cycles, cpu2, hrun, hh, hl, hram 0, hsp⟩

set_option maxRecDepth 100000 in
/-- C20 at a concrete state: with interrupts enabled and `halt` set,
`interrupt_cpu` with interrupt number 1 returns a state with `pc = 8`,
interrupts disabled and `halt` still set, so it does not set `halted' = false`. -/
theorem interrupt_cpu_keeps_halt :
    ((interrupt_cpu ((boot []).with_flags false false false false false true true) 1).state.map
        fun cpu => (cpu.pc, cpu.sp, cpu.enable_interrupt, cpu.halt))
      = some (8, 0xEFFE, false, true)
    ∧ ¬ ∃ cpu', interrupt_cpu ((boot []).with_flags false false false false false true true) 1
        = .returned 0 cpu' ∧ cpu'.halt = false := by
  refine ⟨by decide, ?_⟩
  rintro ⟨cpu', hrun, hhalt⟩
  have h : ((interrupt_cpu ((boot []).with_flags false false false false false true true)
      1).state.map fun cpu => cpu.halt) = some true := by decide
  rw [hrun] at h
  simp only [Outcome.state, Option.map_some', Option.some.injEq] at h
  rw [hhalt] at h
  exact Bool.false_ne_true h

/-- C20 as the code has it: with interrupts enabled (and `sp` other than 1),
`interrupt_cpu` stores `pc` below `sp` (low byte first), sets `sp` to
`sp - 2`, `pc` to `8 * n`, disables interrupts and leaves `halt` as it was;
with interrupts disabled it returns the state unchanged. -/
theorem interrupt_cpu_entry (cpu : CPUState) (hwf : cpu.WF) (n : Nat) (hn : n < 256) :
    (cpu.enable_interrupt = true → cpu.sp ≠ 1 →
      ∃ cpu', interrupt_cpu cpu n = .returned 0 cpu' ∧
        cpu'.sp = u16 ((cpu.sp : Int) - 2) ∧
        cpu'.ram cpu'.sp = cpu.pc % 256 ∧ cpu'.ram (cpu'.sp + 1) = cpu.pc / 256 ∧
        cpu'.pc = 8 * n ∧ cpu'.enable_interrupt = false ∧ cpu'.halt = cpu.halt)
    ∧ (cpu.enable_interrupt = false → interrupt_cpu cpu n = .returned 0 cpu) := by
  refine ⟨?_, ?_⟩
  · intro hen hsp
    obtain ⟨hr0, hr1, -⟩ := ram_after_push cpu.ram (u16 ((cpu.sp : Int) - 2)) cpu.pc
    have hpc : 8 * n % 65536 = 8 * n := by omega
    simp only [interrupt_cpu, hen, if_true, push_stack_eq hwf.sp hsp, hpc]
    refine ⟨_, rfl, rfl, ?_, ?_, rfl, rfl, rfl⟩
    · dsimp only at hr0 ⊢
      rw [hr0, and_255]
    · dsimp only at hr1 ⊢
      rw [hr1, Nat.shiftRight_eq_div_pow]
  · intro hen
    simp only [interrupt_cpu, hen, Bool.false_eq_true, if_false]

/-- C20 as the code has it, at a concrete state: with interrupts enabled,
`halt` set, `pc = 0x0102` and `sp = 0xF000`, interrupt number 2 stores `0x02`,
`0x01` at `0xEFFE`, `0xEFFF`, sets `pc = 0x10`, disables interrupts and keeps
`halt` set. -/
theorem interrupt_cpu_entry_witness :
    ∃ cpu', interrupt_cpu ((boot_with [] 0x00 0x00 false 0x0102).with_flags
        false false false false false true true) 2 = .returned 0 cpu' ∧
      cpu'.sp = 0xEFFE ∧ cpu'.ram 0xEFFE = 0x02 ∧ cpu'.ram 0xEFFF = 0x01 ∧
      cpu'.pc = 0x10 ∧ cpu'.enable_interrupt = false ∧ cpu'.halt = true := by
  obtain ⟨cpu', hrun, hsp, hlo, hhi, hpc, hen, hhalt⟩ :=
    (interrupt_cpu_entry ((boot_with [] 0x00 0x00 false 0x0102).with_flags
        false false false false false true true)
      (WF.with_flags (boot_with_wf _ _ _ _ _ (by decide) (by decide) (by decide) (by decide))
        _ _ _ _ _ _ _) 2 (by decide)).1 rfl (by decide)
  rw [hsp] at hlo hhi
  exact ⟨cpu', hrun, hsp, hlo, hhi, hpc, hen, hhalt⟩

/-! ## Facts about every callable -/

section Steps

theorem facts_load {P : Nat → CPUState → Prop} {cpu : CPUState} {i : Nat} {k : Nat → Outcome}
    (h : ∀ c s, k (cpu.ram i) = .returned c s → P c s) :
    ∀ c s, cpu.load i k = .returned c s → P c s := by
  unfold CPUState.load
  split
  · exact h
  · intro c s hc
    cases hc

theorem facts_store {P : Nat → CPUState → Prop} {cpu : CPUState} {i v : Nat}
    {k : CPUState → Outcome}
    (h : ∀ c s, k { cpu with ram := fun j => if j = i then v else cpu.ram j } = .returned c s →
      P c s) :
    ∀ c s, cpu.store i v k = .returned c s → P c s := by
  unfold CPUState.store
  split
  · exact h
  · intro c s hc
    cases hc

theorem increment_register_facts (reg : Register) (cpu : CPUState) (increment : Nat) :
    ∀ c s, increment_register reg cpu increment = .returned c s →
      c = 1 ∧ s.pc = (cpu.pc + 1) % 65536 ∧ s.halt = cpu.halt ∧
        s.shift_offset = cpu.shift_offset ∧ s.input_ports = cpu.input_ports := by
  intro c s hc
  cases reg <;>
  · cases hc
    exact ⟨rfl, rfl, rfl, rfl, rfl⟩

theorem increment_memory_facts (cpu : CPUState) (increment : Nat) :
    ∀ c s, increment_memory cpu increment = .returned c s →
      c = 3 ∧ s.pc = (cpu.pc + 1) % 65536 ∧ s.halt = cpu.halt ∧
        s.shift_offset = cpu.shift_offset ∧ s.input_ports = cpu.input_ports := by
  simp only [increment_memory]
  apply facts_load
  apply facts_store
  intro c s hc
  cases hc
  exact ⟨rfl, rfl, rfl, rfl, rfl⟩

theorem increment_register_pair_facts (reg_pair : RegisterPair) (cpu : CPUState)
    (increment : Nat) :
    ∀ c s, increment_register_pair reg_pair cpu increment = .returned c s →
      c = 1 ∧ s.pc = (cpu.pc + 1) % 65536 ∧ s.halt = cpu.halt ∧
        s.shift_offset = cpu.shift_offset ∧ s.input_ports = cpu.input_ports := by
  intro c s hc
  cases reg_pair <;>
  · cases hc
    exact ⟨rfl, rfl, rfl, rfl, rfl⟩

theorem jump_facts (cpu : CPUState) :
    ∀ c s, jump cpu = .returned c s →
      s.halt = cpu.halt ∧ s.shift_offset = cpu.shift_offset ∧ s.input_ports = cpu.input_ports := by
  simp only [jump, CPUState.get_immediate_value16]
  repeat' first
    | apply facts_load
    | (intro c s hc; cases hc; exact ⟨rfl, rfl, rfl⟩)

set_option maxHeartbeats 1000000 in
theorem run_facts (handler : Handler) (cpu : CPUState) :
    ∀ c s, handler.run cpu = .returned c s → StepFacts handler cpu c s := by
  cases handler
  case conditional_jump cond =>
    intro c s hc
    simp only [Handler.run, conditional_jump] at hc
    split at hc
    · rename_i ht
      cases hj : jump cpu with
      | returned c' s' =>
        rw [hj] at hc
        cases hc
        obtain ⟨h1, h2, h3⟩ := jump_facts cpu _ _ hj
        exact ⟨rfl, fun h => absurd (ht.symm.trans h) Bool.noConfusion, fun h => h1.trans h,
          Or.inl h2, h3⟩
      | threw e s' => rw [hj] at hc; cases hc
      | undefined w => rw [hj] at hc; cases hc
    · cases hc
      exact ⟨rfl, fun _ => rfl, fun h => h, Or.inl rfl, rfl⟩
  case condition_call cond =>
    by_cases ht : evaluate_condition cond cpu = true
    · have hc5 : Handler.cycles (.condition_call cond) (Handler.taken (.condition_call cond) cpu)
          = 5 := by
        simp only [Handler.cycles, Handler.taken, Handler.transfer, ht, if_true]
      simp only [Handler.run, condition_call, ht, if_true, call, CPUState.get_immediate_value16,
        CPUState.push_stack]
      repeat' first
        | apply facts_load
        | apply facts_store
        | (intro c s hc
           cases hc
           exact ⟨hc5.symm, fun h => absurd (ht.symm.trans h) Bool.noConfusion, fun h => h,
             Or.inl rfl, rfl⟩)
    · have hf : evaluate_condition cond cpu = false := by simpa using ht
      have hc3 : Handler.cycles (.condition_call cond) (Handler.taken (.condition_call cond) cpu)
          = 3 := by
        simp [Handler.cycles, Handler.taken, Handler.transfer, hf]
      simp only [Handler.run, condition_call, hf, Bool.false_eq_true, if_false]
      intro c s hc
      cases hc
      exact ⟨hc3.symm, fun _ => rfl, fun h => h, Or.inl rfl, rfl⟩
  case conditional_return cond =>
    by_cases ht : evaluate_condition cond cpu = true
    · have hc3 : Handler.cycles (.conditional_return cond)
          (Handler.taken (.conditional_return cond) cpu) = 3 := by
        simp only [Handler.cycles, Handler.taken, Handler.transfer, ht, if_true]
      simp only [Handler.run, conditional_return, ht, if_true, return_from_subroutine,
        CPUState.pop_stack]
      repeat' first
        | apply facts_load
        | (intro c s hc
           cases hc
           exact ⟨hc3.symm, fun h => absurd (ht.symm.trans h) Bool.noConfusion, fun h => h,
             Or.inl rfl, rfl⟩)
    · have hf : evaluate_condition cond cpu = false := by simpa using ht
      have hc1 : Handler.cycles (.conditional_return cond)
          (Handler.taken (.conditional_return cond) cpu) = 1 := by
        simp [Handler.cycles, Handler.taken, Handler.transfer, hf]
      simp only [Handler.run, conditional_return, hf, Bool.false_eq_true, if_false]
      intro c s hc
      cases hc
      exact ⟨hc1.symm, fun _ => rfl, fun h => h, Or.inl rfl, rfl⟩
  case jump =>
    simp only [Handler.run, jump, CPUState.get_immediate_value16]
    repeat' first
      | apply facts_load
      | (intro c s hc
         cases hc
         exact ⟨rfl, fun h => Bool.noConfusion h, fun h => h, Or.inl rfl, rfl⟩)
  case call =>
    simp only [Handler.run, call, CPUState.get_immediate_value16, CPUState.push_stack]
    repeat' first
      | apply facts_load
      | apply facts_store
      | (intro c s hc
         cases hc
         exact ⟨rfl, fun h => Bool.noConfusion h, fun h => h, Or.inl rfl, rfl⟩)
  case return_from_subroutine =>
    simp only [Handler.run, return_from_subroutine, CPUState.pop_stack]
    repeat' first
      | apply facts_load
      | (intro c s hc
         cases hc
         exact ⟨rfl, fun h => Bool.noConfusion h, fun h => h, Or.inl rfl, rfl⟩)
  case restart code =>
    simp only [Handler.run, restart, CPUState.push_stack]
    repeat' first
      | apply facts_store
      | (intro c s hc
         cases hc
         exact ⟨rfl, fun h => Bool.noConfusion h, fun h => h, Or.inl rfl, rfl⟩)
  case jump_to_hl =>
    intro c s hc
    cases hc
    exact ⟨rfl, fun h => Bool.noConfusion h, fun h => h, Or.inl rfl, rfl⟩
  case increment_register r =>
    intro c s hc
    obtain ⟨h1, h2, h3, h4, h5⟩ := increment_register_facts r cpu _ c s hc
    exact ⟨h1, fun _ => h2, fun h => h3.trans h, Or.inl h4, h5⟩
  case decrement_register r =>
    intro c s hc
    obtain ⟨h1, h2, h3, h4, h5⟩ := increment_register_facts r cpu _ c s hc
    exact ⟨h1, fun _ => h2, fun h => h3.trans h, Or.inl h4, h5⟩
  case increment_memory_op =>
    intro c s hc
    obtain ⟨h1, h2, h3, h4, h5⟩ := increment_memory_facts cpu _ c s hc
    exact ⟨h1, fun _ => h2, fun h => h3.trans h, Or.inl h4, h5⟩
  case decrement_memory_op =>
    intro c s hc
    obtain ⟨h1, h2, h3, h4, h5⟩ := increment_memory_facts cpu _ c s hc
    exact ⟨h1, fun _ => h2, fun h => h3.trans h, Or.inl h4, h5⟩
  case increment_register_pair rp =>
    intro c s hc
    obtain ⟨h1, h2, h3, h4, h5⟩ := increment_register_pair_facts rp cpu _ c s hc
    exact ⟨h1, fun _ => h2, fun h => h3.trans h, Or.inl h4, h5⟩
  case decrement_register_pair rp =>
    intro c s hc
    obtain ⟨h1, h2, h3, h4, h5⟩ := increment_register_pair_facts rp cpu _ c s hc
    exact ⟨h1, fun _ => h2, fun h => h3.trans h, Or.inl h4, h5⟩
  case halt =>
    intro c s hc
    cases hc
    exact ⟨rfl, fun _ => rfl, fun _ => rfl, Or.inl rfl, rfl⟩
  case output_to_port =>
    simp only [Handler.run, output_to_port, CPUState.get_immediate_value8]
    apply facts_load
    split
    · intro c s hc
      cases hc
      exact ⟨rfl, fun _ => rfl, fun h => h, Or.inr rfl, rfl⟩
    · split <;>
      · intro c s hc
        cases hc
        exact ⟨rfl, fun _ => rfl, fun h => h, Or.inl rfl, rfl⟩
  case' move_immediate r => cases r
  case' move_register r1 r2 => cases r1
  case' move_from_hl_indirect r => cases r
  case' load_register_pair_immediate rp => cases rp
  case' pop rp => cases rp
  all_goals
    simp only [Handler.run, Emu8080.nop, move_immediate, move_register, move_from_hl_indirect,
      move_to_hl_indirect, move_to_memory_immediate, load_register_pair_immediate,
      load_accumulator_direct, store_accumulator_direct, load_hl_direct, store_hl_direct,
      load_accumulator_indirect, store_accumulator_indirect, exchange_hl_and_de,
      add_register, add_memory, add_immediate, add_register_with_carry, add_memory_with_carry,
      add_immediate_with_carry, subtract_register, subtract_memory, subtract_immediate,
      subtract_register_with_borrow, subtract_memory_with_borrow, subtract_immediate_with_borrow,
      increment_register, increment_memory, increment_memory_op, decrement_register,
      decrement_memory, decrement_memory_op, increment_register_pair, decrement_register_pair,
      decimal_adjust_accumulator, add_register_pair_to_hl, and_register, and_memory,
      and_immediate, xor_register, xor_memory, xor_immediate, or_register, or_memory,
      or_immediate, compare_register, compare_memory, compare_immediate, rotate_left,
      rotate_right, rotate_left_through_carry, rotate_right_through_carry,
      complement_accumulator, complement_carry_flag, set_carry_flag, jump, conditional_jump,
      call, condition_call, return_from_subroutine, conditional_return, restart, jump_to_hl,
      push, pop, push_processor_state, pop_processor_state, exchange_stack_top_with_hl,
      move_hl_to_stack_pointer, input_from_port, output_to_port, enable_interrupts,
      disable_interrupts, halt,
      CPUState.get_immediate_value8, CPUState.get_immediate_value16,
      CPUState.push_stack, CPUState.pop_stack, transfer_from_shift_register]
  all_goals repeat' first
    | apply facts_load
    | apply facts_store
    | split
    | (intro c s hc
       cases hc
       done)
    | (intro c s hc
       cases hc
       exact ⟨rfl, fun _ => rfl, fun h => h, Or.inl rfl, rfl⟩)

theorem returns_load {cpu : CPUState} {i : Nat} {k : Nat → Outcome} (hi : i < 65536)
    (h : ∃ c s, k (cpu.ram i) = .returned c s) : ∃ c s, cpu.load i k = .returned c s := by
  rw [load_of_lt hi]
  exact h

theorem returns_store {cpu : CPUState} {i v : Nat} {k : CPUState → Outcome} (hi : i < 65536)
    (h : ∃ c s, k { cpu with ram := fun j => if j = i then v else cpu.ram j } = .returned c s) :
    ∃ c s, cpu.store i v k = .returned c s := by
  rw [store_of_lt hi]
  exact h

theorem returns_push_stack {cpu : CPUState} (hsp : cpu.sp < 65536) (h1 : cpu.sp ≠ 1)
    {value : Nat} {k : CPUState → Outcome} (h : ∀ s, ∃ c s', k s = .returned c s') :
    ∃ c s, cpu.push_stack value k = .returned c s := by
  rw [push_stack_eq hsp h1]
  exact h _

theorem returns_pop_stack {cpu : CPUState} (hsp : cpu.sp + 1 < 65536)
    {k : Nat → CPUState → Outcome} (h : ∀ v s, ∃ c s', k v s = .returned c s') :
    ∃ c s, cpu.pop_stack k = .returned c s := by
  rw [pop_stack_eq hsp]
  exact h _ _

theorem run_returns (handler : Handler) (cpu : CPUState) (hwf : cpu.WF) (hin : cpu.InRange)
    (hthrows : handler.throws = false) : ∃ c s, handler.run cpu = .returned c s := by
  have h1 : cpu.pc + 1 < 65536 := Nat.lt_of_succ_lt hin.operands
  have h2 := hin.operands
  cases handler
  case push rp =>
    cases rp
    case SP => cases hthrows
    all_goals exact ⟨_, _, push_eq hwf hin.push _ (by decide)⟩
  case pop rp =>
    cases rp
    case SP => cases hthrows
    all_goals exact ⟨_, _, pop_eq hin.pop _ (by decide)⟩
  case exchange_stack_top_with_hl =>
    exact ⟨_, _, exchange_stack_top_with_hl_eq hin.pop hwf.h hwf.l (hwf.ram _) (hwf.ram _)⟩
  case input_from_port =>
    simp only [Handler.run, input_from_port, get_immediate_value8_of_lt h1,
      transfer_from_shift_register, hin.shift, if_true]
    split <;> exact ⟨_, _, rfl⟩
  all_goals
    simp only [Handler.run, Emu8080.nop, move_immediate, move_register, move_from_hl_indirect,
      move_to_hl_indirect, move_to_memory_immediate, load_register_pair_immediate,
      load_accumulator_direct, store_accumulator_direct, load_hl_direct, store_hl_direct,
      load_accumulator_indirect, store_accumulator_indirect, exchange_hl_and_de,
      add_register, add_memory, add_immediate, add_register_with_carry, add_memory_with_carry,
      add_immediate_with_carry, subtract_register, subtract_memory, subtract_immediate,
      subtract_register_with_borrow, subtract_memory_with_borrow, subtract_immediate_with_borrow,
      increment_register, increment_memory, increment_memory_op, decrement_register,
      decrement_memory, decrement_memory_op, increment_register_pair, decrement_register_pair,
      decimal_adjust_accumulator, add_register_pair_to_hl, and_register, and_memory,
      and_immediate, xor_register, xor_memory, xor_immediate, or_register, or_memory,
      or_immediate, compare_register, compare_memory, compare_immediate, rotate_left,
      rotate_right, rotate_left_through_carry, rotate_right_through_carry,
      complement_accumulator, complement_carry_flag, set_carry_flag, jump, conditional_jump,
      call, condition_call, return_from_subroutine, conditional_return, restart, jump_to_hl,
      push, pop, push_processor_state, pop_processor_state, exchange_stack_top_with_hl,
      move_hl_to_stack_pointer, input_from_port, output_to_port, enable_interrupts,
      disable_interrupts, halt,
      transfer_from_shift_register,
      get_immediate_value8_of_lt h1, get_immediate_value16_eq h2, load_of_lt h1, load_of_lt h2,
      load_of_lt (get_register_pair_value_lt _ _), store_of_lt (get_register_pair_value_lt _ _),
      push_stack_eq hwf.sp hin.push, pop_stack_eq hin.pop,
      load_of_lt (Nat.mod_lt _ (Nat.zero_lt_succ 65535)),
      store_of_lt (Nat.mod_lt _ (Nat.zero_lt_succ 65535)),
      load_of_lt hin.direct, store_of_lt hin.direct]
  all_goals repeat' first
    | split
    | exact ⟨_, _, rfl⟩

set_option maxRecDepth 100000 in
theorem opcodes_spec_tables :
    ∀ op, op < 256 →
      (match opcodes op with
        | some handler =>
          handler.length == spec_instruction_length op
            && handler.transfer == spec_transfer op
            && handler.cycles true == spec_cycle_count op true
            && handler.cycles false == spec_cycle_count op false
            && handler.is_data_transfer == spec_data_transfer op
            && decide (1 ≤ spec_cycle_count op true ∧ 1 ≤ spec_cycle_count op false)
        | none => true) = true := by
  decide

theorem opcodes_spec {op : Nat} (hop : op < 256) {handler : Handler}
    (h : opcodes op = some handler) :
    handler.length = spec_instruction_length op ∧ handler.transfer = spec_transfer op
      ∧ (∀ taken, handler.cycles taken = spec_cycle_count op taken)
      ∧ handler.is_data_transfer = spec_data_transfer op
      ∧ 1 ≤ spec_cycle_count op true ∧ 1 ≤ spec_cycle_count op false := by
  have key := opcodes_spec_tables op hop
  rw [h] at key
  simp only [Bool.and_eq_true, beq_iff_eq, decide_eq_true_eq] at key
  obtain ⟨⟨⟨⟨⟨h1, h2⟩, h3⟩, h4⟩, h5⟩, h6⟩ := key
  refine ⟨h1, h2, fun taken => ?_, h5, h6⟩
  cases taken
  · exact h4
  · exact h3

theorem taken_eq_spec_taken {op : Nat} (hop : op < 256) {handler : Handler}
    (h : opcodes op = some handler) (cpu : CPUState) :
    handler.taken cpu = spec_taken op cpu := by
  unfold Handler.taken spec_taken
  rw [(opcodes_spec hop h).2.1]

theorem cycle_cpu_facts {cpu : CPUState} (hwf : cpu.WF) {handler : Handler}
    (hop : opcodes (cpu.ram cpu.pc) = some handler) :
    ∀ c s, cycle_cpu cpu = .returned c s → StepFacts handler cpu c s := by
  rw [cycle_cpu_of_opcode hwf.pc hop]
  exact run_facts handler cpu

theorem cycle_cpu_returns {cpu : CPUState} (hwf : cpu.WF) (hin : cpu.InRange)
    {handler : Handler} (hop : opcodes (cpu.ram cpu.pc) = some handler) :
    ∃ c s, cycle_cpu cpu = .returned c s := by
  rw [cycle_cpu_of_opcode hwf.pc hop]
  exact run_returns handler cpu hwf hin (opcodes_never_throws _ (hwf.ram _) handler hop)

theorem spec_instruction_length_pos (op : Nat) :
    1 ≤ spec_instruction_length op ∧ spec_instruction_length op ≤ 3 := by
  unfold spec_instruction_length
  split
  · decide
  · split <;> decide

end Steps


section Halt

theorem with_halt_load {cpu' cpu : CPUState} {b : Bool} {i i' : Nat} {k k' : Nat → Outcome}
    (hi : i' = i) (h : k' (cpu'.ram i) = (k (cpu.ram i)).with_halt b) :
    cpu'.load i' k' = (cpu.load i k).with_halt b := by
  subst hi
  unfold CPUState.load
  split
  · exact h
  · rfl

theorem with_halt_store {cpu' cpu : CPUState} {b : Bool} {i i' v v' : Nat}
    {k k' : CPUState → Outcome} (hi : i' = i) (hv : v' = v)
    (h : k' { cpu' with ram := fun j => if j = i then v else cpu'.ram j }
      = (k { cpu with ram := fun j => if j = i then v else cpu.ram j }).with_halt b) :
    cpu'.store i' v' k' = (cpu.store i v k).with_halt b := by
  subst hi hv
  unfold CPUState.store
  split
  · exact h
  · rfl

theorem with_halt_ite {b : Bool} {c c' : Prop} [Decidable c] [Decidable c'] {x y x' y' : Outcome}
    (hc : c' ↔ c) (hx : x' = x.with_halt b) (hy : y' = y.with_halt b) :
    (if c' then x' else y') = (if c then x else y).with_halt b := by
  by_cases h : c
  · rw [if_pos h, if_pos (hc.2 h)]
    exact hx
  · rw [if_neg h, if_neg (fun h' => h (hc.1 h'))]
    exact hy

theorem with_halt_returned (b : Bool) (cycles : Nat) (cpu : CPUState) :
    (Outcome.returned cycles cpu).with_halt b = .returned cycles { cpu with halt := b } := rfl

theorem with_halt_threw (b : Bool) (error : Error) (cpu : CPUState) :
    (Outcome.threw error cpu).with_halt b = .threw error { cpu with halt := b } := rfl

theorem with_halt_undefined (b : Bool) (what : Undefined) :
    (Outcome.undefined what).with_halt b = .undefined what := rfl

theorem resolve_flags_after_add_halt (r : Nat) (cpu : CPUState) (b : Bool) :
    resolve_flags_after_add r { cpu with halt := b }
      = { resolve_flags_after_add r cpu with halt := b } := by
  simp only [resolve_flags_after_add]

theorem halt_ite_state (b : Bool) (c : Prop) [Decidable c] (x y : CPUState) :
    (if c then ({ x with halt := b } : CPUState) else { y with halt := b })
      = { (if c then x else y) with halt := b } := by
  split <;> rfl

theorem decimal_adjust_accumulator_halt (cpu : CPUState) (b : Bool) :
    decimal_adjust_accumulator { cpu with halt := b }
      = (decimal_adjust_accumulator cpu).with_halt b := by
  unfold decimal_adjust_accumulator
  dsimp only
  rw [resolve_flags_after_add_halt, halt_ite_state]
  generalize (if (decide (cpu.a &&& 15 > 9) || cpu.aux_carry) = true then
    resolve_flags_after_add ((cpu.a + 6) % 65536) cpu else cpu) = s1
  dsimp only
  rw [resolve_flags_after_add_halt, halt_ite_state]
  rfl

theorem increment_register_pair_halt (reg_pair : RegisterPair) (cpu : CPUState)
    (increment : Nat) (b : Bool) :
    increment_register_pair reg_pair { cpu with halt := b } increment
      = (increment_register_pair reg_pair cpu increment).with_halt b := by
  cases reg_pair <;>
    simp only [increment_register_pair, CPUState.get_register_pair_value,
      CPUState.register_pair_high, CPUState.register_pair_low,
      CPUState.set_register_pair_high, CPUState.set_register_pair_low, with_halt_returned]

theorem jump_halt (cpu : CPUState) (b : Bool) :
    jump { cpu with halt := b } = (jump cpu).with_halt b := by
  simp only [jump, CPUState.get_immediate_value16]
  repeat' first
    | apply with_halt_load
    | rfl

set_option maxHeartbeats 1000000 in
/-- No callable reads `halt`: called on a state with `halt` set, it does what
it does on the state as it is and leaves `halt` set. -/
theorem run_with_halt (handler : Handler) (cpu : CPUState) :
    handler.run { cpu with halt := true } = (handler.run cpu).with_halt true := by
  cases handler
  case decimal_adjust_accumulator => exact decimal_adjust_accumulator_halt cpu true
  case increment_register_pair rp => exact increment_register_pair_halt rp cpu _ true
  case decrement_register_pair rp => exact increment_register_pair_halt rp cpu _ true
  case conditional_jump cond =>
    by_cases ht : evaluate_condition cond cpu = true
    · have ht' : evaluate_condition cond { cpu with halt := true } = true := ht
      rw [Handler.run, conditional_jump_taken ht, conditional_jump_taken ht']
      exact jump_halt cpu true
    · have hf : evaluate_condition cond cpu = false := by simpa using ht
      have hf' : evaluate_condition cond { cpu with halt := true } = false := hf
      simp only [Handler.run, conditional_jump, hf, hf', Bool.false_eq_true, if_false,
        with_halt_returned]
  case input_from_port =>
    simp only [Handler.run, input_from_port, CPUState.get_immediate_value8,
      transfer_from_shift_register]
    apply with_halt_load rfl
    dsimp only
    split
    · apply with_halt_ite Iff.rfl <;> rfl
    · rfl
  case output_to_port =>
    simp only [Handler.run, output_to_port, CPUState.get_immediate_value8]
    apply with_halt_load rfl
    dsimp only
    split
    · rfl
    · split <;> rfl
  case' move_immediate r => cases r
  case' move_register r1 r2 => cases r1 <;> cases r2
  case' move_from_hl_indirect r => cases r
  case' move_to_hl_indirect r => cases r
  case' load_register_pair_immediate rp => cases rp
  case' load_accumulator_indirect rp => cases rp
  case' store_accumulator_indirect rp => cases rp
  case' add_register r => cases r
  case' add_register_with_carry r => cases r
  case' subtract_register r => cases r
  case' subtract_register_with_borrow r => cases r
  case' increment_register r => cases r
  case' decrement_register r => cases r
  case' add_register_pair_to_hl rp => cases rp
  case' and_register r => cases r
  case' xor_register r => cases r
  case' or_register r => cases r
  case' compare_register r => cases r
  case' push rp => cases rp
  case' pop rp => cases rp
  all_goals
    simp only [Handler.run, Emu8080.nop, move_immediate, move_register, move_from_hl_indirect,
      move_to_hl_indirect, move_to_memory_immediate, load_register_pair_immediate,
      load_accumulator_direct, store_accumulator_direct, load_hl_direct, store_hl_direct,
      load_accumulator_indirect, store_accumulator_indirect, exchange_hl_and_de,
      add_register, add_memory, add_immediate, add_register_with_carry, add_memory_with_carry,
      add_immediate_with_carry, subtract_register, subtract_memory, subtract_immediate,
      subtract_register_with_borrow, subtract_memory_with_borrow, subtract_immediate_with_borrow,
      increment_register, increment_memory, increment_memory_op, decrement_register,
      decrement_memory, decrement_memory_op, increment_register_pair, decrement_register_pair,
      decimal_adjust_accumulator, add_register_pair_to_hl, and_register, and_memory,
      and_immediate, xor_register, xor_memory, xor_immediate, or_register, or_memory,
      or_immediate, compare_register, compare_memory, compare_immediate, rotate_left,
      rotate_right, rotate_left_through_carry, rotate_right_through_carry,
      complement_accumulator, complement_carry_flag, set_carry_flag, jump, conditional_jump,
      call, condition_call, return_from_subroutine, conditional_return, restart, jump_to_hl,
      push, pop, push_processor_state, pop_processor_state, exchange_stack_top_with_hl,
      move_hl_to_stack_pointer, input_from_port, output_to_port, enable_interrupts,
      disable_interrupts, halt,
      transfer_from_shift_register,
      CPUState.get_immediate_value8, CPUState.get_immediate_value16,
      CPUState.push_stack, CPUState.pop_stack]
  all_goals repeat' first
    | apply with_halt_load
    | apply with_halt_store
    | apply with_halt_ite
    | apply Iff.rfl
    | (simp only [add_value_to_accum, resolve_flags_after_add, evaluate_condition,
        CPUState.set_register, CPUState.registers, CPUState.get_register_pair_value,
        CPUState.register_pair_high, CPUState.register_pair_low,
        CPUState.set_register_pair_high, CPUState.set_register_pair_low,
        transfer_to_shift_offset, transfer_to_shift_register,
        with_halt_returned, with_halt_threw, with_halt_undefined])

theorem cycle_cpu_with_halt (cpu : CPUState) :
    cycle_cpu { cpu with halt := true } = (cycle_cpu cpu).with_halt true := by
  unfold cycle_cpu
  apply with_halt_load rfl
  dsimp only
  cases opcodes (cpu.ram cpu.pc) with
  | none => rfl
  | some handler => exact run_with_halt handler cpu

end Halt

set_option maxRecDepth 100000 in
/-- C21 at a concrete state: with `halt` set and `MVI A,0x42` at `pc = 0`, a
dispatcher step returns 2 with `A = 0x42` and `pc = 2` (and `halt` still set),
so it is not a no-op. -/
theorem cycle_cpu_runs_when_halted :
    ((cycle_cpu ((boot [0x3E, 0x42]).with_flags false false false false false false true)).state.map
        fun cpu => (cpu.a, cpu.pc, cpu.halt)) = some (0x42, 2, true)
    ∧ ¬ ∃ cycles, cycle_cpu ((boot [0x3E, 0x42]).with_flags false false false false false false true)
        = .returned cycles ((boot [0x3E, 0x42]).with_flags false false false false false false true) := by
  refine ⟨by decide, ?_⟩
  rintro ⟨cycles, hrun⟩
  have h : ((cycle_cpu ((boot [0x3E, 0x42]).with_flags false false false false false false
      true)).state.map fun cpu => cpu.pc) = some 2 := by decide
  rw [hrun] at h
  simp only [Outcome.state, Option.map_some'] at h
  exact absurd h (by decide)

/-- C21 as the code has it: `cycle_cpu` does not consult `halt`.  In a state
with `halt` set, a step does what it does on the same state with `halt`
clear, except that `halt` stays set.  So when the byte at `pc` has a callable
assigned and the step returns, it has executed the instruction at `pc`: it
returns that instruction's cycle count, `halt` is still set, and unless the
instruction is a taken transfer of control `pc` has advanced by the
instruction's length, so the state has changed; and the step does return in
every state whose operand bytes, stack cells and direct address lie inside the
memory. -/
theorem cycle_cpu_ignores_halt (cpu : CPUState) (hwf : cpu.WF) (hhalt : cpu.halt = true) :
    cycle_cpu cpu = (cycle_cpu { cpu with halt := false }).with_halt true
    ∧ ((opcodes (cpu.ram cpu.pc)).isSome = true →
      (∀ cycles cpu', cycle_cpu cpu = .returned cycles cpu' →
        cpu'.halt = true
        ∧ cycles = spec_cycle_count (cpu.ram cpu.pc) (spec_taken (cpu.ram cpu.pc) cpu)
        ∧ 1 ≤ cycles
        ∧ (spec_taken (cpu.ram cpu.pc) cpu = false →
            cpu'.pc = (cpu.pc + spec_instruction_length (cpu.ram cpu.pc)) % 65536
            ∧ cpu'.pc ≠ cpu.pc ∧ cpu' ≠ cpu))
      ∧ (cpu.InRange → ∃ cycles cpu', cycle_cpu cpu = .returned cycles cpu')) := by
  refine ⟨?_, fun himpl => ?_⟩
  · have hcpu : cpu = { ({ cpu with halt := false } : CPUState) with halt := true } := by
      cases cpu
      cases hhalt
      rfl
    exact (congrArg cycle_cpu hcpu).trans (cycle_cpu_with_halt { cpu with halt := false })
  obtain ⟨handler, hop⟩ := Option.isSome_iff_exists.1 himpl
  have hspec := opcodes_spec (hwf.ram _) hop
  have htaken := taken_eq_spec_taken (hwf.ram _) hop cpu
  refine ⟨fun cycles cpu' hstep => ?_, fun hin => cycle_cpu_returns hwf hin hop⟩
  have hfacts := cycle_cpu_facts hwf hop _ _ hstep
  have hcycles : cycles = spec_cycle_count (cpu.ram cpu.pc) (spec_taken (cpu.ram cpu.pc) cpu) := by
    rw [← hspec.2.2.1, ← htaken]
    exact hfacts.cycles
  refine ⟨hfacts.halt hhalt, hcycles, ?_, fun hnot => ?_⟩
  · rw [hcycles]
    cases spec_taken (cpu.ram cpu.pc) cpu
    · exact hspec.2.2.2.2.2
    · exact hspec.2.2.2.2.1
  · have hpc : cpu'.pc = (cpu.pc + spec_instruction_length (cpu.ram cpu.pc)) % 65536 := by
      rw [← hspec.1]
      exact hfacts.pc (htaken.trans hnot)
    have hlen := spec_instruction_length_pos (cpu.ram cpu.pc)
    have hlt := hwf.pc
    have hne : cpu'.pc ≠ cpu.pc := by
      rw [hpc]
      omega
    exact ⟨hpc, hne, fun heq => hne (by rw [heq])⟩

set_option maxRecDepth 100000 in
/-- C21 as the code has it, at a concrete state: with `halt` set and NOP at
`pc = 0`, the step returns with `pc = 1`. -/
theorem cycle_cpu_ignores_halt_witness :
    ∃ cycles cpu',
      cycle_cpu ((boot [0x00]).with_flags false false false false false false true)
        = .returned cycles cpu' :=
  ((cycle_cpu_ignores_halt ((boot [0x00]).with_flags false false false false false false true)
    (WF.with_flags (boot_wf _ (by decide)) _ _ _ _ _ _ _) rfl).2 (by decide)).2
    ⟨by decide, by decide, by decide, by decide, by decide⟩


section ShiftHardware

theorem interrupt_cpu_shift_offset (cpu : CPUState) (n : Nat) :
    ∀ c s, interrupt_cpu cpu n = .returned c s → s.shift_offset = cpu.shift_offset := by
  simp only [interrupt_cpu, CPUState.push_stack]
  split
  · apply facts_store
    apply facts_store
    intro c s hc
    cases hc
    rfl
  · intro c s hc
    cases hc
    rfl

theorem cycle_cpu_shift_offset (cpu : CPUState) :
    ∀ c s, cycle_cpu cpu = .returned c s →
      s.shift_offset = cpu.shift_offset ∨ s.shift_offset = cpu.a &&& 0x7 := by
  unfold cycle_cpu
  apply facts_load
  intro c s hc
  cases hop : opcodes (cpu.ram cpu.pc) with
  | none =>
    rw [hop] at hc
    cases hc
  | some handler =>
    rw [hop] at hc
    exact (run_facts handler cpu c s hc).shift_offset

theorem reachable_shift_offset {cpu : CPUState} (h : Reachable cpu) : cpu.shift_offset ≤ 7 := by
  induction h with
  | boot bin_data _ => exact Nat.zero_le 7
  | cycle _ hstep ih =>
    rcases cycle_cpu_shift_offset _ _ _ hstep with h | h
    · rw [h]
      exact ih
    · rw [h]
      exact Nat.and_le_right
  | interrupt _ hstep ih =>
    rw [interrupt_cpu_shift_offset _ _ _ _ hstep]
    exact ih
  | input _ _ _ ih => exact ih
  | stop _ ih => exact ih

theorem opcodes_output_to_port : opcodes 0xD3 = some .output_to_port := by
  set_option maxRecDepth 100000 in exact rfl

theorem opcodes_input_from_port : opcodes 0xDB = some .input_from_port := by
  set_option maxRecDepth 100000 in exact rfl

end ShiftHardware

set_option maxRecDepth 100000 in
/-- C22: OUT 4 sets `shift_register` to `((A << 8) | (shift_register >> 8))`
modulo 65536, OUT 2 sets `shift_offset` to `A & 7`, IN 3 (with
`shift_offset` at most 8) sets `A` to `(shift_register >> (8 - shift_offset)) & 0xFF`;
each returns 3, advances `pc` by 2 and changes nothing else.  `shift_offset`
is at most 7 in every state reachable from the initial one, and the
specification's sequence ends with `shift_register = 0xFFAA`,
`shift_offset = 4`, `A = 0xFA`. -/
theorem shift_hardware (cpu : CPUState) (hwf : cpu.WF) (hpc : cpu.pc + 1 < 65536) :
    (cpu.ram cpu.pc = 0xD3 → cpu.ram (cpu.pc + 1) = 4 →
      cycle_cpu cpu = .returned 3
        { cpu with
          shift_register := ((cpu.a <<< 8) ||| (cpu.shift_register >>> 8)) % 65536,
          pc := (cpu.pc + 2) % 65536 })
    ∧ (cpu.ram cpu.pc = 0xD3 → cpu.ram (cpu.pc + 1) = 2 →
      cycle_cpu cpu = .returned 3
        { cpu with shift_offset := cpu.a &&& 0x7, pc := (cpu.pc + 2) % 65536 })
    ∧ (cpu.ram cpu.pc = 0xDB → cpu.ram (cpu.pc + 1) = 3 → cpu.shift_offset ≤ 8 →
      cycle_cpu cpu = .returned 3
        { cpu with
          a := (cpu.shift_register >>> (8 - cpu.shift_offset)) &&& 0xFF,
          pc := (cpu.pc + 2) % 65536 })
    ∧ (∀ s, Reachable s → s.shift_offset ≤ 7)
    ∧ ((run_steps 7 (boot [0x3E, 0xAA, 0xD3, 0x04, 0x3E, 0xFF, 0xD3, 0x04, 0x3E, 0x04, 0xD3, 0x02,
          0xDB, 0x03])).state.map fun s => (s.shift_register, s.shift_offset, s.a))
        = some (0xFFAA, 4, 0xFA) := by
  refine ⟨fun hop hport => ?_, fun hop hport => ?_, fun hop hport hshift => ?_,
    fun s hs => reachable_shift_offset hs, by decide⟩
  · rewrite [cycle_cpu_eq_run _ hwf.pc hop opcodes_output_to_port]
    simp only [Handler.run, output_to_port, get_immediate_value8_of_lt hpc, hport,
      transfer_to_shift_register, Nat.lor_comm (cpu.shift_register >>> 8)]
    rfl
  · rewrite [cycle_cpu_eq_run _ hwf.pc hop opcodes_output_to_port]
    simp only [Handler.run, output_to_port, get_immediate_value8_of_lt hpc, hport,
      transfer_to_shift_offset]
    rfl
  · rewrite [cycle_cpu_eq_run _ hwf.pc hop opcodes_input_from_port]
    simp only [Handler.run, input_from_port, get_immediate_value8_of_lt hpc, hport,
      transfer_from_shift_register, hshift, if_true]

set_option maxRecDepth 100000 in
/-- C22 at a concrete state: with `A = 0xAA` and `shift_register = 0`, OUT 4
leaves `shift_register = 0xAA00`. -/
theorem shift_hardware_witness :
    ∃ cpu', cycle_cpu (boot_with [0xD3, 0x04] 0xAA 0 false 0) = .returned 3 cpu'
      ∧ cpu'.shift_register = 0xAA00 ∧ cpu'.pc = 2 :=
  ⟨_, (shift_hardware (boot_with [0xD3, 0x04] 0xAA 0 false 0)
      (boot_with_wf _ _ _ _ _ (by decide) (by decide) (by decide) (by decide)) (by decide)).1
      (by decide) (by decide), by decide, by decide⟩


set_option maxRecDepth 100000 in
/-- C23 at a concrete state: after `MVI A,0x55`, IN 4 leaves `A = 0x55` while
the three bytes of the latch are 0, so `A` is not a byte of the latch. -/
theorem in_port_four_keeps_accumulator :
    ((run_steps 2 (boot [0x3E, 0x55, 0xDB, 0x04])).state.map
        fun cpu => (cpu.a, cpu.input_ports 0, cpu.input_ports 1, cpu.input_ports 2))
      = some (0x55, 0, 0, 0)
    ∧ ¬ ∃ cycles cpu', run_steps 2 (boot [0x3E, 0x55, 0xDB, 0x04]) = .returned cycles cpu'
        ∧ (cpu'.a = cpu'.input_ports 0 ∨ cpu'.a = cpu'.input_ports 1
            ∨ cpu'.a = cpu'.input_ports 2) := by
  have h : ((run_steps 2 (boot [0x3E, 0x55, 0xDB, 0x04])).state.map
      fun cpu => (cpu.a, cpu.input_ports 0, cpu.input_ports 1, cpu.input_ports 2))
      = some (0x55, 0, 0, 0) := by decide
  refine ⟨h, ?_⟩
  rintro ⟨cycles, cpu', hrun, hor⟩
  rw [hrun] at h
  simp only [Outcome.state, Option.map_some', Option.some.injEq, Prod.mk.injEq] at h
  obtain ⟨ha, h0, h1, h2⟩ := h
  rw [ha, h0, h1, h2] at hor
  revert hor
  decide

/-- C23 as the code has it: IN p with a port byte p other than 3 returns 3,
sets `A` to `input_ports[p]` when p is 0, 1 or 2 and leaves `A` as it was when
p is 4 or more, advances `pc` by 2 and changes nothing else; and IN with any
port byte leaves `input_ports`, the shift register and the shift offset as
they were. -/
theorem in_port_reads_latch_below_three (cpu : CPUState) (hwf : cpu.WF)
    (hpc : cpu.pc + 1 < 65536) (hop : cpu.ram cpu.pc = 0xDB) :
    (cpu.ram (cpu.pc + 1) < 3 →
      cycle_cpu cpu = .returned 3
        { cpu with a := cpu.input_ports (cpu.ram (cpu.pc + 1)), pc := (cpu.pc + 2) % 65536 })
    ∧ (4 ≤ cpu.ram (cpu.pc + 1) →
      cycle_cpu cpu = .returned 3 { cpu with pc := (cpu.pc + 2) % 65536 })
    ∧ (∀ cycles cpu', cycle_cpu cpu = .returned cycles cpu' →
        cpu'.input_ports = cpu.input_ports ∧ cpu'.shift_register = cpu.shift_register
          ∧ cpu'.shift_offset = cpu.shift_offset) := by
  rewrite [cycle_cpu_eq_run _ hwf.pc hop opcodes_input_from_port]
  simp only [Handler.run, input_from_port, get_immediate_value8_of_lt hpc]
  refine ⟨fun hport => ?_, fun hport => ?_, ?_⟩
  · have h3 : cpu.ram (cpu.pc + 1) ≠ 3 := Nat.ne_of_lt hport
    simp only [hport, if_true]
  · have h3 : cpu.ram (cpu.pc + 1) ≠ 3 := by omega
    have hlt : ¬ cpu.ram (cpu.pc + 1) < 3 := by omega
    simp only [hlt, if_false]
  · split
    · simp only [transfer_from_shift_register]
      split
      · intro cycles cpu' hc
        cases hc
        exact ⟨rfl, rfl, rfl⟩
      · intro cycles cpu' hc
        cases hc
    · intro cycles cpu' hc
      cases hc
      exact ⟨rfl, rfl, rfl⟩

set_option maxRecDepth 100000 in
/-- C23 as the code has it, at a concrete state: with `A = 0x55`, IN 4 at
`pc = 0` returns the state with only `pc` changed. -/
theorem in_port_reads_latch_below_three_witness :
    cycle_cpu (boot_with [0xDB, 0x04] 0x55 0 false 0)
      = .returned 3 { boot_with [0xDB, 0x04] 0x55 0 false 0 with pc := 2 } :=
  (in_port_reads_latch_below_three (boot_with [0xDB, 0x04] 0x55 0 false 0)
    (boot_with_wf _ _ _ _ _ (by decide) (by decide) (by decide) (by decide)) (by decide)
    (by decide)).2.1 (by decide)


/-- C24: when the byte at `pc` has a callable assigned and the instruction is
not a taken transfer of control, a dispatcher step that returns leaves
`pc' = (pc + len) mod 65536` with `len` the instruction length the
specification lists (3, 2 or 1); and the step does return in every state whose
operand bytes, stack cells and direct address lie inside the memory. -/
theorem step_advances_pc_by_length (cpu : CPUState) (hwf : cpu.WF)
    (himpl : (opcodes (cpu.ram cpu.pc)).isSome = true)
    (hnot : spec_taken (cpu.ram cpu.pc) cpu = false) :
    (∀ cycles cpu', cycle_cpu cpu = .returned cycles cpu' →
        cpu'.pc = (cpu.pc + spec_instruction_length (cpu.ram cpu.pc)) % 65536)
    ∧ (cpu.InRange → ∃ cycles cpu', cycle_cpu cpu = .returned cycles cpu' ∧
        cpu'.pc = (cpu.pc + spec_instruction_length (cpu.ram cpu.pc)) % 65536) := by
  obtain ⟨handler, hop⟩ := Option.isSome_iff_exists.1 himpl
  have hspec := opcodes_spec (hwf.ram _) hop
  have key : ∀ cycles cpu', cycle_cpu cpu = .returned cycles cpu' →
      cpu'.pc = (cpu.pc + spec_instruction_length (cpu.ram cpu.pc)) % 65536 := by
    intro cycles cpu' hstep
    have hfacts := cycle_cpu_facts hwf hop _ _ hstep
    rw [← hspec.1]
    exact hfacts.pc ((taken_eq_spec_taken (hwf.ram _) hop cpu).trans hnot)
  refine ⟨key, fun hin => ?_⟩
  obtain ⟨cycles, cpu', hstep⟩ := cycle_cpu_returns hwf hin hop
  exact ⟨cycles, cpu', hstep, key _ _ hstep⟩

set_option maxRecDepth 100000 in
/-- C24 at a concrete state: `LXI H,1234` at `pc = 0` returns with `pc = 3`. -/
theorem step_advances_pc_by_length_witness :
    ∃ cycles cpu', cycle_cpu (boot [0x21, 0x34, 0x12]) = .returned cycles cpu' ∧ cpu'.pc = 3 :=
  (step_advances_pc_by_length (boot [0x21, 0x34, 0x12]) (boot_wf _ (by decide)) (by decide)
    (by decide)).2 ⟨by decide, by decide, by decide, by decide, by decide⟩


set_option maxRecDepth 100000 in
/-- C25: when the byte at `pc` has a callable assigned, a dispatcher step that
returns returns the machine-cycle count the specification lists for that
opcode (for a conditional call 5 when taken and 3 when not, for a conditional
return 3 when taken and 1 when not); the step does return in every state whose
operand bytes, stack cells and direct address lie inside the memory; and
`MVI A,0x42` followed by NOP returns 2 + 1 = 3 in total. -/
theorem step_returns_spec_cycle_count (cpu : CPUState) (hwf : cpu.WF)
    (himpl : (opcodes (cpu.ram cpu.pc)).isSome = true) :
    (∀ cycles cpu', cycle_cpu cpu = .returned cycles cpu' →
        cycles = spec_cycle_count (cpu.ram cpu.pc) (spec_taken (cpu.ram cpu.pc) cpu))
    ∧ (cpu.InRange → ∃ cpu', cycle_cpu cpu =
        .returned (spec_cycle_count (cpu.ram cpu.pc) (spec_taken (cpu.ram cpu.pc) cpu)) cpu')
    ∧ (∀ op, op < 256 → (opcodes op).isSome = true →
        1 ≤ spec_cycle_count op true ∧ 1 ≤ spec_cycle_count op false)
    ∧ (run_steps 2 (boot [0x3E, 0x42, 0x00])).cycles = some 3 := by
  obtain ⟨handler, hop⟩ := Option.isSome_iff_exists.1 himpl
  have hspec := opcodes_spec (hwf.ram _) hop
  have key : ∀ cycles cpu', cycle_cpu cpu = .returned cycles cpu' →
      cycles = spec_cycle_count (cpu.ram cpu.pc) (spec_taken (cpu.ram cpu.pc) cpu) := by
    intro cycles cpu' hstep
    have hfacts := cycle_cpu_facts hwf hop _ _ hstep
    rw [← hspec.2.2.1, ← taken_eq_spec_taken (hwf.ram _) hop cpu]
    exact hfacts.cycles
  refine ⟨key, fun hin => ?_, fun op hlt hsome => ?_, by decide⟩
  · obtain ⟨cycles, cpu', hstep⟩ := cycle_cpu_returns hwf hin hop
    exact ⟨cpu', (key _ _ hstep) ▸ hstep⟩
  · obtain ⟨handler', hop'⟩ := Option.isSome_iff_exists.1 hsome
    exact (opcodes_spec hlt hop').2.2.2.2

set_option maxRecDepth 100000 in
/-- C25 at a concrete state: `CALL 0x0006` at `pc = 0` returns 5. -/
theorem step_returns_spec_cycle_count_witness :
    ∃ cpu', cycle_cpu (boot [0xCD, 0x06, 0x00]) = .returned 5 cpu' :=
  (step_returns_spec_cycle_count (boot [0xCD, 0x06, 0x00]) (boot_wf _ (by decide))
    (by decide)).2.1 ⟨by decide, by decide, by decide, by decide, by decide⟩


section DataTransfer

set_option maxRecDepth 100000

theorem opcodes_load_hl_direct : opcodes 0x2A = some .load_hl_direct := rfl

theorem opcodes_store_hl_direct : opcodes 0x22 = some .store_hl_direct := rfl

theorem opcodes_exchange_hl_and_de : opcodes 0xEB = some .exchange_hl_and_de := rfl

end DataTransfer

theorem data_transfer_flags (handler : Handler) (cpu : CPUState)
    (hdt : handler.is_data_transfer = true) :
    ∀ c s, handler.run cpu = .returned c s →
      s.zero = cpu.zero ∧ s.sign = cpu.sign ∧ s.parity = cpu.parity ∧ s.carry = cpu.carry
        ∧ s.aux_carry = cpu.aux_carry := by
  cases handler
  case' move_immediate r => cases r
  case' move_register r1 r2 => cases r1
  case' move_from_hl_indirect r => cases r
  case' load_register_pair_immediate rp => cases rp
  all_goals cases hdt
  all_goals
    simp only [Handler.run, move_immediate, move_register, move_from_hl_indirect,
      move_to_hl_indirect, move_to_memory_immediate, load_register_pair_immediate,
      load_accumulator_direct, store_accumulator_direct, load_hl_direct, store_hl_direct,
      load_accumulator_indirect, store_accumulator_indirect, exchange_hl_and_de,
      CPUState.get_immediate_value8, CPUState.get_immediate_value16]
  all_goals repeat' first
    | apply facts_load
    | apply facts_store
    | (intro c s hc
       cases hc
       exact ⟨rfl, rfl, rfl, rfl, rfl⟩)

theorem direct_address_eq (hi lo : Nat) (hhi : hi < 256) (hlo : lo < 256) :
    ((hi <<< 8) ||| lo) % 65536 = hi * 256 + lo := by
  rw [shl8_or hi lo hlo]
  omega

/-- C26: every data-transfer instruction (MOV, MVI, LXI, LDA, STA, LHLD, SHLD,
LDAX, STAX, XCHG) leaves the five flags as they were, and returns whenever its
operand bytes and direct address lie inside the memory; LHLD a loads `L` from
`memory[a]` and `H` from `memory[a+1]`; SHLD a stores `L` at `memory[a]` and
`H` at `memory[a+1]` and changes no other cell; XCHG executed twice restores
`H`, `L`, `D`, `E`. -/
theorem data_transfer_flags_and_pairs (cpu : CPUState) (hwf : cpu.WF) :
    (spec_data_transfer (cpu.ram cpu.pc) = true →
      (∀ cycles cpu', cycle_cpu cpu = .returned cycles cpu' →
        cpu'.zero = cpu.zero ∧ cpu'.sign = cpu.sign ∧ cpu'.parity = cpu.parity
          ∧ cpu'.carry = cpu.carry ∧ cpu'.aux_carry = cpu.aux_carry)
      ∧ (cpu.InRange → ∃ cycles cpu', cycle_cpu cpu = .returned cycles cpu'))
    ∧ (∀ a, cpu.pc + 2 < 65536 → a = cpu.ram (cpu.pc + 2) * 256 + cpu.ram (cpu.pc + 1) →
        a + 1 < 65536 →
        (cpu.ram cpu.pc = 0x2A →
          ∃ cpu', cycle_cpu cpu = .returned 5 cpu' ∧ cpu'.l = cpu.ram a ∧ cpu'.h = cpu.ram (a + 1))
        ∧ (cpu.ram cpu.pc = 0x22 →
          ∃ cpu', cycle_cpu cpu = .returned 5 cpu' ∧ cpu'.ram a = cpu.l ∧ cpu'.ram (a + 1) = cpu.h
            ∧ ∀ i, i ≠ a → i ≠ a + 1 → cpu'.ram i = cpu.ram i))
    ∧ (cpu.ram cpu.pc = 0xEB → cpu.ram ((cpu.pc + 1) % 65536) = 0xEB →
        ∃ cycles cpu', run_steps 2 cpu = .returned cycles cpu' ∧ cpu'.h = cpu.h ∧ cpu'.l = cpu.l
          ∧ cpu'.d = cpu.d ∧ cpu'.e = cpu.e) := by
  refine ⟨fun hdt => ?_, fun a hpc ha hlt => ⟨fun hop => ?_, fun hop => ?_⟩, fun hop hop' => ?_⟩
  · cases hopc : opcodes (cpu.ram cpu.pc) with
    | none =>
      have hmem := (opcodes_unassigned_iff _ (hwf.ram _)).1 hopc
      have hnone : ∀ op ∈ unassigned_opcodes, spec_data_transfer op = false := by decide
      rw [hnone _ hmem] at hdt
      cases hdt
    | some handler =>
      have hdt' : handler.is_data_transfer = true :=
        (opcodes_spec (hwf.ram _) hopc).2.2.2.1.trans hdt
      refine ⟨?_, fun hin => cycle_cpu_returns hwf hin hopc⟩
      rw [cycle_cpu_of_opcode hwf.pc hopc]
      exact data_transfer_flags handler cpu hdt'
  · have haddr := direct_address_eq _ _ (hwf.ram (cpu.pc + 2)) (hwf.ram (cpu.pc + 1))
    rewrite [cycle_cpu_eq_run _ hwf.pc hop opcodes_load_hl_direct]
    simp only [Handler.run, load_hl_direct, get_immediate_value16_eq hpc, haddr, ← ha,
      load_of_lt (Nat.lt_of_succ_lt hlt), load_of_lt hlt]
    exact ⟨_, rfl, rfl, rfl⟩
  · have haddr := direct_address_eq _ _ (hwf.ram (cpu.pc + 2)) (hwf.ram (cpu.pc + 1))
    rewrite [cycle_cpu_eq_run _ hwf.pc hop opcodes_store_hl_direct]
    simp only [Handler.run, store_hl_direct, get_immediate_value16_eq hpc, haddr, ← ha,
      store_of_lt (Nat.lt_of_succ_lt hlt), store_of_lt hlt]
    refine ⟨_, rfl, ?_, ?_, fun i h1 h2 => ?_⟩
    · simp only [Nat.succ_ne_self, Nat.ne_of_lt (Nat.lt_succ_self a), if_false, if_true]
    · simp only [if_true]
    · simp only [h1, h2, if_false]
  · have h1 : cycle_cpu cpu = _ :=
      cycle_cpu_eq_run .exchange_hl_and_de hwf.pc hop opcodes_exchange_hl_and_de
    refine ⟨_, _, run_steps_two h1 (cycle_cpu_eq_run .exchange_hl_and_de
      (Nat.mod_lt _ (by decide)) hop' opcodes_exchange_hl_and_de), rfl, rfl, rfl, rfl⟩

set_option maxRecDepth 100000 in
/-- C26 at a concrete state: `MOV B,A` at `pc = 0` returns with the five flags
as they were. -/
theorem data_transfer_flags_and_pairs_witness :
    ∃ cycles cpu', cycle_cpu (boot [0x47]) = .returned cycles cpu' :=
  ((data_transfer_flags_and_pairs (boot [0x47]) (boot_wf _ (by decide))).1 (by decide)).2
    ⟨by decide, by decide, by decide, by decide, by decide⟩


theorem sub_sum_eq_model_of_pos (a b : Nat) (hb : 0 < b) (hb' : b < 256) :
    a + u8 (-(b : Int)) = spec_sub_sum a b 0 := by
  unfold spec_sub_sum u8
  omega

section Table

set_option maxRecDepth 100000

theorem opcodes_subtract_register (r : Register) :
    opcodes (0x90 ||| r.mask) = some (.subtract_register r) := by
  cases r <;> exact rfl

theorem opcodes_subtract_memory : opcodes 0x96 = some .subtract_memory := rfl

theorem opcodes_subtract_immediate : opcodes 0xD6 = some .subtract_immediate := rfl

end Table

theorem sub_flags_against_model (v : Nat) (cpu : CPUState) (ha : cpu.a < 256) (hv : v < 256) :
    (add_value_to_accum (u8 (-(v : Int))) cpu .NO_CARRY).a = spec_sub_sum cpu.a v 0 % 256
    ∧ (v ≠ 0 →
        cpu.a + u8 (-(v : Int)) = spec_sub_sum cpu.a v 0
        ∧ ((add_value_to_accum (u8 (-(v : Int))) cpu .NO_CARRY).carry = true
            ↔ spec_sub_sum cpu.a v 0 > 255))
    ∧ (v = 0 →
        cpu.a + u8 (-(v : Int)) = cpu.a
        ∧ spec_sub_sum cpu.a v 0 = cpu.a + 256
        ∧ (add_value_to_accum (u8 (-(v : Int))) cpu .NO_CARRY).carry = false) := by
  have hu : u8 (-(v : Int)) < 256 := by
    unfold u8
    omega
  obtain ⟨h1, h2⟩ := add_value_to_accum_no_carry (u8 (-(v : Int))) cpu ha hu
  refine ⟨?_, fun hne => ?_, fun hz => ?_⟩
  · rw [h1]
    unfold spec_sub_sum u8
    omega
  · have hsum := sub_sum_eq_model_of_pos cpu.a v (Nat.pos_of_ne_zero hne) hv
    exact ⟨hsum, hsum ▸ h2⟩
  · subst hz
    have hzero : u8 (-((0 : Nat) : Int)) = 0 := by decide
    refine ⟨by omega, ?_, ?_⟩
    · unfold spec_sub_sum u8
      omega
    · cases hc : (add_value_to_accum (u8 (-((0 : Nat) : Int))) cpu .NO_CARRY).carry with
      | false => rfl
      | true =>
        have hgt := h2.1 hc
        omega

set_option maxRecDepth 100000 in
/-- C27 at a concrete input: after `MVI A,05; MVI B,00`, SUB B (opcode `0x90`)
forms the sum `0x05 + 0x00` and ends with `A = 0x05` and the carry flag clear,
while the recommended model forms `0x05 + 0xFF + 1 = 0x105`, whose flag
resolution gives `A = 0x05` with the carry flag set: the two sums are not
equal for every operand. -/
theorem sub_zero_operand_differs_from_model :
    ((run_steps 3 (boot [0x3E, 0x05, 0x06, 0x00, 0x90])).state.map
        fun cpu => (cpu.a, cpu.carry)) = some (0x05, false)
    ∧ 0x05 + u8 (-((0x00 : Nat) : Int)) = 0x05
    ∧ spec_sub_sum 0x05 0x00 0 = 0x105
    ∧ ((resolve_flags_after_add (spec_sub_sum 0x05 0x00 0) (boot_with [] 0x05 0x00 false 0)).a,
        (resolve_flags_after_add (spec_sub_sum 0x05 0x00 0)
          (boot_with [] 0x05 0x00 false 0)).carry) = (0x05, true)
    ∧ ¬ ∀ a b : Nat, a < 256 → b < 256 → a + u8 (-(b : Int)) = spec_sub_sum a b 0 := by
  refine ⟨by decide, by decide, by decide, by decide, fun h => ?_⟩
  exact absurd (h 0x05 0x00 (by decide) (by decide)) (by decide)

/-- C27 as the code has it: SUB r, SUB M and SUI with operand byte `B` (the
register, the byte at `HL`, or the byte after the opcode) leave the
accumulator of the recommended model for every `B`; for every `B` other than
0 the sum the code resolves, `A + ((-B) mod 256)`, is the model's sum
`A + (~B) + 1`, so the carry flag is the model's carry-out bit; for `B = 0`
the code resolves `A` itself and ends with the carry flag clear, while the
model's sum is `A + 256`. -/
theorem sub_matches_model_for_nonzero_operand (cpu : CPUState) (hwf : cpu.WF) (v : Nat)
    (hform : (∃ r : Register, cpu.ram cpu.pc = 0x90 ||| r.mask ∧ cpu.registers r = v)
      ∨ (cpu.ram cpu.pc = 0x96 ∧ cpu.ram (cpu.h * 256 + cpu.l) = v)
      ∨ (cpu.ram cpu.pc = 0xD6 ∧ cpu.pc + 1 < 65536 ∧ cpu.ram (cpu.pc + 1) = v)) :
    ∃ cycles cpu', cycle_cpu cpu = .returned cycles cpu' ∧
      cpu'.a = spec_sub_sum cpu.a v 0 % 256
      ∧ (v ≠ 0 →
          cpu.a + u8 (-(v : Int)) = spec_sub_sum cpu.a v 0
          ∧ (cpu'.carry = true ↔ spec_sub_sum cpu.a v 0 > 255))
      ∧ (v = 0 →
          cpu.a + u8 (-(v : Int)) = cpu.a
          ∧ spec_sub_sum cpu.a v 0 = cpu.a + 256
          ∧ cpu'.carry = false) := by
  rcases hform with ⟨r, hop, hv⟩ | ⟨hop, hv⟩ | ⟨hop, hpc, hv⟩
  · subst hv
    rewrite [cycle_cpu_eq_run _ hwf.pc hop (opcodes_subtract_register r)]
    refine ⟨_, _, rfl, ?_⟩
    dsimp only
    exact sub_flags_against_model _ cpu hwf.a (WF.registers_lt hwf r)
  · subst hv
    rewrite [cycle_cpu_eq_run _ hwf.pc hop opcodes_subtract_memory]
    simp only [Handler.run, subtract_memory, load_HL hwf]
    refine ⟨_, _, rfl, ?_⟩
    dsimp only
    exact sub_flags_against_model _ cpu hwf.a (hwf.ram _)
  · subst hv
    rewrite [cycle_cpu_eq_run _ hwf.pc hop opcodes_subtract_immediate]
    simp only [Handler.run, subtract_immediate, get_immediate_value8_of_lt hpc]
    refine ⟨_, _, rfl, ?_⟩
    dsimp only
    exact sub_flags_against_model _ cpu hwf.a (hwf.ram _)

set_option maxRecDepth 100000 in
/-- C27 as the code has it, at a concrete state: with `A = 0x05` and
`B = 0x03`, SUB B (opcode `0x90`) leaves `A = 0x02` and the carry flag set,
the carry-out of `0x05 + 0xFC + 1 = 0x102`. -/
theorem sub_matches_model_for_nonzero_operand_witness :
    ∃ cycles cpu', cycle_cpu (boot_with [0x90] 0x05 0x03 false 0) = .returned cycles cpu' ∧
      cpu'.a = 0x02 ∧ cpu'.carry = true := by
  obtain ⟨cycles, cpu', hstep, ha, hne, -⟩ :=
    sub_matches_model_for_nonzero_operand (boot_with [0x90] 0x05 0x03 false 0)
      (boot_with_wf _ _ _ _ _ (by decide) (by decide) (by decide) (by decide)) 0x03
      (Or.inl ⟨.B, by decide, by decide⟩)
  exact ⟨cycles, cpu', hstep, ha, (hne (by decide)).2.2 (by decide)⟩


set_option maxRecDepth 100000 in
theorem daa_high_step_sum :
    ∀ a, a < 256 →
      (((((a >>> 4) + 6) % 65536) <<< 4) ||| (a &&& 0x0F)) % 65536 = (a + 0x60) % 65536 := by
  decide

theorem resolve_flags_after_add_a_lt (result : Nat) (cpu : CPUState) :
    (resolve_flags_after_add result cpu).a < 256 := by
  show result &&& 0xFF < 256
  rw [and_255]
  omega

theorem decimal_adjust_accumulator_eq (cpu : CPUState) (ha : cpu.a < 256) :
    decimal_adjust_accumulator cpu = .returned 1 (spec_decimal_adjust cpu) := by
  have hlow : (if (cpu.a &&& 0x0F) > 9 ∨ cpu.aux_carry = true then
        add_value_to_accum 0x06 cpu .NO_CARRY else cpu).a < 256 := by
    split
    · exact resolve_flags_after_add_a_lt _ _
    · exact ha
  simp only [decimal_adjust_accumulator, spec_decimal_adjust, add_value_to_accum,
    Bool.or_eq_true, decide_eq_true_eq, Nat.add_zero] at hlow ⊢
  rw [daa_high_step_sum _ hlow]

set_option maxRecDepth 100000 in
theorem opcodes_decimal_adjust_accumulator :
    opcodes 0x27 = some .decimal_adjust_accumulator := rfl

/-- C28: DAA (opcode `0x27`) returns 1 and leaves the state that two
conditional additions in sequence leave, each resolved like ADI: `0x06` is
added if the low nibble exceeds 9 or `AC` is set, then, on the state after
that step, `0x60` is added if the high nibble exceeds 9 or `CY` is set (the
shifted form of the code is the same sum as `A + 0x60`); when neither
condition holds, only `pc` changes; `pc` advances by 1. -/
theorem daa_is_two_conditional_additions (cpu : CPUState) (hwf : cpu.WF)
    (hop : cpu.ram cpu.pc = 0x27) :
    cycle_cpu cpu = .returned 1 (spec_decimal_adjust cpu)
    ∧ (∀ a, a < 256 →
        (((((a >>> 4) + 6) % 65536) <<< 4) ||| (a &&& 0x0F)) % 65536 = (a + 0x60) % 65536)
    ∧ (¬ ((cpu.a &&& 0x0F) > 9 ∨ cpu.aux_carry = true) →
        ¬ ((cpu.a >>> 4) > 9 ∨ cpu.carry = true) →
        spec_decimal_adjust cpu = { cpu with pc := (cpu.pc + 1) % 65536 })
    ∧ (spec_decimal_adjust cpu).pc = (cpu.pc + 1) % 65536 := by
  refine ⟨?_, daa_high_step_sum, fun h1 h2 => ?_, ?_⟩
  · rewrite [cycle_cpu_eq_run _ hwf.pc hop opcodes_decimal_adjust_accumulator]
    exact decimal_adjust_accumulator_eq cpu hwf.a
  · simp only [spec_decimal_adjust, h1, h2, if_false]
  · simp only [spec_decimal_adjust]
    split <;> split <;> rfl

set_option maxRecDepth 100000 in
/-- C28 at a concrete state: with `A = 0x9B` and no flag set, DAA adds `0x06`
and then `0x60` and ends with `A = 0x01` and the carry flag set. -/
theorem daa_is_two_conditional_additions_witness :
    cycle_cpu (boot_with [0x27] 0x9B 0 false 0)
        = .returned 1 (spec_decimal_adjust (boot_with [0x27] 0x9B 0 false 0))
      ∧ ((spec_decimal_adjust (boot_with [0x27] 0x9B 0 false 0)).a,
          (spec_decimal_adjust (boot_with [0x27] 0x9B 0 false 0)).carry) = (0x01, true) :=
  ⟨(daa_is_two_conditional_additions (boot_with [0x27] 0x9B 0 false 0)
      (boot_with_wf _ _ _ _ _ (by decide) (by decide) (by decide) (by decide)) (by decide)).1,
    by decide⟩


set_option maxRecDepth 100000 in
theorem init_cpu_state_assigns_sp_slots :
    (init_cpu_state.any fun entry =>
        entry.1 == 0xF5 && (match entry.2 with | .push .SP => true | _ => false)) = true
    ∧ (init_cpu_state.any fun entry =>
        entry.1 == 0xF1 && (match entry.2 with | .pop .SP => true | _ => false)) = true := by
  decide

/-- C29: `push` and `pop` throw exactly when called with the `SP` slot, and
then the state is the one they were called with; `init_cpu_state` does assign
`push(SP)` to `0xF5` and `pop(SP)` to `0xF1`, but its later assignments leave
PUSH PSW at `0xF5` and POP PSW at `0xF1`, so a dispatcher step never throws
one of the two errors. -/
theorem push_pop_sp_throw_unreachable (cpu : CPUState) (hwf : cpu.WF) :
    (∀ rp, (∃ error cpu', push rp cpu = .threw error cpu') ↔ rp = .SP)
    ∧ (∀ rp, (∃ error cpu', pop rp cpu = .threw error cpu') ↔ rp = .SP)
    ∧ push .SP cpu = .threw .cannot_push_sp cpu
    ∧ pop .SP cpu = .threw .cannot_pop_sp cpu
    ∧ (init_cpu_state.any fun entry =>
        entry.1 == 0xF5 && (match entry.2 with | .push .SP => true | _ => false)) = true
    ∧ (init_cpu_state.any fun entry =>
        entry.1 == 0xF1 && (match entry.2 with | .pop .SP => true | _ => false)) = true
    ∧ opcodes 0xF5 = some .push_processor_state
    ∧ opcodes 0xF1 = some .pop_processor_state
    ∧ (cycle_cpu cpu).thrown ≠ some .cannot_push_sp
    ∧ (cycle_cpu cpu).thrown ≠ some .cannot_pop_sp := by
  have hthrown : ∀ error, (cycle_cpu cpu).thrown = some error →
      error = .unimplemented_opcode (cpu.ram cpu.pc) := by
    intro error herr
    cases hop : opcodes (cpu.ram cpu.pc) with
    | none =>
      rw [cycle_cpu_of_unassigned hwf.pc hop] at herr
      exact (Option.some.inj herr).symm
    | some handler =>
      rw [cycle_cpu_of_opcode hwf.pc hop,
        thrown_run handler cpu (opcodes_never_throws _ (hwf.ram _) handler hop)] at herr
      cases herr
  refine ⟨fun rp => ⟨?_, ?_⟩, fun rp => ⟨?_, ?_⟩, rfl, rfl, init_cpu_state_assigns_sp_slots.1,
    init_cpu_state_assigns_sp_slots.2, opcodes_push_processor_state,
    opcodes_pop_processor_state, fun h => ?_, fun h => ?_⟩
  · rintro ⟨error, cpu', h⟩
    by_contra hne
    have hnone := thrown_run (.push rp) cpu (by cases rp <;> first | rfl | exact absurd rfl hne)
    rw [Handler.run, h] at hnone
    cases hnone
  · rintro rfl
    exact ⟨_, _, rfl⟩
  · rintro ⟨error, cpu', h⟩
    by_contra hne
    have hnone := thrown_run (.pop rp) cpu (by cases rp <;> first | rfl | exact absurd rfl hne)
    rw [Handler.run, h] at hnone
    cases hnone
  · rintro rfl
    exact ⟨_, _, rfl⟩
  · cases hthrown _ h
  · cases hthrown _ h

set_option maxRecDepth 100000 in
/-- C29 at a concrete state: with PUSH PSW (`0xF5`) at `pc = 0`, the step
throws nothing. -/
theorem push_pop_sp_throw_unreachable_witness :
    (cycle_cpu (boot [0xF5])).thrown ≠ some .cannot_push_sp :=
  (push_pop_sp_throw_unreachable (boot [0xF5]) (boot_wf _ (by decide))).2.2.2.2.2.2.2.2.1


set_option maxRecDepth 100000 in
/-- C30 at failing inputs: a step indexes `ram[0x10000]`, one past the 64 KiB
array, with `MVI A` at `pc = 0xFFFF` (operand index `pc + 1`), with `JMP` at
`pc = 0xFFFE` (operand index `pc + 2`), with `RET` at `sp = 0xFFFF` and `CALL`
at `sp = 0x0001` (stack index `sp + 1`), and with `LHLD 0xFFFF` and
`SHLD 0xFFFF` (index `addr + 1`); each state is reached from the initial
state by the program listed. -/
theorem step_indexes_outside_ram :
    ((run_steps 3 (boot [0x21, 0xFF, 0xFF, 0x36, 0x3E, 0xE9])).state.map
        fun cpu => (cpu.pc, cpu.ram cpu.pc)) = some (0xFFFF, 0x3E)
    ∧ (run_steps 4 (boot [0x21, 0xFF, 0xFF, 0x36, 0x3E, 0xE9])).fault
        = some (.out_of_bounds 0x10000)
    ∧ ((run_steps 3 (boot [0x21, 0xFE, 0xFF, 0x36, 0xC3, 0xE9])).state.map
        fun cpu => (cpu.pc, cpu.ram cpu.pc)) = some (0xFFFE, 0xC3)
    ∧ (run_steps 4 (boot [0x21, 0xFE, 0xFF, 0x36, 0xC3, 0xE9])).fault
        = some (.out_of_bounds 0x10000)
    ∧ (run_steps 2 (boot [0x31, 0xFF, 0xFF, 0xC9])).fault = some (.out_of_bounds 0x10000)
    ∧ (run_steps 2 (boot [0x31, 0x01, 0x00, 0xCD, 0x00, 0x00])).fault
        = some (.out_of_bounds 0x10000)
    ∧ (run_steps 1 (boot [0x2A, 0xFF, 0xFF])).fault = some (.out_of_bounds 0x10000)
    ∧ (run_steps 1 (boot [0x22, 0xFF, 0xFF])).fault = some (.out_of_bounds 0x10000) := by
  decide

end Emu8080
